import Mathlib

/-! # ConvertFP8 operator and the LPT convolution test-graph builders

Shallow embedding of

* `src/core/src/op/convert_fp8.cpp` with `openvino/op/convert_fp8.hpp`
  (the `ConvertFP8` operator: constructor, shape/type inference, `has_evaluate`, `evaluate`);
* `lpt_ngraph_functions/src/convolution_function.cpp`
  (the five `ConvolutionFunction` graph builders).

Machine integers of type `size_t` are naturals with explicit reduction modulo `2 ^ 64`.
Raised exceptions are `Except.error` carrying the message.
-/

namespace ngraph

/-! ## Element types, shapes, tensors -/

namespace element

/-- Element type tags, `ngraph::element::Type_t`. -/
inductive Type_t
  | undefined | dynamic | boolean
  | bf16 | f16 | f32 | f64
  | i4 | i8 | i16 | i32 | i64
  | u1 | u4 | u8 | u16 | u32 | u64
  deriving DecidableEq, Repr

end element

open element (Type_t)

/-- A `ngraph::Shape`: the ordered dimension sizes, each a `size_t`. -/
abbrev Shape := List Nat

/-- Width of `size_t` arithmetic. -/
def SIZE_MOD : Nat := 2 ^ 64

/-- Product of two `size_t` values, as the machine computes it. -/
def size_mul (a b : Nat) : Nat := (a * b) % SIZE_MOD

/-- The element count of a shape, `ngraph::shape_size`: product of the dimensions in `size_t`. -/
def shape_size (s : Shape) : Nat := s.foldl size_mul 1

/-- The storage behind a host tensor.  `contents` is a buffer with known encoded elements;
`lp_convert` stands for the buffer left by a call of
`runtime::reference::detail::lp_convert(arg, out, element_count, src, dst)`, a routine that is
not part of the analysed sources and is kept uninterpreted: the constructor records the call. -/
inductive Buffer
  | contents (elems : List Nat)
  | lp_convert (arg : Buffer) (out : Buffer) (element_count : Nat) (src dst : Type_t)
  deriving DecidableEq, Repr

/-- A `runtime::HostTensor`: element type tag, shape and storage. -/
structure HostTensor where
  element_type : Type_t
  shape : Shape
  data : Buffer
  deriving DecidableEq, Repr

namespace HostTensor

/-- Accessor `HostTensor::get_element_type`. -/
def get_element_type (t : HostTensor) : Type_t := t.element_type

/-- Accessor `HostTensor::get_shape`. -/
def get_shape (t : HostTensor) : Shape := t.shape

/-- Modelled from the spec: `HostTensor::set_shape` (tensor-buffer abstraction, not under src/):
"copies the input's shape to the output"; the storage is not touched. -/
def set_shape (t : HostTensor) (s : Shape) : HostTensor := { t with shape := s }

end HostTensor

/-- A `HostTensorVector`: a vector of shared pointers, each possibly null. -/
abbrev HostTensorVector := List (Option HostTensor)

/-- Modelled from the spec: `validate_host_tensor_vector` (validation_util, not under src/):
"requires exactly one input and one output tensor": the vector has the requested size and
holds no null tensor. -/
def validate_host_tensor_vector (v : HostTensorVector) (size : Nat) : Bool :=
  v.length == size && v.all Option.isSome

/-! ## The ConvertFP8 operator -/

/-- The element types for which `convert_fp8.cpp` has a `case` label. -/
def fp_types : List Type_t := [Type_t.bf16, Type_t.f16, Type_t.f32]

/-- The packed sub-byte element types tested in the kernel template. -/
def packed_types : List Type_t := [Type_t.u1, Type_t.u4, Type_t.i4]

namespace convertfp8

/-- The kernel template `evaluate<INPUT_ET, OUTPUT_ET>(arg, out)` (convert_fp8.cpp 42-61). -/
def evaluate_INPUT_ET_OUTPUT_ET (INPUT_ET OUTPUT_ET : Type_t) (arg out : HostTensor) :
    Bool × HostTensor :=
  let out := out.set_shape arg.get_shape
  let element_count := shape_size out.get_shape
  if ((INPUT_ET = Type_t.u1) ∨ (OUTPUT_ET = Type_t.u1)) ∨
     ((INPUT_ET = Type_t.u4) ∨ (OUTPUT_ET = Type_t.u4)) ∨
     ((INPUT_ET = Type_t.i4) ∨ (OUTPUT_ET = Type_t.i4)) then
    -- lp_convert(arg data, out data, element_count, INPUT_ET, OUTPUT_ET)
    -- TODO in the source: "Add convertion code here"
    (true, { out with data := Buffer.lp_convert arg.data out.data element_count INPUT_ET OUTPUT_ET })
  else
    (true, out)

/-- The dispatch template `evaluate<INPUT_ET>(arg, out)`: a switch over the output element
type with the cases bf16, f16, f32 (convert_fp8.cpp 69-82). -/
def evaluate_INPUT_ET (INPUT_ET : Type_t) (arg out : HostTensor) : Bool × HostTensor :=
  match out.get_element_type with
  | Type_t.bf16 => evaluate_INPUT_ET_OUTPUT_ET INPUT_ET Type_t.bf16 arg out
  | Type_t.f16 => evaluate_INPUT_ET_OUTPUT_ET INPUT_ET Type_t.f16 arg out
  | Type_t.f32 => evaluate_INPUT_ET_OUTPUT_ET INPUT_ET Type_t.f32 arg out
  | _ => (false, out)

/-- The function `evaluate_convert(arg, out)`: a switch over the input element type with the
cases bf16, f16, f32 (convert_fp8.cpp 84-95). -/
def evaluate_convert (arg out : HostTensor) : Bool × HostTensor :=
  match arg.get_element_type with
  | Type_t.bf16 => evaluate_INPUT_ET Type_t.bf16 arg out
  | Type_t.f16 => evaluate_INPUT_ET Type_t.f16 arg out
  | Type_t.f32 => evaluate_INPUT_ET Type_t.f32 arg out
  | _ => (false, out)

end convertfp8

/-- A partial shape: of dynamic rank, or static. -/
inductive PartialShape
  | dynamic
  | static (s : Shape)
  deriving DecidableEq, Repr

namespace descriptor

/-- A tensor descriptor: element type and partial shape of a node output. -/
structure Tensor where
  element_type : Type_t
  partial_shape : PartialShape
  deriving DecidableEq, Repr

end descriptor

namespace op

/-- The state of a `ConvertFP8` node: the descriptors of the outputs its inputs are wired to,
its own output descriptors, and the member `m_destination_type`. -/
structure ConvertFP8 where
  inputs : List descriptor.Tensor
  outputs : List descriptor.Tensor
  m_destination_type : Type_t
  deriving DecidableEq, Repr

namespace ConvertFP8

/-- Accessor `Node::get_input_element_type(i)`; an index out of range raises. -/
def get_input_element_type (n : ConvertFP8) (i : Nat) : Except String Type_t :=
  match n.inputs[i]? with
  | some t => .ok t.element_type
  | none => .error "input index out of range"

/-- Accessor `Node::get_output_element_type(i)`; an index out of range raises. -/
def get_output_element_type (n : ConvertFP8) (i : Nat) : Except String Type_t :=
  match n.outputs[i]? with
  | some t => .ok t.element_type
  | none => .error "output index out of range"

/-- Accessor `Node::get_output_partial_shape(i)`; an index out of range raises. -/
def get_output_partial_shape (n : ConvertFP8) (i : Nat) : Except String PartialShape :=
  match n.outputs[i]? with
  | some t => .ok t.partial_shape
  | none => .error "output index out of range"

/-- Modelled from the spec: the base-class constructor `Op({arg})` (operator base-class
hierarchy, not under src/): it wires the argument as the single input and creates the single
output descriptor in the "not yet validated" state, element type dynamic and shape dynamic;
the member `m_destination_type` is default-initialised (undefined). -/
def Op (arg : descriptor.Tensor) : ConvertFP8 :=
  { inputs := [arg]
    outputs := [{ element_type := Type_t.dynamic, partial_shape := PartialShape.dynamic }]
    m_destination_type := Type_t.undefined }

/-- The method `ConvertFP8::validate_and_infer_types` (convert_fp8.cpp 25-27): the body holds
only the profiling scope. -/
def validate_and_infer_types (n : ConvertFP8) : ConvertFP8 := n

/-- The constructor `ConvertFP8::ConvertFP8(arg)` (convert_fp8.cpp 20-23): base construction,
then `constructor_validate_and_infer_types()`. -/
def mk_node (arg : descriptor.Tensor) : ConvertFP8 :=
  validate_and_infer_types (Op arg)

/-- The method `ConvertFP8::has_evaluate` (convert_fp8.cpp 107-127). -/
def has_evaluate (n : ConvertFP8) : Except String Bool :=
  match n.get_input_element_type 0 with
  | .error e => .error e
  | .ok i =>
    let in_ok : Bool :=
      match i with
      | Type_t.bf16 => true
      | Type_t.f16 => true
      | Type_t.f32 => true
      | _ => false
    if !in_ok then .ok false
    else
      match n.get_output_element_type 0 with
      | .error e => .error e
      | .ok o =>
        match o with
        | Type_t.bf16 => .ok true
        | Type_t.f16 => .ok true
        | Type_t.f32 => .ok true
        | _ => .ok false

/-- The method `ConvertFP8::evaluate(output_values, input_values)` (convert_fp8.cpp 100-105).
A failed `NGRAPH_CHECK` raises.  On return the pair holds the boolean result and the output
vector, whose tensor 0 is the one the kernel worked on. -/
def evaluate (output_values input_values : HostTensorVector) :
    Except String (Bool × HostTensorVector) :=
  if !validate_host_tensor_vector input_values 1 then
    .error "Check 'validate_host_tensor_vector(input_values, 1)' failed"
  else if !validate_host_tensor_vector output_values 1 then
    .error "Check 'validate_host_tensor_vector(output_values, 1)' failed"
  else
    match input_values[0]?, output_values[0]? with
    | some (some arg), some (some out) =>
      let r := convertfp8.evaluate_convert arg out
      .ok (r.1, output_values.set 0 (some r.2))
    | _, _ => .error "null tensor"

/-- A node with one input of the given element type and one output of the given element type. -/
def with_types (i : Type_t) (si : PartialShape) (o : Type_t) (so : PartialShape) : ConvertFP8 :=
  { inputs := [{ element_type := i, partial_shape := si }]
    outputs := [{ element_type := o, partial_shape := so }]
    m_destination_type := Type_t.undefined }

end ConvertFP8
end op

/-! ## The graph model used by the convolution builders -/

namespace builder
namespace subgraph

/-- A C++ float value, kept as its IEEE-754 binary32 bit pattern: the builders only copy
such values, they never compute with them. -/
structure float where
  bits : Nat
  deriving DecidableEq, Repr

/-- The literal `1` converted to float, line 94. -/
def float_1 : float := ⟨0x3F800000⟩

/-- The literal `3.0f`, lines 104 and 168. -/
def float_3 : float := ⟨0x40400000⟩

/-- A node is referred to by its index in the list of the nodes constructed so far. -/
abbrev NodeId := Nat

/-- The operations of the nodes the builders construct.  `Constant` keeps the arguments of
`Constant::create(type, shape, values)`; `ShapeConstant` is a constant created from a vector of
`size_t`; `FoldedConvert dst src shape values` is the constant obtained by constant-folding a
`Convert` to `dst` over the constant `Constant src shape values`. -/
inductive NodeOp
  | Parameter (et : Type_t) (shape : Shape)
  | Constant (et : Type_t) (shape : Shape) (values : List float)
  | ShapeConstant (et : Type_t) (shape : Shape) (values : List Nat)
  | FoldedConvert (dst src : Type_t) (shape : Shape) (values : List float)
  | FakeQuantize (levels : Nat)
  | Convert (dst : Type_t)
  | Subtract
  | Multiply
  | Convolution
  | Result
  deriving DecidableEq, Repr

/-- A graph node: operation, the nodes its inputs are wired to (in input order), friendly
name, runtime info entries and the overridden output type of a type-relaxed node. -/
structure Node where
  op : NodeOp
  inputs : List NodeId
  friendly_name : String
  rt_info : List (String × String)
  overridden_output_type : Option Type_t
  deriving DecidableEq, Repr

/-- All nodes constructed so far, in construction order. -/
abbrev Graph := List Node

/-- A `ngraph::Function`: result nodes, parameters and name. -/
structure Function where
  results : List NodeId
  parameters : List NodeId
  name : String
  deriving DecidableEq, Repr

/-- How a construction can fail: with the `std::runtime_error` the builder throws, or by
undefined behaviour of the C++ (a null node pointer used as an input, `v[0]` on an empty
vector, `inputShape[1]` on a shape of rank below 2). -/
inductive BuildError
  | runtime_error (what : String)
  | undefined_behaviour (what : String)
  deriving DecidableEq, Repr

/-- A construction step: it runs on the nodes constructed so far and gives a value or a
failure, together with the nodes constructed by then. -/
def Build (α : Type) : Type := Graph → Except BuildError α × Graph

instance : Monad Build where
  pure a := fun g => (.ok a, g)
  bind x f := fun g =>
    match x g with
    | (.ok a, g1) => f a g1
    | (.error e, g1) => (.error e, g1)

/-- Raising: the construction stops, the nodes constructed so far stay recorded. -/
def raise {α : Type} (e : BuildError) : Build α := fun g => (.error e, g)

/-- All pointers of a list are non-null. -/
def non_null : List (Option NodeId) → Option (List NodeId)
  | [] => some []
  | none :: _ => none
  | some i :: rest =>
    match non_null rest with
    | some is => some (i :: is)
    | none => none

/-- Node construction (`std::make_shared<Op>(inputs...)`): the new node is appended and its
index returned.  A null input pointer is undefined behaviour. -/
def make_shared (op : NodeOp) (inputs : List (Option NodeId)) : Build NodeId := fun g =>
  match non_null inputs with
  | some is =>
    (.ok g.length,
     g ++ [{ op := op, inputs := is, friendly_name := "", rt_info := [],
             overridden_output_type := none }])
  | none => (.error (.undefined_behaviour "null input node"), g)

/-- Apply a change to the node with the given index. -/
def update_node (id : NodeId) (f : Node → Node) : Build PUnit := fun g =>
  match g[id]? with
  | some n => (.ok ⟨⟩, g.set id (f n))
  | none => (.error (.undefined_behaviour "no such node"), g)

/-- The method `Node::set_friendly_name`. -/
def set_friendly_name (id : NodeId) (name : String) : Build PUnit :=
  update_node id (fun n => { n with friendly_name := name })

/-- The statement `rtInfo[key] = value` on the node's runtime info. -/
def set_rt_info (id : NodeId) (key value : String) : Build PUnit :=
  update_node id (fun n => { n with rt_info := (key, value) :: n.rt_info })

/-- Modelled from the spec: `NetworkHelper::setOutDataPrecision` and
`setOutDataPrecisionForTypeRelaxed` (low_precision, not under src/): the node's output type
"is forced to a caller-specified type (precision override)". -/
def setOutDataPrecision (id : NodeId) (precision : Type_t) : Build PUnit :=
  update_node id (fun n => { n with overridden_output_type := some precision })

/-- The method `Node::get_input_node_shared_ptr(i)`. -/
def get_input_node_shared_ptr (id : NodeId) (i : Nat) : Build NodeId := fun g =>
  match g[id]? with
  | some n =>
    match n.inputs[i]? with
    | some t => (.ok t, g)
    | none => (.error (.undefined_behaviour "no such input"), g)
  | none => (.error (.undefined_behaviour "no such node"), g)

/-- The expression `v[0]` on a vector of floats: undefined behaviour when it is empty. -/
def front (v : List float) : Build float :=
  match v with
  | x :: _ => pure x
  | [] => raise (.undefined_behaviour "index 0 of an empty vector")

/-- Modelled from the spec: `ngraph::replace_node(target, replacement)` (graph IR layer, not
under src/), the "replace all uses of node X with node Y" primitive: every input wired to the
target is rewired to the replacement. -/
def replace_node (target replacement : NodeId) : Build PUnit := fun g =>
  (.ok ⟨⟩, g.map (fun n =>
    { n with inputs := n.inputs.map (fun i => if i = target then replacement else i) }))

/-- The constructor `Constant(type, shape, value)`: every element holds the one value. -/
def Constant_fill (et : Type_t) (shape : Shape) (value : float) : NodeOp :=
  NodeOp.Constant et shape (List.replicate (shape_size shape) value)

/-! ## Descriptors and node factories -/

/-- Modelled from the spec: the quantization descriptor `FakeQuantizeOnData` (declared in
lpt_ngraph_functions/common, not under src/): "level count, per-axis broadcast shape, low bound
values, high bound values for the forward direction, plus low, high for the output range". -/
structure FakeQuantizeOnData where
  quantizationLevel : Nat
  constantShape : Shape
  inputLowValues : List float
  inputHighValues : List float
  outputLowValues : List float
  outputHighValues : List float
  deriving DecidableEq, Repr

/-- Modelled from the spec: the "empty" sentinel state of a quantization descriptor, meaning
"do not insert a quantization node": no level count, no shape, no bound values. -/
def FakeQuantizeOnData.empty (d : FakeQuantizeOnData) : Bool :=
  d.quantizationLevel == 0 && d.constantShape.isEmpty &&
  d.inputLowValues.isEmpty && d.inputHighValues.isEmpty &&
  d.outputLowValues.isEmpty && d.outputHighValues.isEmpty

/-- The weights descriptor has the fields of the data descriptor. -/
abbrev FakeQuantizeOnWeights := FakeQuantizeOnData

namespace DequantizationOperations

/-- Modelled from the spec: the convert stage of a dequantization descriptor, present or absent. -/
structure Convert where
  isEmpty : Bool
  outPrecision : Type_t
  deriving DecidableEq, Repr

/-- Modelled from the spec: the subtract-constant stage of a dequantization descriptor. -/
structure Subtract where
  values : List float
  outPrecision : Type_t
  constantShape : Shape
  deriving DecidableEq, Repr

/-- Modelled from the spec: the multiply-constant stage of a dequantization descriptor. -/
structure Multiply where
  values : List float
  outPrecision : Type_t
  constantShape : Shape
  deriving DecidableEq, Repr

/-- The convert stage is absent. -/
def Convert.empty (c : Convert) : Bool := c.isEmpty

/-- The subtract stage is absent: it has no values. -/
def Subtract.empty (c : Subtract) : Bool := c.values.isEmpty

/-- The multiply stage is absent: it has no values. -/
def Multiply.empty (c : Multiply) : Bool := c.values.isEmpty

end DequantizationOperations

/-- Modelled from the spec: the dequantization descriptor (declared in
lpt_ngraph_functions/common, not under src/): "ordered optional stages convert-to-type,
subtract-constant, multiply-constant, each independently present/absent". -/
structure DequantizationOperations where
  convert : DequantizationOperations.Convert
  subtract : DequantizationOperations.Subtract
  multiply : DequantizationOperations.Multiply
  deriving DecidableEq, Repr

/-- The descriptor is empty when each of its stages is absent. -/
def DequantizationOperations.empty (d : DequantizationOperations) : Bool :=
  d.convert.empty && d.subtract.empty && d.multiply.empty

/-- Modelled from the spec: `ngraph::builder::makeFakeQuantize` (ngraph_functions, not under
src/): from the descriptor's fields it builds the four range constants and "returns a single
quantize node" whose inputs are the data, input low, input high, output low, output high. -/
def makeFakeQuantize (input : Option NodeId) (type : Type_t) (fq : FakeQuantizeOnData) :
    Build NodeId := do
  let inputLowNode ← make_shared (.Constant type fq.constantShape fq.inputLowValues) []
  let inputHighNode ← make_shared (.Constant type fq.constantShape fq.inputHighValues) []
  let outputLowNode ← make_shared (.Constant type fq.constantShape fq.outputLowValues) []
  let outputHighNode ← make_shared (.Constant type fq.constantShape fq.outputHighValues) []
  make_shared (.FakeQuantize fq.quantizationLevel)
    [input, some inputLowNode, some inputHighNode, some outputLowNode, some outputHighNode]

/-- Modelled from the spec: the convert stage of `makeDequantization`. -/
def makeDequantization_convert (data : NodeId) (d : DequantizationOperations) : Build NodeId :=
  if d.convert.empty then pure data
  else make_shared (.Convert d.convert.outPrecision) [some data]

/-- Modelled from the spec: the subtract stage of `makeDequantization`. -/
def makeDequantization_subtract (parent : NodeId) (d : DequantizationOperations) :
    Build NodeId :=
  if d.subtract.empty then pure parent
  else do
    let c ← make_shared
      (.Constant d.subtract.outPrecision d.subtract.constantShape d.subtract.values) []
    make_shared .Subtract [some parent, some c]

/-- Modelled from the spec: the multiply stage of `makeDequantization`. -/
def makeDequantization_multiply (parent : NodeId) (d : DequantizationOperations) :
    Build NodeId :=
  if d.multiply.empty then pure parent
  else do
    let c ← make_shared
      (.Constant d.multiply.outPrecision d.multiply.constantShape d.multiply.values) []
    make_shared .Multiply [some parent, some c]

/-- Modelled from the spec: `makeDequantization(input, descriptor)` (lpt_ngraph_functions
builders, not under src/): it "builds, in order, a convert stage if requested, a subtract stage
if requested, and a multiply stage if requested; returns the last stage's output node, or the
original input if descriptor is empty". -/
def makeDequantization (data : NodeId) (d : DequantizationOperations) : Build NodeId := do
  let parent ← makeDequantization_convert data d
  let parent ← makeDequantization_subtract parent d
  makeDequantization_multiply parent d

/-- A `std::shared_ptr<opset1::Constant>`: the node and the immutable contents it points to
(element type, shape, and the values `cast_vector<float>()` gives). -/
structure ConstantPtr where
  node : NodeId
  et : Type_t
  shape : Shape
  values : List float
  deriving DecidableEq, Repr

/-- Modelled from the spec: `fold<opset1::Broadcast>(weights, target)` (low_precision, not
under src/), the "constant-folding utility that can evaluate a construction-time operation
(e.g., broadcast) eagerly into a new constant node": the single value of `weights` broadcast
to the target shape. -/
def fold_Broadcast (weights : ConstantPtr) (targetShape : Shape) : Build ConstantPtr := do
  let v ← front weights.values
  let values := List.replicate (shape_size targetShape) v
  let node ← make_shared (.Constant weights.et targetShape values) []
  pure { node := node, et := weights.et, shape := targetShape, values := values }

/-- Modelled from the spec: `fold<opset1::Convert>(weights, weightsPrecision)`
(low_precision, not under src/): the constant-folded conversion of the weights constant
to the weights precision. -/
def fold_Convert (src : Type_t) (shape : Shape) (values : List float) (dst : Type_t) :
    Build NodeId :=
  make_shared (.FoldedConvert dst src shape values) []

/-- The test of lines 37, 149, 230 and 297 on the number of weight values. -/
def unexpected_size (size inputChannelsCount outputChannelsCount : Nat) : Bool :=
  size != 1 && size != size_mul inputChannelsCount outputChannelsCount

/-- The vector given to `Constant::create` in lines 156-158 and 306-308:
`size() == 1 ? std::vector<float>(n, weightsValues[0]) : weightsValues`. -/
def weights_vector (n : Nat) (weightsValues : List float) : List float :=
  match weightsValues with
  | [v] => List.replicate n v
  | _ => weightsValues

/-- The message of the `std::runtime_error` thrown by the builders. -/
def unexpected_size_error : BuildError :=
  .runtime_error "unexpected actual weights values size"

/-! ## The five builders of `ConvolutionFunction`

In each builder `inputShape[1]` is read from a `std::vector`; on a shape of rank below 2 that is
undefined behaviour, which the embedding reports for the whole call.  The stack-allocated
`convolutionOriginal` and its `TypeRelaxed` copy are one Convolution node with the same two
inputs; `TemporaryReplaceOutputType(x, f32).get()` is the output of `x`. -/

namespace ConvolutionFunction

/-- Lines 37-39, 149-151, 230-232 and 297-299: the test on the number of weight values. -/
def check_weights_size (size inputChannelsCount outputChannelsCount : Nat) : Build PUnit :=
  if unexpected_size size inputChannelsCount outputChannelsCount then
    raise unexpected_size_error
  else pure ⟨⟩

/-- Lines 41-45 and 234-238: a single weight value is broadcast to the target shape. -/
def broadcast_weights (weights : ConstantPtr) (outputChannelsCount inputChannelsCount : Nat) :
    Build ConstantPtr :=
  if weights.values.length == 1 then do
    let targetShape : Shape := [outputChannelsCount, inputChannelsCount, 1, 1]
    let _target ← make_shared
      (.ShapeConstant Type_t.i64 [targetShape.length] targetShape) []
    fold_Broadcast weights targetShape
  else pure weights

/-- A quantize node on the given input, or the null pointer for an empty descriptor
(lines 83-87, 96-101, 160-165). -/
def fakeQuantize_or_null (input : NodeId) (precision : Type_t) (fq : FakeQuantizeOnData) :
    Build (Option NodeId) :=
  if fq.empty then pure none
  else do
    let n ← makeFakeQuantize (some input) precision fq
    pure (some n)

/-- Lines 103-104 and 167-168: the null pointer when `isCorrect`, else the subtract node on
the weights quantizer and the constant 3.0 of the given type. -/
def subtract_or_null (isCorrect : Bool) (fqOnWeights : Option NodeId) (type : Type_t) :
    Build (Option NodeId) :=
  if isCorrect then pure none
  else do
    let c ← make_shared (Constant_fill type [1, 1, 1, 1] float_3) []
    let n ← make_shared .Subtract [fqOnWeights, some c]
    pure (some n)

/-- The builder `ConvolutionFunction::getOriginal` (lines 25-74). -/
def getOriginal (inputPrecision : Type_t) (inputShape : Shape)
    (dequantizationBefore : DequantizationOperations) (weights : ConstantPtr)
    (fakeQuantizeOnWeights : FakeQuantizeOnWeights) : Build Function :=
  match inputShape[1]? with
  | none => raise (.undefined_behaviour "inputShape[1]")
  | some inputChannelsCount => do
    let input ← make_shared (.Parameter inputPrecision inputShape) []
    let dequantization ← makeDequantization input dequantizationBefore
    let outputChannelsCount := size_mul 2 inputChannelsCount
    check_weights_size weights.values.length inputChannelsCount outputChannelsCount
    let weights ← broadcast_weights weights outputChannelsCount inputChannelsCount
    let onWeights ←
      (if fakeQuantizeOnWeights.empty then pure weights.node
       else makeFakeQuantize (some weights.node) weights.et fakeQuantizeOnWeights)
    let convolution ← make_shared .Convolution [some dequantization, some onWeights]
    set_friendly_name convolution "output"
    set_rt_info convolution "Variant::std::string" "convolution"
    let result ← make_shared .Result [some convolution]
    pure { results := [result], parameters := [input], name := "ConvolutionTransformation" }

/-- The builder `ConvolutionFunction::getOriginalWithIncorrectWeights` (lines 76-116). -/
def getOriginalWithIncorrectWeights (inputShape : Shape) (precision : Type_t)
    (fakeQuantizeOnWeights : FakeQuantizeOnWeights) (fakeQuantizeOnData : FakeQuantizeOnData)
    (isCorrect : Bool) : Build Function :=
  match inputShape[1]? with
  | none => raise (.undefined_behaviour "inputShape[1]")
  | some inputChannelsCount => do
    let input ← make_shared (.Parameter precision inputShape) []
    let fqOnData ← fakeQuantize_or_null input precision fakeQuantizeOnData
    let outputChannelsCount := size_mul 2 inputChannelsCount
    let weights ← make_shared
      (.Constant precision [outputChannelsCount, inputChannelsCount, 1, 1]
        (List.replicate (size_mul outputChannelsCount inputChannelsCount) float_1)) []
    let fqOnWeights ← fakeQuantize_or_null weights precision fakeQuantizeOnWeights
    let subtract ← subtract_or_null isCorrect fqOnWeights Type_t.f32
    let convolution ← make_shared .Convolution
      [if fakeQuantizeOnData.empty then some input else fqOnData,
       if isCorrect then fqOnWeights else subtract]
    let result ← make_shared .Result [some convolution]
    pure { results := [result], parameters := [input],
           name := "IncorrectWeightsAndConvolutionFunction" }

/-- Lines 183-188: the multiply after the convolution, or the null pointer. -/
def multiply_or_null (dequantizationAfter : DequantizationOperations) (isCorrect : Bool)
    (precision : Type_t) (convolution : NodeId) : Build (Option NodeId) :=
  if !dequantizationAfter.multiply.empty then do
    let constShape : Shape := if isCorrect then [1, 1, 1] else [1, 1, 1, 1]
    let v ← front dequantizationAfter.multiply.values
    let c ← make_shared (Constant_fill precision constShape v) []
    let n ← make_shared .Multiply [some convolution, some c]
    pure (some n)
  else pure none

/-- Lines 190-194: input `index` of the data quantizer is replaced by a new scalar constant
holding `values[0]`. -/
def replace_range_constant (fqOnData : NodeId) (index : Nat) (precision : Type_t)
    (values : List float) : Build PUnit := do
  let old ← get_input_node_shared_ptr fqOnData index
  let v ← front values
  let c ← make_shared (Constant_fill precision [] v) []
  replace_node old c

/-- The expression `p->...` on a node pointer: undefined behaviour when it is null. -/
def deref (p : Option NodeId) : Build NodeId :=
  match p with
  | some n => pure n
  | none => raise (.undefined_behaviour "null node pointer")

/-- Lines 198-203: with a multiply in `dequantizationBefore`, input 1 of `deqBefore` is
replaced by a new constant holding `multiply.values[0]`. -/
def replace_multiply_constant (dequantizationBefore : DequantizationOperations)
    (isCorrect : Bool) (precision : Type_t) (deqBefore : Option NodeId) : Build PUnit :=
  if !dequantizationBefore.multiply.empty then do
    let constShape : Shape := if isCorrect then [1, 1, 1] else [1, 1, 1, 1]
    let deq ← deref deqBefore
    let old ← get_input_node_shared_ptr deq 1
    let v ← front dequantizationBefore.multiply.values
    let c ← make_shared (Constant_fill precision constShape v) []
    replace_node old c
  else pure ⟨⟩

/-- Lines 205-209: when `isCorrect`, the weights constant is replaced by its folded
conversion to the weights precision. -/
def replace_weights (isCorrect : Bool) (weights : NodeId) (precision : Type_t)
    (weightsShape : Shape) (weightsData : List float) (weightsPrecision : Type_t) :
    Build PUnit :=
  if isCorrect then do
    let converted ← fold_Convert precision weightsShape weightsData weightsPrecision
    replace_node weights converted
  else pure ⟨⟩

/-- The builder `ConvolutionFunction::getReferenceWithIncorrectWeights` (lines 118-213). -/
def getReferenceWithIncorrectWeights (inputShape : Shape) (precision dataPrecision : Type_t)
    (fakeQuantizeOnData : FakeQuantizeOnData) (dequantizationBefore : DequantizationOperations)
    (weightsPrecision : Type_t) (weightsValues : List float)
    (fakeQuantizeOnWeights : FakeQuantizeOnWeights)
    (dequantizationAfter : DequantizationOperations) (isCorrect : Bool) : Build Function :=
  match inputShape[1]? with
  | none => raise (.undefined_behaviour "inputShape[1]")
  | some inputChannelsCount => do
    let input ← make_shared (.Parameter precision inputShape) []
    set_friendly_name input "input"
    let fqOnData ← makeFakeQuantize (some input) precision fakeQuantizeOnData
    setOutDataPrecision fqOnData dataPrecision
    let deqBefore : Option NodeId ←
      (if dequantizationBefore.empty then pure none
       else do
        let n ← makeDequantization fqOnData dequantizationBefore
        pure (some n))
    let outputChannelsCount := size_mul 2 inputChannelsCount
    check_weights_size weightsValues.length inputChannelsCount outputChannelsCount
    let weightsShape : Shape := [outputChannelsCount, inputChannelsCount, 1, 1]
    let weightsData :=
      weights_vector (size_mul outputChannelsCount inputChannelsCount) weightsValues
    let weights ← make_shared (.Constant precision weightsShape weightsData) []
    let fqOnWeights ← fakeQuantize_or_null weights precision fakeQuantizeOnWeights
    let subtract ← subtract_or_null isCorrect fqOnWeights precision
    let convolution ← make_shared .Convolution
      [if dequantizationBefore.empty then some fqOnData else deqBefore,
       if isCorrect then some weights else subtract]
    let multiply ← multiply_or_null dequantizationAfter isCorrect precision convolution
    replace_range_constant fqOnData 3 precision fakeQuantizeOnData.outputLowValues
    replace_range_constant fqOnData 4 precision fakeQuantizeOnData.outputHighValues
    setOutDataPrecision fqOnData dataPrecision
    replace_multiply_constant dequantizationBefore isCorrect precision deqBefore
    replace_weights isCorrect weights precision weightsShape weightsData weightsPrecision
    let result ← make_shared .Result
      [if dequantizationAfter.empty then some convolution else multiply]
    pure { results := [result], parameters := [input],
           name := "IncorrectWeightsAndConvolutionFunction" }

/-- The builder `ConvolutionFunction::getReference` (lines 215-274). -/
def getReference (inputPrecision : Type_t) (inputShape : Shape)
    (dequantizationBefore : DequantizationOperations) (weights : ConstantPtr)
    (fakeQuantizeOnWeights : FakeQuantizeOnWeights) (precisionAfterOperation : Type_t)
    (dequantizationAfter : DequantizationOperations) (_precisionAfterDequantization : Type_t) :
    Build Function :=
  match inputShape[1]? with
  | none => raise (.undefined_behaviour "inputShape[1]")
  | some inputChannelsCount => do
    let input ← make_shared (.Parameter inputPrecision inputShape) []
    let deqBefore ← makeDequantization input dequantizationBefore
    let outputChannelsCount := size_mul 2 inputChannelsCount
    check_weights_size weights.values.length inputChannelsCount outputChannelsCount
    let weights ← broadcast_weights weights outputChannelsCount inputChannelsCount
    let onWeights ←
      (if fakeQuantizeOnWeights.empty then pure weights.node
       else makeFakeQuantize (some weights.node) weights.et fakeQuantizeOnWeights)
    let convolution ← make_shared .Convolution [some deqBefore, some onWeights]
    setOutDataPrecision convolution precisionAfterOperation
    set_rt_info convolution "Variant::std::string" "convolution"
    let deqAfter ← makeDequantization convolution dequantizationAfter
    set_friendly_name deqAfter "output"
    let result ← make_shared .Result [some deqAfter]
    pure { results := [result], parameters := [input], name := "ConvolutionTransformation" }

/-- The builder `ConvolutionFunction::get` (lines 276-332). -/
def get (inputShape : Shape) (precision : Type_t) (fakeQuantizeOnData : FakeQuantizeOnData)
    (weightsValues : List float) (fakeQuantizeOnWeights : FakeQuantizeOnWeights) :
    Build Function :=
  match inputShape[1]? with
  | none => raise (.undefined_behaviour "inputShape[1]")
  | some inputChannelsCount => do
    let input ← make_shared (.Parameter precision inputShape) []
    set_friendly_name input "input"
    let fqOnData ← makeFakeQuantize (some input) precision fakeQuantizeOnData
    let outputChannelsCount := size_mul 2 inputChannelsCount
    check_weights_size weightsValues.length inputChannelsCount outputChannelsCount
    let parentOnData := if fakeQuantizeOnData.empty then input else fqOnData
    let weights ← make_shared
      (.Constant precision [outputChannelsCount, inputChannelsCount, 1, 1]
        (weights_vector (size_mul outputChannelsCount inputChannelsCount) weightsValues)) []
    let parentOnWeights ←
      (if fakeQuantizeOnWeights.empty then pure weights
       else makeFakeQuantize (some weights) precision fakeQuantizeOnWeights)
    let convolution ← make_shared .Convolution [some parentOnData, some parentOnWeights]
    let result ← make_shared .Result [some convolution]
    pure { results := [result], parameters := [input], name := "ConvolutionFunction" }

end ConvolutionFunction

/-! ## Calls of the builders -/

/-- A call of one of the five builders with its arguments.  For `getOriginal` and
`getReference` the caller's weights constant is given by its element type, shape and values. -/
inductive Call
  | getOriginal (inputPrecision : Type_t) (inputShape : Shape)
      (dequantizationBefore : DequantizationOperations)
      (weightsType : Type_t) (weightsShape : Shape) (weightsValues : List float)
      (fakeQuantizeOnWeights : FakeQuantizeOnWeights)
  | getOriginalWithIncorrectWeights (inputShape : Shape) (precision : Type_t)
      (fakeQuantizeOnWeights : FakeQuantizeOnWeights) (fakeQuantizeOnData : FakeQuantizeOnData)
      (isCorrect : Bool)
  | getReferenceWithIncorrectWeights (inputShape : Shape) (precision dataPrecision : Type_t)
      (fakeQuantizeOnData : FakeQuantizeOnData)
      (dequantizationBefore : DequantizationOperations)
      (weightsPrecision : Type_t) (weightsValues : List float)
      (fakeQuantizeOnWeights : FakeQuantizeOnWeights)
      (dequantizationAfter : DequantizationOperations) (isCorrect : Bool)
  | getReference (inputPrecision : Type_t) (inputShape : Shape)
      (dequantizationBefore : DequantizationOperations)
      (weightsType : Type_t) (weightsShape : Shape) (weightsValues : List float)
      (fakeQuantizeOnWeights : FakeQuantizeOnWeights) (precisionAfterOperation : Type_t)
      (dequantizationAfter : DequantizationOperations)
      (precisionAfterDequantization : Type_t)
  | get (inputShape : Shape) (precision : Type_t) (fakeQuantizeOnData : FakeQuantizeOnData)
      (weightsValues : List float) (fakeQuantizeOnWeights : FakeQuantizeOnWeights)
  deriving DecidableEq, Repr

namespace Call

/-- The caller's weights constant as a node. -/
def weights_node (et : Type_t) (shape : Shape) (values : List float) : Node :=
  { op := .Constant et shape values, inputs := [], friendly_name := "", rt_info := [],
    overridden_output_type := none }

/-- The nodes that exist when the builder is entered: the caller's weights constant for
`getOriginal` and `getReference`, none for the other builders. -/
def initial : Call → Graph
  | .getOriginal _ _ _ et shape values _ => [weights_node et shape values]
  | .getReference _ _ _ et shape values _ _ _ _ => [weights_node et shape values]
  | _ => []

/-- The input shape argument of the call. -/
def inputShape : Call → Shape
  | .getOriginal _ s _ _ _ _ _ => s
  | .getOriginalWithIncorrectWeights s _ _ _ _ => s
  | .getReferenceWithIncorrectWeights s _ _ _ _ _ _ _ _ _ => s
  | .getReference _ s _ _ _ _ _ _ _ _ => s
  | .get s _ _ _ _ => s

/-- The precision argument from which the input Parameter is created. -/
def precision : Call → Type_t
  | .getOriginal p _ _ _ _ _ _ => p
  | .getOriginalWithIncorrectWeights _ p _ _ _ => p
  | .getReferenceWithIncorrectWeights _ p _ _ _ _ _ _ _ _ => p
  | .getReference p _ _ _ _ _ _ _ _ _ => p
  | .get _ p _ _ _ => p

/-- The number of weight values supplied; `getOriginalWithIncorrectWeights` takes none. -/
def weightsCount : Call → Option Nat
  | .getOriginal _ _ _ _ _ values _ => some values.length
  | .getOriginalWithIncorrectWeights _ _ _ _ _ => none
  | .getReferenceWithIncorrectWeights _ _ _ _ _ _ values _ _ _ => some values.length
  | .getReference _ _ _ _ _ values _ _ _ _ => some values.length
  | .get _ _ _ values _ => some values.length

/-- The statements of the builder that precede the test on the number of weight values
(lines 31-32, 129-144, 224-225, 282-293): the input Parameter and the nodes built on it. -/
def data_path : Call → Build PUnit
  | .getOriginal p s d _ _ _ _ => do
    let input ← make_shared (.Parameter p s) []
    let _ ← makeDequantization input d
    pure ⟨⟩
  | .getOriginalWithIncorrectWeights _ _ _ _ _ => pure ⟨⟩
  | .getReferenceWithIncorrectWeights s p dp fqd d _ _ _ _ _ => do
    let input ← make_shared (.Parameter p s) []
    set_friendly_name input "input"
    let fqOnData ← makeFakeQuantize (some input) p fqd
    setOutDataPrecision fqOnData dp
    let _ ← (if d.empty then pure none
             else do
              let n ← makeDequantization fqOnData d
              pure (some n))
    pure ⟨⟩
  | .getReference p s d _ _ _ _ _ _ _ => do
    let input ← make_shared (.Parameter p s) []
    let _ ← makeDequantization input d
    pure ⟨⟩
  | .get s p fqd _ _ => do
    let input ← make_shared (.Parameter p s) []
    set_friendly_name input "input"
    let _ ← makeFakeQuantize (some input) p fqd
    pure ⟨⟩

/-- Running the call: the outcome of the builder and all nodes constructed by then. -/
def run : Call → Except BuildError Function × Graph
  | .getOriginal p s d et shape values fqw =>
    ConvolutionFunction.getOriginal p s d
      { node := 0, et := et, shape := shape, values := values } fqw
      [weights_node et shape values]
  | .getOriginalWithIncorrectWeights s p fqw fqd isCorrect =>
    ConvolutionFunction.getOriginalWithIncorrectWeights s p fqw fqd isCorrect []
  | .getReferenceWithIncorrectWeights s p dp fqd db wp values fqw da isCorrect =>
    ConvolutionFunction.getReferenceWithIncorrectWeights s p dp fqd db wp values fqw da
      isCorrect []
  | .getReference p s d et shape values fqw pao da pad =>
    ConvolutionFunction.getReference p s d
      { node := 0, et := et, shape := shape, values := values } fqw pao da pad
      [weights_node et shape values]
  | .get s p fqd values fqw => ConvolutionFunction.get s p fqd values fqw []

end Call

/-- The operation of the node with the given index, if there is one. -/
def op_at (g : Graph) (id : NodeId) : Option NodeOp := (g[id]?).map Node.op

/-- The inputs of the node with the given index, if there is one. -/
def inputs_at (g : Graph) (id : NodeId) : Option (List NodeId) := (g[id]?).map Node.inputs

/-! ## Properties of construction steps -/

/-- The step raises a `std::runtime_error` only when `P` holds. -/
def RaisesOnly {α : Type} (P : Prop) (x : Build α) : Prop :=
  ∀ (g : Graph) (m : String), (x g).1 = .error (.runtime_error m) → P

/-- The step never changes the operation of a node that exists already. -/
def OpsStable {α : Type} (x : Build α) : Prop :=
  ∀ (g : Graph) (i : NodeId) (o : NodeOp), op_at g i = some o → op_at (x g).2 i = some o

/-- Started where node `input` has operation `o`, a successful run of the step returns a
function whose only parameter is `input`, still with operation `o`, and whose only result is
a Result node. -/
def SingleInputSingleResult (input : NodeId) (o : NodeOp) (x : Build Function) : Prop :=
  ∀ (g : Graph) (F : Function) (g1 : Graph), op_at g input = some o → x g = (.ok F, g1) →
    F.parameters = [input] ∧ op_at g1 input = some o ∧
    ∃ r, F.results = [r] ∧ op_at g1 r = some NodeOp.Result

/-- A successful run of the step leaves a node with operation `o` among the nodes. -/
def Creates {α : Type} (o : NodeOp) (x : Build α) : Prop :=
  ∀ (g : Graph) (a : α) (g1 : Graph), x g = (.ok a, g1) → ∃ w, op_at g1 w = some o

/-! ## Reading the constructed graph -/

/-- The node wired to input `k` of node `id`. -/
def input_node (g : Graph) (id : NodeId) (k : Nat) : Option NodeId :=
  match g[id]? with
  | some n => n.inputs[k]?
  | none => none

/-- Starting at `id`, follow input 0 until a Convolution node is reached. -/
def find_convolution (g : Graph) : Nat → NodeId → Option NodeId
  | 0, _ => none
  | fuel + 1, id =>
    if op_at g id = some NodeOp.Convolution then some id
    else
      match input_node g id 0 with
      | some next => find_convolution g fuel next
      | none => none

/-- The Convolution node of a constructed function: the node found from the input of the
single Result by following input 0. -/
def convolution_node (r : Except BuildError Function × Graph) : Option NodeId :=
  match r.1 with
  | .ok F =>
    match F.results with
    | [res] =>
      match input_node r.2 res 0 with
      | some out => find_convolution r.2 r.2.length out
      | none => none
    | _ => none
  | .error _ => none

/-- The operations of the nodes wired to the inputs of node `id`. -/
def input_ops (g : Graph) (id : NodeId) : Option (List NodeOp) :=
  match g[id]? with
  | some n => some (n.inputs.filterMap (op_at g))
  | none => none

/-- The operations of the nodes wired to the data input and the weights input of the
Convolution node. -/
def convolution_input_ops (r : Except BuildError Function × Graph) : Option (List NodeOp) :=
  match convolution_node r with
  | some conv => input_ops r.2 conv
  | none => none

/-- The operation of the node wired to the weights input (input 1) of the Convolution node,
with the operations of the nodes wired to that node's own inputs. -/
def weights_path (r : Except BuildError Function × Graph) : Option (NodeOp × List NodeOp) :=
  match convolution_node r with
  | some conv =>
    match input_node r.2 conv 1 with
    | some w =>
      match op_at r.2 w, input_ops r.2 w with
      | some o, some ins => some (o, ins)
      | _, _ => none
    | none => none
  | none => none

/-- The weights constant of the builders `get` and `getReferenceWithIncorrectWeights`, for
an input shape with `inputShape[1] = C`, the weight values `vs` and the constant contents
`data`: the call of `get` succeeds and its node 6 (the node constructed after the input, the
four range constants and the data quantizer) is a constant of the given precision, of shape
{2C, C, 1, 1}, holding `data`; with an empty weights descriptor the Convolution's weights input
is that constant, and with both descriptors empty the Convolution's inputs are the Parameter
and that constant; every successful call of `getReferenceWithIncorrectWeights` constructs a
constant with that type, shape and contents. -/
def WeightsConstantBuilt (inputShape : Shape) (C : Nat) (p : Type_t)
    (fqd : FakeQuantizeOnData) (fqw : FakeQuantizeOnWeights) (vs data : List float) : Prop :=
  (∃ F, (Call.run (Call.get inputShape p fqd vs fqw)).1 = .ok F) ∧
  op_at (Call.run (Call.get inputShape p fqd vs fqw)).2 6
    = some (NodeOp.Constant p [size_mul 2 C, C, 1, 1] data) ∧
  (fqw.empty = true →
    weights_path (Call.run (Call.get inputShape p fqd vs fqw))
      = some (NodeOp.Constant p [size_mul 2 C, C, 1, 1] data, [])) ∧
  (fqw.empty = true → fqd.empty = true →
    convolution_input_ops (Call.run (Call.get inputShape p fqd vs fqw))
      = some [NodeOp.Parameter p inputShape,
              NodeOp.Constant p [size_mul 2 C, C, 1, 1] data]) ∧
  (∀ (dp : Type_t) (d : DequantizationOperations) (wp : Type_t)
      (da : DequantizationOperations) (isCorrect : Bool) (F : Function),
    (Call.run (Call.getReferenceWithIncorrectWeights inputShape p dp fqd d wp vs fqw da
      isCorrect)).1 = .ok F →
    ∃ w, op_at (Call.run (Call.getReferenceWithIncorrectWeights inputShape p dp fqd d wp vs
      fqw da isCorrect)).2 w = some (NodeOp.Constant p [size_mul 2 C, C, 1, 1] data))

/-! ## Friendly names -/

/-- The friendly name of the node with the given index; the empty string stands for a node on
which `set_friendly_name` was never called (C++ then reports the generated unique name). -/
def friendly_name_at (g : Graph) (id : NodeId) : Option String :=
  (g[id]?).map Node.friendly_name

/-- The node that feeds the single Result of a constructed function. -/
def output_node (r : Except BuildError Function × Graph) : Option NodeId :=
  match r.1 with
  | .ok F =>
    match F.results with
    | [res] => input_node r.2 res 0
    | _ => none
  | .error _ => none

/-- The friendly name of the node that feeds the single Result. -/
def output_name (r : Except BuildError Function × Graph) : Option String :=
  match output_node r with
  | some out => friendly_name_at r.2 out
  | none => none

/-- Started where no node is named "output", the step leaves no node named "output". -/
def NeverNamesOutput {α : Type} (x : Build α) : Prop :=
  ∀ (g : Graph), (∀ n ∈ g, n.friendly_name ≠ "output") →
    ∀ n ∈ (x g).2, n.friendly_name ≠ "output"

/-- A successful run of the step returns a function whose single Result is fed by a node
with the friendly name "output". -/
def NamesOutput (x : Build Function) : Prop :=
  ∀ (g : Graph) (F : Function) (g1 : Graph), x g = (.ok F, g1) →
    output_name (.ok F, g1) = some "output"

/-! ## Paths into the Convolution -/

/-- The operations met from node `id` by following input 0 up to a node without inputs. -/
def chain_ops (g : Graph) : Nat → NodeId → List NodeOp
  | 0, _ => []
  | fuel + 1, id =>
    match g[id]? with
    | some n =>
      n.op :: (match n.inputs[0]? with
               | some next => chain_ops g fuel next
               | none => [])
    | none => []

/-- The path into input `k` of the Convolution node: the operation of the node wired to that
input, then the operations met by following input 0 up to a node without inputs. -/
def convolution_input_chain (r : Except BuildError Function × Graph) (k : Nat) :
    Option (List NodeOp) :=
  match convolution_node r with
  | some conv =>
    match input_node r.2 conv k with
    | some d => some (chain_ops r.2 r.2.length d)
    | none => none
  | none => none

/-- The data path of the Convolution node (input 0), from the node it consumes back to the
node the path starts at. -/
def data_chain (r : Except BuildError Function × Graph) : Option (List NodeOp) :=
  convolution_input_chain r 0

/-- The weights path of the Convolution node (input 1), from the node it consumes back to the
node the path starts at. -/
def weights_chain (r : Except BuildError Function × Graph) : Option (List NodeOp) :=
  convolution_input_chain r 1

/-- The stages `makeDequantization` builds for a descriptor, last stage first. -/
def dequantization_ops (d : DequantizationOperations) : List NodeOp :=
  (if d.multiply.empty then [] else [NodeOp.Multiply]) ++
  (if d.subtract.empty then [] else [NodeOp.Subtract]) ++
  (if d.convert.empty then [] else [NodeOp.Convert d.convert.outPrecision])

/-! ## The graph surgery of the reference builder -/

/-- The node pointers `getReferenceWithIncorrectWeights` holds when its replacements start
(line 190), with the shape and contents of the weights constant. -/
structure ReferenceLocals where
  input : NodeId
  fqOnData : NodeId
  deqBefore : Option NodeId
  weights : NodeId
  weightsShape : Shape
  weightsData : List float
  convolution : NodeId
  multiply : Option NodeId
  deriving DecidableEq, Repr

namespace ConvolutionFunction

/-- Lines 129-188 of `getReferenceWithIncorrectWeights`: the construction of the nodes, up to
the multiply after the convolution. -/
def getReferenceWithIncorrectWeights_construction (inputShape : Shape)
    (precision dataPrecision : Type_t) (fakeQuantizeOnData : FakeQuantizeOnData)
    (dequantizationBefore : DequantizationOperations) (weightsValues : List float)
    (fakeQuantizeOnWeights : FakeQuantizeOnWeights)
    (dequantizationAfter : DequantizationOperations) (isCorrect : Bool) :
    Build ReferenceLocals :=
  match inputShape[1]? with
  | none => raise (.undefined_behaviour "inputShape[1]")
  | some inputChannelsCount => do
    let input ← make_shared (.Parameter precision inputShape) []
    set_friendly_name input "input"
    let fqOnData ← makeFakeQuantize (some input) precision fakeQuantizeOnData
    setOutDataPrecision fqOnData dataPrecision
    let deqBefore : Option NodeId ←
      (if dequantizationBefore.empty then pure none
       else do
        let n ← makeDequantization fqOnData dequantizationBefore
        pure (some n))
    let outputChannelsCount := size_mul 2 inputChannelsCount
    check_weights_size weightsValues.length inputChannelsCount outputChannelsCount
    let weightsShape : Shape := [outputChannelsCount, inputChannelsCount, 1, 1]
    let weightsData :=
      weights_vector (size_mul outputChannelsCount inputChannelsCount) weightsValues
    let weights ← make_shared (.Constant precision weightsShape weightsData) []
    let fqOnWeights ← fakeQuantize_or_null weights precision fakeQuantizeOnWeights
    let subtract ← subtract_or_null isCorrect fqOnWeights precision
    let convolution ← make_shared .Convolution
      [if dequantizationBefore.empty then some fqOnData else deqBefore,
       if isCorrect then some weights else subtract]
    let multiply ← multiply_or_null dequantizationAfter isCorrect precision convolution
    pure { input := input, fqOnData := fqOnData, deqBefore := deqBefore, weights := weights,
           weightsShape := weightsShape, weightsData := weightsData,
           convolution := convolution, multiply := multiply }

/-- Lines 190-209 of `getReferenceWithIncorrectWeights`: the replacements. -/
def getReferenceWithIncorrectWeights_surgery (precision dataPrecision : Type_t)
    (fakeQuantizeOnData : FakeQuantizeOnData) (dequantizationBefore : DequantizationOperations)
    (weightsPrecision : Type_t) (isCorrect : Bool) (l : ReferenceLocals) : Build PUnit := do
  replace_range_constant l.fqOnData 3 precision fakeQuantizeOnData.outputLowValues
  replace_range_constant l.fqOnData 4 precision fakeQuantizeOnData.outputHighValues
  setOutDataPrecision l.fqOnData dataPrecision
  replace_multiply_constant dequantizationBefore isCorrect precision l.deqBefore
  replace_weights isCorrect l.weights precision l.weightsShape l.weightsData weightsPrecision

/-- Lines 211-212 of `getReferenceWithIncorrectWeights`: the Result and the function. -/
def getReferenceWithIncorrectWeights_result (dequantizationAfter : DequantizationOperations)
    (l : ReferenceLocals) : Build Function := do
  let result ← make_shared .Result
    [if dequantizationAfter.empty then some l.convolution else l.multiply]
  pure { results := [result], parameters := [l.input],
         name := "IncorrectWeightsAndConvolutionFunction" }

end ConvolutionFunction

/-- The positions, counted from `k`, at which the list of inputs holds node `id`. -/
def input_positions (id : NodeId) : Nat → List NodeId → List Nat
  | _, [] => []
  | k, i :: rest =>
    if i = id then k :: input_positions id (k + 1) rest
    else input_positions id (k + 1) rest

/-- The edges leaving node `id` among the nodes numbered from `c`: the pairs of a consumer
and the position of the input wired to `id`. -/
def consumers_from (id : NodeId) : Nat → Graph → List (NodeId × Nat)
  | _, [] => []
  | c, n :: rest =>
    (input_positions id 0 n.inputs).map (fun k => (c, k)) ++ consumers_from id (c + 1) rest

/-- The consumers of node `id`: every edge that leaves it, as consumer and input position. -/
def consumers (g : Graph) (id : NodeId) : List (NodeId × Nat) := consumers_from id 0 g

/-- The operation of the node wired to input `k` of node `id`. -/
def input_op (g : Graph) (id : NodeId) (k : Nat) : Option NodeOp :=
  match input_node g id k with
  | some i => op_at g i
  | none => none

/-- Position by position, each input of the first list has an input in the second list that
is related to it by `ok`. -/
def inputs_related (ok : NodeId → NodeId → Bool) : List NodeId → List NodeId → Bool
  | [], _ => true
  | _ :: _, [] => false
  | x :: xs, y :: ys => ok x y && inputs_related ok xs ys

/-- Node by node and position by position, each edge of the first graph has an edge in the
second graph, into the same input of the same node, whose source is related to it by `ok`. -/
def edges_related (ok : NodeId → NodeId → Bool) : Graph → Graph → Bool
  | [], _ => true
  | _ :: _, [] => false
  | b :: bs, a :: as => inputs_related ok b.inputs a.inputs && edges_related ok bs as

/-- The nodes the replacements of lines 190-209 are applied to, in the graph they start on:
the nodes wired to inputs 3 and 4 of the data quantizer, with a multiply in
`dequantizationBefore` the node wired to input 1 of `deqBefore`, and when `isCorrect` the
weights constant. -/
def replaced_nodes (dequantizationBefore : DequantizationOperations) (isCorrect : Bool)
    (loc : ReferenceLocals) (before : Graph) : List NodeId :=
  (input_node before loc.fqOnData 3).toList ++ (input_node before loc.fqOnData 4).toList ++
  (if dequantizationBefore.multiply.empty then []
   else
    match loc.deqBefore with
    | some deq => (input_node before deq 1).toList
    | none => []) ++
  (if isCorrect then [loc.weights] else [])

/-- The node pointers of a call of `getReferenceWithIncorrectWeights` with the graph before
and the graph after its replacements (lines 190-209), when construction and replacements
succeed. -/
def surgery_graphs (inputShape : Shape) (precision dataPrecision : Type_t)
    (fakeQuantizeOnData : FakeQuantizeOnData) (dequantizationBefore : DequantizationOperations)
    (weightsPrecision : Type_t) (weightsValues : List float)
    (fakeQuantizeOnWeights : FakeQuantizeOnWeights)
    (dequantizationAfter : DequantizationOperations) (isCorrect : Bool) :
    Option (ReferenceLocals × Graph × Graph) :=
  match ConvolutionFunction.getReferenceWithIncorrectWeights_construction inputShape precision
      dataPrecision fakeQuantizeOnData dequantizationBefore weightsValues
      fakeQuantizeOnWeights dequantizationAfter isCorrect [] with
  | (.ok loc, before) =>
    match ConvolutionFunction.getReferenceWithIncorrectWeights_surgery precision dataPrecision
        fakeQuantizeOnData dequantizationBefore weightsPrecision isCorrect loc before with
    | (.ok _, after) => some (loc, before, after)
    | (.error _, _) => none
  | (.error _, _) => none

/-- The effect of the replacements of `getReferenceWithIncorrectWeights` (lines 190-209) in a
call with the given arguments.  The construction (lines 129-188) succeeds, giving the node
pointers `loc` and the graph `before`; the replacements succeed on it, giving the graph `after`;
the Result is built, giving the function the builder returns and the graph `final`.  In `final`
inputs 3 and 4 of the data quantizer are constants of the given precision and shape {} holding
`outputLowValues[0]` and `outputHighValues[0]`, and with a multiply in `dequantizationBefore`
the node `deqBefore` is that Multiply and its input 1 is a constant of shape {1,1,1}
(`isCorrect`) or {1,1,1,1} holding `multiply.values[0]`.  Between `before` and `after` the
inputs 0, 1 and 2 of the data quantizer and the consumers of the data quantizer (it has one,
at that node's input 0), of `deqBefore` and of the Convolution are the same.  Every edge of
`before` whose source is not one of the replaced nodes is the same edge in `after`.  The
replaced range constants and the replaced multiply constant had the one consumer they were
replaced in.  When `isCorrect`, the weights constant is input 1 of the Convolution, every edge
leaving it leads in `after` from the node that is then input 1 of the Convolution, and that
node is the weights constant folded to the weights precision. -/
def SurgeryFrame (inputShape : Shape) (precision dataPrecision : Type_t)
    (fakeQuantizeOnData : FakeQuantizeOnData) (dequantizationBefore : DequantizationOperations)
    (weightsPrecision : Type_t) (weightsValues : List float)
    (fakeQuantizeOnWeights : FakeQuantizeOnWeights)
    (dequantizationAfter : DequantizationOperations) (isCorrect : Bool) : Prop :=
  ∃ (loc : ReferenceLocals) (before : Graph),
    ConvolutionFunction.getReferenceWithIncorrectWeights_construction inputShape precision
      dataPrecision fakeQuantizeOnData dequantizationBefore weightsValues
      fakeQuantizeOnWeights dequantizationAfter isCorrect [] = (.ok loc, before) ∧
    ∃ after : Graph,
    ConvolutionFunction.getReferenceWithIncorrectWeights_surgery precision dataPrecision
      fakeQuantizeOnData dequantizationBefore weightsPrecision isCorrect loc before
      = (.ok ⟨⟩, after) ∧
    ∃ (F : Function) (final : Graph),
    ConvolutionFunction.getReferenceWithIncorrectWeights_result dequantizationAfter loc after
      = (.ok F, final) ∧
    Call.run (Call.getReferenceWithIncorrectWeights inputShape precision dataPrecision
      fakeQuantizeOnData dequantizationBefore weightsPrecision weightsValues
      fakeQuantizeOnWeights dequantizationAfter isCorrect) = (.ok F, final) ∧
    op_at before loc.fqOnData
      = some (NodeOp.FakeQuantize fakeQuantizeOnData.quantizationLevel) ∧
    op_at before loc.convolution = some NodeOp.Convolution ∧
    (∃ c, consumers before loc.fqOnData = [(c, 0)]) ∧
    input_op final loc.fqOnData 3
      = fakeQuantizeOnData.outputLowValues.head?.map (Constant_fill precision []) ∧
    input_op final loc.fqOnData 4
      = fakeQuantizeOnData.outputHighValues.head?.map (Constant_fill precision []) ∧
    (∀ m : float, dequantizationBefore.multiply.values.head? = some m →
      ∃ deq, loc.deqBefore = some deq ∧ op_at final deq = some NodeOp.Multiply ∧
        input_op final deq 1
          = some (Constant_fill precision (if isCorrect then [1, 1, 1] else [1, 1, 1, 1]) m)) ∧
    input_node after loc.fqOnData 0 = input_node before loc.fqOnData 0 ∧
    input_node after loc.fqOnData 1 = input_node before loc.fqOnData 1 ∧
    input_node after loc.fqOnData 2 = input_node before loc.fqOnData 2 ∧
    consumers after loc.fqOnData = consumers before loc.fqOnData ∧
    (∀ deq, loc.deqBefore = some deq → consumers after deq = consumers before deq) ∧
    consumers after loc.convolution = consumers before loc.convolution ∧
    (∀ (i : NodeId) (k : Nat) (t : NodeId), input_node before i k = some t →
      t ∉ replaced_nodes dequantizationBefore isCorrect loc before →
      input_node after i k = some t) ∧
    (∀ t, input_node before loc.fqOnData 3 = some t →
      consumers before t = [(loc.fqOnData, 3)]) ∧
    (∀ t, input_node before loc.fqOnData 4 = some t →
      consumers before t = [(loc.fqOnData, 4)]) ∧
    (∀ deq, loc.deqBefore = some deq → ∀ t, input_node before deq 1 = some t →
      dequantizationBefore.multiply.empty = false → consumers before t = [(deq, 1)]) ∧
    (isCorrect = true →
      input_node before loc.convolution 1 = some loc.weights ∧
      input_op after loc.convolution 1
        = some (NodeOp.FoldedConvert weightsPrecision precision loc.weightsShape
            loc.weightsData) ∧
      ∀ (i : NodeId) (k : Nat), input_node before i k = some loc.weights →
        input_node after i k = input_node after loc.convolution 1)

end subgraph
end builder

/-! ## Lemmas on construction steps -/

set_option linter.unusedTactic false
set_option linter.unreachableTactic false

namespace builder.subgraph

theorem bind_apply {α β : Type} (x : Build α) (f : α → Build β) (g : Graph) :
    (x >>= f) g =
      match x g with
      | (.ok a, g1) => f a g1
      | (.error e, g1) => (.error e, g1) := rfl

theorem pure_apply {α : Type} (a : α) (g : Graph) : (pure a : Build α) g = (.ok a, g) := rfl

theorem raise_apply {α : Type} (e : BuildError) (g : Graph) :
    (raise e : Build α) g = (.error e, g) := rfl

theorem bind_ok {α β : Type} {x : Build α} {f : α → Build β} {g g1 : Graph} {a : α}
    (h : x g = (.ok a, g1)) : (x >>= f) g = f a g1 := by
  rw [bind_apply, h]

theorem bind_error {α β : Type} {x : Build α} {f : α → Build β} {g g1 : Graph} {e : BuildError}
    (h : x g = (.error e, g1)) : (x >>= f) g = (.error e, g1) := by
  rw [bind_apply, h]

/-! ### RaisesOnly -/

theorem RaisesOnly_pure {α : Type} {P : Prop} (a : α) : RaisesOnly P (pure a : Build α) := by
  intro g m h
  simp [pure_apply] at h

theorem RaisesOnly_raise_ub {α : Type} {P : Prop} (s : String) :
    RaisesOnly P (raise (.undefined_behaviour s) : Build α) := by
  intro g m h
  simp [raise_apply] at h

theorem RaisesOnly_raise_of {α : Type} {P : Prop} (e : BuildError) (h : P) :
    RaisesOnly P (raise e : Build α) := fun _ _ _ => h

theorem RaisesOnly_bind {α β : Type} {P : Prop} {x : Build α} {f : α → Build β}
    (hx : RaisesOnly P x) (hf : ∀ a, RaisesOnly P (f a)) : RaisesOnly P (x >>= f) := by
  intro g m h
  rw [bind_apply] at h
  rcases hxg : x g with ⟨r, g1⟩
  rw [hxg] at h
  cases r with
  | ok a => exact hf a g1 m h
  | error e =>
    change (Except.error e : Except BuildError β) = _ at h
    have he : e = BuildError.runtime_error m := by injection h
    have hgm := hx g m
    rw [hxg, he] at hgm
    exact hgm rfl

theorem RaisesOnly_ite {α : Type} {P : Prop} {c : Prop} [Decidable c] {x y : Build α}
    (hx : c → RaisesOnly P x) (hy : ¬c → RaisesOnly P y) :
    RaisesOnly P (if c then x else y) := by
  by_cases hc : c
  · rw [if_pos hc]; exact hx hc
  · rw [if_neg hc]; exact hy hc

theorem RaisesOnly_make_shared {P : Prop} (o : NodeOp) (ins : List (Option NodeId)) :
    RaisesOnly P (make_shared o ins) := by
  intro g m h
  unfold make_shared at h
  split at h <;> simp at h

theorem RaisesOnly_update_node {P : Prop} (id : NodeId) (f : Node → Node) :
    RaisesOnly P (update_node id f) := by
  intro g m h
  unfold update_node at h
  split at h <;> simp at h

theorem RaisesOnly_get_input {P : Prop} (id : NodeId) (i : Nat) :
    RaisesOnly P (get_input_node_shared_ptr id i) := by
  intro g m h
  unfold get_input_node_shared_ptr at h
  split at h
  · split at h <;> simp at h
  · simp at h

theorem RaisesOnly_front {P : Prop} (v : List float) : RaisesOnly P (front v) := by
  cases v with
  | nil => exact RaisesOnly_raise_ub _
  | cons x xs => exact RaisesOnly_pure _

theorem RaisesOnly_replace_node {P : Prop} (t r : NodeId) : RaisesOnly P (replace_node t r) := by
  intro g m h
  simp [replace_node] at h

theorem RaisesOnly_deref {P : Prop} (p : Option NodeId) :
    RaisesOnly P (ConvolutionFunction.deref p) := by
  cases p with
  | none => exact RaisesOnly_raise_ub _
  | some n => exact RaisesOnly_pure _

/-! ### OpsStable -/

theorem op_at_append {g : Graph} {i : NodeId} {o : NodeOp} (h : op_at g i = some o)
    (extra : Graph) : op_at (g ++ extra) i = some o := by
  unfold op_at at h ⊢
  cases hi : g[i]? with
  | none => rw [hi] at h; simp at h
  | some n =>
    obtain ⟨hlt, _⟩ := List.getElem?_eq_some.1 hi
    rw [List.getElem?_append_left hlt, hi]
    rw [hi] at h
    exact h

theorem op_at_length (g : Graph) (n : Node) : op_at (g ++ [n]) g.length = some n.op := by
  unfold op_at
  simp

theorem OpsStable_pure {α : Type} (a : α) : OpsStable (pure a : Build α) := by
  intro g i o h
  exact h

theorem OpsStable_raise {α : Type} (e : BuildError) : OpsStable (raise e : Build α) := by
  intro g i o h
  exact h

theorem OpsStable_bind {α β : Type} {x : Build α} {f : α → Build β}
    (hx : OpsStable x) (hf : ∀ a, OpsStable (f a)) : OpsStable (x >>= f) := by
  intro g i o h
  have h1 := hx g i o h
  rw [bind_apply]
  rcases hxg : x g with ⟨r, g1⟩
  rw [hxg] at h1
  cases r with
  | ok a => exact hf a g1 i o h1
  | error e => exact h1

theorem OpsStable_ite {α : Type} {c : Prop} [Decidable c] {x y : Build α}
    (hx : OpsStable x) (hy : OpsStable y) : OpsStable (if c then x else y) := by
  by_cases hc : c
  · rw [if_pos hc]; exact hx
  · rw [if_neg hc]; exact hy

theorem OpsStable_make_shared (o : NodeOp) (ins : List (Option NodeId)) :
    OpsStable (make_shared o ins) := by
  intro g i o1 h
  unfold make_shared
  split
  · exact op_at_append h _
  · exact h

theorem OpsStable_update_node (id : NodeId) (f : Node → Node) (hf : ∀ n, (f n).op = n.op) :
    OpsStable (update_node id f) := by
  intro g i o h
  unfold update_node
  split
  · rename_i n hn
    unfold op_at at h ⊢
    simp only [List.getElem?_set]
    by_cases hid : id = i
    · subst hid
      rw [hn] at h
      simp at h
      obtain ⟨hlt, _⟩ := List.getElem?_eq_some.1 hn
      simp [hlt, hf, h]
    · simp [hid, h]
  · exact h

theorem OpsStable_set_friendly_name (id : NodeId) (name : String) :
    OpsStable (set_friendly_name id name) :=
  OpsStable_update_node _ _ (fun _ => rfl)

theorem OpsStable_set_rt_info (id : NodeId) (k v : String) : OpsStable (set_rt_info id k v) :=
  OpsStable_update_node _ _ (fun _ => rfl)

theorem OpsStable_setOutDataPrecision (id : NodeId) (t : Type_t) :
    OpsStable (setOutDataPrecision id t) :=
  OpsStable_update_node _ _ (fun _ => rfl)

theorem OpsStable_get_input (id : NodeId) (k : Nat) :
    OpsStable (get_input_node_shared_ptr id k) := by
  intro g i o h
  unfold get_input_node_shared_ptr
  split
  · split <;> exact h
  · exact h

theorem OpsStable_front (v : List float) : OpsStable (front v) := by
  cases v with
  | nil => exact OpsStable_raise _
  | cons x xs => exact OpsStable_pure _

theorem OpsStable_replace_node (t r : NodeId) : OpsStable (replace_node t r) := by
  intro g i o h
  unfold op_at at h ⊢
  simp only [replace_node, List.getElem?_map]
  cases hi : g[i]? with
  | none => rw [hi] at h; simp at h
  | some n => rw [hi] at h; simpa using h

theorem OpsStable_deref (p : Option NodeId) : OpsStable (ConvolutionFunction.deref p) := by
  cases p with
  | none => exact OpsStable_raise _
  | some n => exact OpsStable_pure _

/-! ### Composite steps -/

theorem RaisesOnly_makeFakeQuantize {P : Prop} (i : Option NodeId) (t : Type_t)
    (fq : FakeQuantizeOnData) : RaisesOnly P (makeFakeQuantize i t fq) := by
  unfold makeFakeQuantize
  repeat' with_reducible first
    | exact RaisesOnly_pure _
    | exact RaisesOnly_make_shared _ _
    | refine RaisesOnly_bind ?_ (fun _ => ?_)

theorem RaisesOnly_makeDequantization {P : Prop} (data : NodeId)
    (d : DequantizationOperations) : RaisesOnly P (makeDequantization data d) := by
  unfold makeDequantization makeDequantization_convert makeDequantization_subtract
    makeDequantization_multiply
  repeat' with_reducible first
    | exact RaisesOnly_pure _
    | exact RaisesOnly_make_shared _ _
    | refine RaisesOnly_ite (fun _ => ?_) (fun _ => ?_)
    | refine RaisesOnly_bind ?_ (fun _ => ?_)

theorem RaisesOnly_check {s a b : Nat} :
    RaisesOnly (unexpected_size s a b = true) (ConvolutionFunction.check_weights_size s a b) := by
  unfold ConvolutionFunction.check_weights_size
  refine RaisesOnly_ite (fun h => RaisesOnly_raise_of _ h) (fun _ => RaisesOnly_pure _)

theorem RaisesOnly_broadcast_weights {P : Prop} (w : ConstantPtr) (a b : Nat) :
    RaisesOnly P (ConvolutionFunction.broadcast_weights w a b) := by
  unfold ConvolutionFunction.broadcast_weights fold_Broadcast
  repeat' with_reducible first
    | exact RaisesOnly_pure _
    | exact RaisesOnly_make_shared _ _
    | exact RaisesOnly_front _
    | refine RaisesOnly_ite (fun _ => ?_) (fun _ => ?_)
    | refine RaisesOnly_bind ?_ (fun _ => ?_)

theorem RaisesOnly_fakeQuantize_or_null {P : Prop} (i : NodeId) (t : Type_t)
    (fq : FakeQuantizeOnData) :
    RaisesOnly P (ConvolutionFunction.fakeQuantize_or_null i t fq) := by
  unfold ConvolutionFunction.fakeQuantize_or_null
  repeat' with_reducible first
    | exact RaisesOnly_pure _
    | exact RaisesOnly_makeFakeQuantize _ _ _
    | refine RaisesOnly_ite (fun _ => ?_) (fun _ => ?_)
    | refine RaisesOnly_bind ?_ (fun _ => ?_)

theorem RaisesOnly_subtract_or_null {P : Prop} (c : Bool) (fq : Option NodeId) (t : Type_t) :
    RaisesOnly P (ConvolutionFunction.subtract_or_null c fq t) := by
  unfold ConvolutionFunction.subtract_or_null
  repeat' with_reducible first
    | exact RaisesOnly_pure _
    | exact RaisesOnly_make_shared _ _
    | refine RaisesOnly_ite (fun _ => ?_) (fun _ => ?_)
    | refine RaisesOnly_bind ?_ (fun _ => ?_)

theorem RaisesOnly_multiply_or_null {P : Prop} (d : DequantizationOperations) (c : Bool)
    (t : Type_t) (conv : NodeId) :
    RaisesOnly P (ConvolutionFunction.multiply_or_null d c t conv) := by
  unfold ConvolutionFunction.multiply_or_null
  repeat' with_reducible first
    | exact RaisesOnly_pure _
    | exact RaisesOnly_make_shared _ _
    | exact RaisesOnly_front _
    | refine RaisesOnly_ite (fun _ => ?_) (fun _ => ?_)
    | refine RaisesOnly_bind ?_ (fun _ => ?_)

theorem RaisesOnly_replace_range_constant {P : Prop} (fq : NodeId) (k : Nat) (t : Type_t)
    (v : List float) : RaisesOnly P (ConvolutionFunction.replace_range_constant fq k t v) := by
  unfold ConvolutionFunction.replace_range_constant
  repeat' with_reducible first
    | exact RaisesOnly_make_shared _ _
    | exact RaisesOnly_front _
    | exact RaisesOnly_get_input _ _
    | exact RaisesOnly_replace_node _ _
    | refine RaisesOnly_bind ?_ (fun _ => ?_)

theorem RaisesOnly_replace_multiply_constant {P : Prop} (d : DequantizationOperations)
    (c : Bool) (t : Type_t) (deq : Option NodeId) :
    RaisesOnly P (ConvolutionFunction.replace_multiply_constant d c t deq) := by
  unfold ConvolutionFunction.replace_multiply_constant
  repeat' with_reducible first
    | exact RaisesOnly_pure _
    | exact RaisesOnly_make_shared _ _
    | exact RaisesOnly_front _
    | exact RaisesOnly_deref _
    | exact RaisesOnly_get_input _ _
    | exact RaisesOnly_replace_node _ _
    | refine RaisesOnly_ite (fun _ => ?_) (fun _ => ?_)
    | refine RaisesOnly_bind ?_ (fun _ => ?_)

theorem RaisesOnly_replace_weights {P : Prop} (c : Bool) (w : NodeId) (t : Type_t)
    (sh : Shape) (v : List float) (wp : Type_t) :
    RaisesOnly P (ConvolutionFunction.replace_weights c w t sh v wp) := by
  unfold ConvolutionFunction.replace_weights fold_Convert
  repeat' with_reducible first
    | exact RaisesOnly_pure _
    | exact RaisesOnly_make_shared _ _
    | exact RaisesOnly_replace_node _ _
    | refine RaisesOnly_ite (fun _ => ?_) (fun _ => ?_)
    | refine RaisesOnly_bind ?_ (fun _ => ?_)

theorem RaisesOnly_set_friendly_name {P : Prop} (id : NodeId) (name : String) :
    RaisesOnly P (set_friendly_name id name) := RaisesOnly_update_node _ _

theorem RaisesOnly_set_rt_info {P : Prop} (id : NodeId) (k v : String) :
    RaisesOnly P (set_rt_info id k v) := RaisesOnly_update_node _ _

theorem RaisesOnly_setOutDataPrecision {P : Prop} (id : NodeId) (t : Type_t) :
    RaisesOnly P (setOutDataPrecision id t) := RaisesOnly_update_node _ _

/-! ### OpsStable for the composite steps -/

theorem OpsStable_makeFakeQuantize (i : Option NodeId) (t : Type_t) (fq : FakeQuantizeOnData) :
    OpsStable (makeFakeQuantize i t fq) := by
  unfold makeFakeQuantize
  repeat' with_reducible first
    | exact OpsStable_pure _
    | exact OpsStable_make_shared _ _
    | exact OpsStable_front _
    | exact OpsStable_deref _
    | exact OpsStable_get_input _ _
    | exact OpsStable_replace_node _ _
    | refine OpsStable_ite ?_ ?_
    | refine OpsStable_bind ?_ (fun _ => ?_)

theorem OpsStable_makeDequantization (data : NodeId) (d : DequantizationOperations) :
    OpsStable (makeDequantization data d) := by
  unfold makeDequantization makeDequantization_convert makeDequantization_subtract
    makeDequantization_multiply
  repeat' with_reducible first
    | exact OpsStable_pure _
    | exact OpsStable_make_shared _ _
    | exact OpsStable_front _
    | exact OpsStable_deref _
    | exact OpsStable_get_input _ _
    | exact OpsStable_replace_node _ _
    | refine OpsStable_ite ?_ ?_
    | refine OpsStable_bind ?_ (fun _ => ?_)

theorem OpsStable_check (s a b : Nat) :
    OpsStable (ConvolutionFunction.check_weights_size s a b) := by
  unfold ConvolutionFunction.check_weights_size
  exact OpsStable_ite (OpsStable_raise _) (OpsStable_pure _)

theorem OpsStable_broadcast_weights (w : ConstantPtr) (a b : Nat) :
    OpsStable (ConvolutionFunction.broadcast_weights w a b) := by
  unfold ConvolutionFunction.broadcast_weights fold_Broadcast
  repeat' with_reducible first
    | exact OpsStable_pure _
    | exact OpsStable_make_shared _ _
    | exact OpsStable_front _
    | exact OpsStable_deref _
    | exact OpsStable_get_input _ _
    | exact OpsStable_replace_node _ _
    | refine OpsStable_ite ?_ ?_
    | refine OpsStable_bind ?_ (fun _ => ?_)

theorem OpsStable_fakeQuantize_or_null (i : NodeId) (t : Type_t) (fq : FakeQuantizeOnData) :
    OpsStable (ConvolutionFunction.fakeQuantize_or_null i t fq) := by
  unfold ConvolutionFunction.fakeQuantize_or_null
  repeat' with_reducible first
    | exact OpsStable_pure _
    | exact OpsStable_make_shared _ _
    | exact OpsStable_front _
    | exact OpsStable_deref _
    | exact OpsStable_get_input _ _
    | exact OpsStable_replace_node _ _
    | exact OpsStable_makeFakeQuantize _ _ _
    | refine OpsStable_ite ?_ ?_
    | refine OpsStable_bind ?_ (fun _ => ?_)

theorem OpsStable_subtract_or_null (c : Bool) (fq : Option NodeId) (t : Type_t) :
    OpsStable (ConvolutionFunction.subtract_or_null c fq t) := by
  unfold ConvolutionFunction.subtract_or_null
  repeat' with_reducible first
    | exact OpsStable_pure _
    | exact OpsStable_make_shared _ _
    | exact OpsStable_front _
    | exact OpsStable_deref _
    | exact OpsStable_get_input _ _
    | exact OpsStable_replace_node _ _
    | refine OpsStable_ite ?_ ?_
    | refine OpsStable_bind ?_ (fun _ => ?_)

theorem OpsStable_multiply_or_null (d : DequantizationOperations) (c : Bool) (t : Type_t)
    (conv : NodeId) : OpsStable (ConvolutionFunction.multiply_or_null d c t conv) := by
  unfold ConvolutionFunction.multiply_or_null
  repeat' with_reducible first
    | exact OpsStable_pure _
    | exact OpsStable_make_shared _ _
    | exact OpsStable_front _
    | exact OpsStable_deref _
    | exact OpsStable_get_input _ _
    | exact OpsStable_replace_node _ _
    | refine OpsStable_ite ?_ ?_
    | refine OpsStable_bind ?_ (fun _ => ?_)

theorem OpsStable_replace_range_constant (fq : NodeId) (k : Nat) (t : Type_t)
    (v : List float) : OpsStable (ConvolutionFunction.replace_range_constant fq k t v) := by
  unfold ConvolutionFunction.replace_range_constant
  repeat' with_reducible first
    | exact OpsStable_pure _
    | exact OpsStable_make_shared _ _
    | exact OpsStable_front _
    | exact OpsStable_deref _
    | exact OpsStable_get_input _ _
    | exact OpsStable_replace_node _ _
    | refine OpsStable_ite ?_ ?_
    | refine OpsStable_bind ?_ (fun _ => ?_)

theorem OpsStable_replace_multiply_constant (d : DequantizationOperations) (c : Bool)
    (t : Type_t) (deq : Option NodeId) :
    OpsStable (ConvolutionFunction.replace_multiply_constant d c t deq) := by
  unfold ConvolutionFunction.replace_multiply_constant
  repeat' with_reducible first
    | exact OpsStable_pure _
    | exact OpsStable_make_shared _ _
    | exact OpsStable_front _
    | exact OpsStable_deref _
    | exact OpsStable_get_input _ _
    | exact OpsStable_replace_node _ _
    | refine OpsStable_ite ?_ ?_
    | refine OpsStable_bind ?_ (fun _ => ?_)

theorem OpsStable_replace_weights (c : Bool) (w : NodeId) (t : Type_t) (sh : Shape)
    (v : List float) (wp : Type_t) :
    OpsStable (ConvolutionFunction.replace_weights c w t sh v wp) := by
  unfold ConvolutionFunction.replace_weights fold_Convert
  repeat' with_reducible first
    | exact OpsStable_pure _
    | exact OpsStable_make_shared _ _
    | exact OpsStable_front _
    | exact OpsStable_deref _
    | exact OpsStable_get_input _ _
    | exact OpsStable_replace_node _ _
    | refine OpsStable_ite ?_ ?_
    | refine OpsStable_bind ?_ (fun _ => ?_)

/-! ### One parameter, one result -/

theorem SingleInputSingleResult_bind {α : Type} {input : NodeId} {o : NodeOp} {x : Build α}
    {f : α → Build Function} (hx : OpsStable x)
    (hf : ∀ a, SingleInputSingleResult input o (f a)) :
    SingleInputSingleResult input o (x >>= f) := by
  intro g F g1 hin h
  rw [bind_apply] at h
  have h1 := hx g input o hin
  rcases hxg : x g with ⟨r, g2⟩
  rw [hxg] at h h1
  cases r with
  | ok a => exact hf a g2 F g1 h1 h
  | error e => simp at h

theorem SingleInputSingleResult_last (input : NodeId) (o : NodeOp)
    (ins : List (Option NodeId)) (name : String) :
    SingleInputSingleResult input o
      (make_shared NodeOp.Result ins >>= fun result =>
        pure { results := [result], parameters := [input], name := name }) := by
  intro g F g1 hin h
  rw [bind_apply] at h
  unfold make_shared at h
  cases hn : non_null ins with
  | none => rw [hn] at h; simp at h
  | some is =>
    rw [hn] at h
    simp only [pure_apply, Prod.mk.injEq, Except.ok.injEq] at h
    obtain ⟨hF, hg⟩ := h
    subst hF hg
    exact ⟨rfl, op_at_append hin _, g.length, rfl, op_at_length g _⟩

theorem SingleInputSingleResult_first {o : NodeOp} {f : NodeId → Build Function}
    (hf : ∀ input, SingleInputSingleResult input o (f input))
    (g : Graph) (F : Function) (g1 : Graph)
    (h : (make_shared o [] >>= f) g = (.ok F, g1)) :
    F.parameters = [g.length] ∧ op_at g1 g.length = some o ∧
    ∃ r, F.results = [r] ∧ op_at g1 r = some NodeOp.Result := by
  rw [bind_apply] at h
  exact hf g.length _ F g1 (op_at_length g _) h

theorem getOriginal_single (p : Type_t) (s : Shape) (d : DequantizationOperations)
    (w : ConstantPtr) (fqw : FakeQuantizeOnWeights) (g : Graph) (F : Function) (g1 : Graph)
    (h : ConvolutionFunction.getOriginal p s d w fqw g = (.ok F, g1)) :
    F.parameters = [g.length] ∧ op_at g1 g.length = some (NodeOp.Parameter p s) ∧
    ∃ r, F.results = [r] ∧ op_at g1 r = some NodeOp.Result := by
  unfold ConvolutionFunction.getOriginal at h
  cases hs : s[1]? with
  | none => rw [hs] at h; simp [raise_apply] at h
  | some C =>
    rw [hs] at h
    refine SingleInputSingleResult_first (fun input => ?_) g F g1 h
    repeat' with_reducible first
      | exact SingleInputSingleResult_last _ _ _ _
      | refine SingleInputSingleResult_bind ?_ (fun _ => ?_)
      | exact OpsStable_pure _
      | exact OpsStable_make_shared _ _
      | exact OpsStable_set_friendly_name _ _
      | exact OpsStable_set_rt_info _ _ _
      | exact OpsStable_setOutDataPrecision _ _
      | exact OpsStable_makeFakeQuantize _ _ _
      | exact OpsStable_makeDequantization _ _
      | exact OpsStable_check _ _ _
      | exact OpsStable_broadcast_weights _ _ _
      | exact OpsStable_fakeQuantize_or_null _ _ _
      | exact OpsStable_subtract_or_null _ _ _
      | exact OpsStable_multiply_or_null _ _ _ _
      | exact OpsStable_replace_range_constant _ _ _ _
      | exact OpsStable_replace_multiply_constant _ _ _ _
      | exact OpsStable_replace_weights _ _ _ _ _ _
      | refine OpsStable_ite ?_ ?_
      | refine OpsStable_bind ?_ (fun _ => ?_)

theorem getOriginalWithIncorrectWeights_single (s : Shape) (p : Type_t)
    (fqw : FakeQuantizeOnWeights) (fqd : FakeQuantizeOnData) (isCorrect : Bool)
    (g : Graph) (F : Function) (g1 : Graph)
    (h : ConvolutionFunction.getOriginalWithIncorrectWeights s p fqw fqd isCorrect g
      = (.ok F, g1)) :
    F.parameters = [g.length] ∧ op_at g1 g.length = some (NodeOp.Parameter p s) ∧
    ∃ r, F.results = [r] ∧ op_at g1 r = some NodeOp.Result := by
  unfold ConvolutionFunction.getOriginalWithIncorrectWeights at h
  cases hs : s[1]? with
  | none => rw [hs] at h; simp [raise_apply] at h
  | some C =>
    rw [hs] at h
    refine SingleInputSingleResult_first (fun input => ?_) g F g1 h
    repeat' with_reducible first
      | exact SingleInputSingleResult_last _ _ _ _
      | refine SingleInputSingleResult_bind ?_ (fun _ => ?_)
      | exact OpsStable_pure _
      | exact OpsStable_make_shared _ _
      | exact OpsStable_set_friendly_name _ _
      | exact OpsStable_set_rt_info _ _ _
      | exact OpsStable_setOutDataPrecision _ _
      | exact OpsStable_makeFakeQuantize _ _ _
      | exact OpsStable_makeDequantization _ _
      | exact OpsStable_check _ _ _
      | exact OpsStable_broadcast_weights _ _ _
      | exact OpsStable_fakeQuantize_or_null _ _ _
      | exact OpsStable_subtract_or_null _ _ _
      | exact OpsStable_multiply_or_null _ _ _ _
      | exact OpsStable_replace_range_constant _ _ _ _
      | exact OpsStable_replace_multiply_constant _ _ _ _
      | exact OpsStable_replace_weights _ _ _ _ _ _
      | refine OpsStable_ite ?_ ?_
      | refine OpsStable_bind ?_ (fun _ => ?_)

theorem getReferenceWithIncorrectWeights_single (s : Shape) (p dp : Type_t)
    (fqd : FakeQuantizeOnData) (d : DequantizationOperations) (wp : Type_t)
    (values : List float) (fqw : FakeQuantizeOnWeights) (da : DequantizationOperations)
    (isCorrect : Bool) (g : Graph) (F : Function) (g1 : Graph)
    (h : ConvolutionFunction.getReferenceWithIncorrectWeights s p dp fqd d wp values fqw da
      isCorrect g = (.ok F, g1)) :
    F.parameters = [g.length] ∧ op_at g1 g.length = some (NodeOp.Parameter p s) ∧
    ∃ r, F.results = [r] ∧ op_at g1 r = some NodeOp.Result := by
  unfold ConvolutionFunction.getReferenceWithIncorrectWeights at h
  cases hs : s[1]? with
  | none => rw [hs] at h; simp [raise_apply] at h
  | some C =>
    rw [hs] at h
    refine SingleInputSingleResult_first (fun input => ?_) g F g1 h
    repeat' with_reducible first
      | exact SingleInputSingleResult_last _ _ _ _
      | refine SingleInputSingleResult_bind ?_ (fun _ => ?_)
      | exact OpsStable_pure _
      | exact OpsStable_make_shared _ _
      | exact OpsStable_set_friendly_name _ _
      | exact OpsStable_set_rt_info _ _ _
      | exact OpsStable_setOutDataPrecision _ _
      | exact OpsStable_makeFakeQuantize _ _ _
      | exact OpsStable_makeDequantization _ _
      | exact OpsStable_check _ _ _
      | exact OpsStable_broadcast_weights _ _ _
      | exact OpsStable_fakeQuantize_or_null _ _ _
      | exact OpsStable_subtract_or_null _ _ _
      | exact OpsStable_multiply_or_null _ _ _ _
      | exact OpsStable_replace_range_constant _ _ _ _
      | exact OpsStable_replace_multiply_constant _ _ _ _
      | exact OpsStable_replace_weights _ _ _ _ _ _
      | refine OpsStable_ite ?_ ?_
      | refine OpsStable_bind ?_ (fun _ => ?_)

theorem getReference_single (p : Type_t) (s : Shape) (d : DequantizationOperations)
    (w : ConstantPtr) (fqw : FakeQuantizeOnWeights) (pao : Type_t)
    (da : DequantizationOperations) (pad : Type_t) (g : Graph) (F : Function) (g1 : Graph)
    (h : ConvolutionFunction.getReference p s d w fqw pao da pad g = (.ok F, g1)) :
    F.parameters = [g.length] ∧ op_at g1 g.length = some (NodeOp.Parameter p s) ∧
    ∃ r, F.results = [r] ∧ op_at g1 r = some NodeOp.Result := by
  unfold ConvolutionFunction.getReference at h
  cases hs : s[1]? with
  | none => rw [hs] at h; simp [raise_apply] at h
  | some C =>
    rw [hs] at h
    refine SingleInputSingleResult_first (fun input => ?_) g F g1 h
    repeat' with_reducible first
      | exact SingleInputSingleResult_last _ _ _ _
      | refine SingleInputSingleResult_bind ?_ (fun _ => ?_)
      | exact OpsStable_pure _
      | exact OpsStable_make_shared _ _
      | exact OpsStable_set_friendly_name _ _
      | exact OpsStable_set_rt_info _ _ _
      | exact OpsStable_setOutDataPrecision _ _
      | exact OpsStable_makeFakeQuantize _ _ _
      | exact OpsStable_makeDequantization _ _
      | exact OpsStable_check _ _ _
      | exact OpsStable_broadcast_weights _ _ _
      | exact OpsStable_fakeQuantize_or_null _ _ _
      | exact OpsStable_subtract_or_null _ _ _
      | exact OpsStable_multiply_or_null _ _ _ _
      | exact OpsStable_replace_range_constant _ _ _ _
      | exact OpsStable_replace_multiply_constant _ _ _ _
      | exact OpsStable_replace_weights _ _ _ _ _ _
      | refine OpsStable_ite ?_ ?_
      | refine OpsStable_bind ?_ (fun _ => ?_)

theorem get_single (s : Shape) (p : Type_t) (fqd : FakeQuantizeOnData) (values : List float)
    (fqw : FakeQuantizeOnWeights) (g : Graph) (F : Function) (g1 : Graph)
    (h : ConvolutionFunction.get s p fqd values fqw g = (.ok F, g1)) :
    F.parameters = [g.length] ∧ op_at g1 g.length = some (NodeOp.Parameter p s) ∧
    ∃ r, F.results = [r] ∧ op_at g1 r = some NodeOp.Result := by
  unfold ConvolutionFunction.get at h
  cases hs : s[1]? with
  | none => rw [hs] at h; simp [raise_apply] at h
  | some C =>
    rw [hs] at h
    refine SingleInputSingleResult_first (fun input => ?_) g F g1 h
    repeat' with_reducible first
      | exact SingleInputSingleResult_last _ _ _ _
      | refine SingleInputSingleResult_bind ?_ (fun _ => ?_)
      | exact OpsStable_pure _
      | exact OpsStable_make_shared _ _
      | exact OpsStable_set_friendly_name _ _
      | exact OpsStable_set_rt_info _ _ _
      | exact OpsStable_setOutDataPrecision _ _
      | exact OpsStable_makeFakeQuantize _ _ _
      | exact OpsStable_makeDequantization _ _
      | exact OpsStable_check _ _ _
      | exact OpsStable_broadcast_weights _ _ _
      | exact OpsStable_fakeQuantize_or_null _ _ _
      | exact OpsStable_subtract_or_null _ _ _
      | exact OpsStable_multiply_or_null _ _ _ _
      | exact OpsStable_replace_range_constant _ _ _ _
      | exact OpsStable_replace_multiply_constant _ _ _ _
      | exact OpsStable_replace_weights _ _ _ _ _ _
      | refine OpsStable_ite ?_ ?_
      | refine OpsStable_bind ?_ (fun _ => ?_)

/-! ### The size test in the four builders that take weight values -/

theorem getOriginal_raises_only (p : Type_t) (n C : Nat) (rest : Shape)
    (d : DequantizationOperations) (w : ConstantPtr) (fqw : FakeQuantizeOnWeights) :
    RaisesOnly (unexpected_size w.values.length C (size_mul 2 C) = true)
      (ConvolutionFunction.getOriginal p (n :: C :: rest) d w fqw) := by
  unfold ConvolutionFunction.getOriginal
  simp only [List.getElem?_cons_succ, List.getElem?_cons_zero]
  repeat' with_reducible first
    | exact RaisesOnly_pure _
    | exact RaisesOnly_make_shared _ _
    | exact RaisesOnly_set_friendly_name _ _
    | exact RaisesOnly_set_rt_info _ _ _
    | exact RaisesOnly_setOutDataPrecision _ _
    | exact RaisesOnly_makeFakeQuantize _ _ _
    | exact RaisesOnly_makeDequantization _ _
    | exact RaisesOnly_check
    | exact RaisesOnly_broadcast_weights _ _ _
    | exact RaisesOnly_fakeQuantize_or_null _ _ _
    | exact RaisesOnly_subtract_or_null _ _ _
    | exact RaisesOnly_multiply_or_null _ _ _ _
    | exact RaisesOnly_replace_range_constant _ _ _ _
    | exact RaisesOnly_replace_multiply_constant _ _ _ _
    | exact RaisesOnly_replace_weights _ _ _ _ _ _
    | refine RaisesOnly_ite (fun _ => ?_) (fun _ => ?_)
    | refine RaisesOnly_bind ?_ (fun _ => ?_)

theorem getReference_raises_only (p : Type_t) (n C : Nat) (rest : Shape)
    (d : DequantizationOperations) (w : ConstantPtr) (fqw : FakeQuantizeOnWeights)
    (pao : Type_t) (da : DequantizationOperations) (pad : Type_t) :
    RaisesOnly (unexpected_size w.values.length C (size_mul 2 C) = true)
      (ConvolutionFunction.getReference p (n :: C :: rest) d w fqw pao da pad) := by
  unfold ConvolutionFunction.getReference
  simp only [List.getElem?_cons_succ, List.getElem?_cons_zero]
  repeat' with_reducible first
    | exact RaisesOnly_pure _
    | exact RaisesOnly_make_shared _ _
    | exact RaisesOnly_set_friendly_name _ _
    | exact RaisesOnly_set_rt_info _ _ _
    | exact RaisesOnly_setOutDataPrecision _ _
    | exact RaisesOnly_makeFakeQuantize _ _ _
    | exact RaisesOnly_makeDequantization _ _
    | exact RaisesOnly_check
    | exact RaisesOnly_broadcast_weights _ _ _
    | exact RaisesOnly_fakeQuantize_or_null _ _ _
    | exact RaisesOnly_subtract_or_null _ _ _
    | exact RaisesOnly_multiply_or_null _ _ _ _
    | exact RaisesOnly_replace_range_constant _ _ _ _
    | exact RaisesOnly_replace_multiply_constant _ _ _ _
    | exact RaisesOnly_replace_weights _ _ _ _ _ _
    | refine RaisesOnly_ite (fun _ => ?_) (fun _ => ?_)
    | refine RaisesOnly_bind ?_ (fun _ => ?_)

theorem getReferenceWithIncorrectWeights_raises_only (n C : Nat) (rest : Shape)
    (p dp : Type_t) (fqd : FakeQuantizeOnData) (d : DequantizationOperations) (wp : Type_t)
    (values : List float) (fqw : FakeQuantizeOnWeights) (da : DequantizationOperations)
    (isCorrect : Bool) :
    RaisesOnly (unexpected_size values.length C (size_mul 2 C) = true)
      (ConvolutionFunction.getReferenceWithIncorrectWeights (n :: C :: rest) p dp fqd d wp
        values fqw da isCorrect) := by
  unfold ConvolutionFunction.getReferenceWithIncorrectWeights
  simp only [List.getElem?_cons_succ, List.getElem?_cons_zero]
  repeat' with_reducible first
    | exact RaisesOnly_pure _
    | exact RaisesOnly_make_shared _ _
    | exact RaisesOnly_set_friendly_name _ _
    | exact RaisesOnly_set_rt_info _ _ _
    | exact RaisesOnly_setOutDataPrecision _ _
    | exact RaisesOnly_makeFakeQuantize _ _ _
    | exact RaisesOnly_makeDequantization _ _
    | exact RaisesOnly_check
    | exact RaisesOnly_broadcast_weights _ _ _
    | exact RaisesOnly_fakeQuantize_or_null _ _ _
    | exact RaisesOnly_subtract_or_null _ _ _
    | exact RaisesOnly_multiply_or_null _ _ _ _
    | exact RaisesOnly_replace_range_constant _ _ _ _
    | exact RaisesOnly_replace_multiply_constant _ _ _ _
    | exact RaisesOnly_replace_weights _ _ _ _ _ _
    | refine RaisesOnly_ite (fun _ => ?_) (fun _ => ?_)
    | refine RaisesOnly_bind ?_ (fun _ => ?_)

theorem get_raises_only (n C : Nat) (rest : Shape) (p : Type_t) (fqd : FakeQuantizeOnData)
    (values : List float) (fqw : FakeQuantizeOnWeights) :
    RaisesOnly (unexpected_size values.length C (size_mul 2 C) = true)
      (ConvolutionFunction.get (n :: C :: rest) p fqd values fqw) := by
  unfold ConvolutionFunction.get
  simp only [List.getElem?_cons_succ, List.getElem?_cons_zero]
  repeat' with_reducible first
    | exact RaisesOnly_pure _
    | exact RaisesOnly_make_shared _ _
    | exact RaisesOnly_set_friendly_name _ _
    | exact RaisesOnly_set_rt_info _ _ _
    | exact RaisesOnly_setOutDataPrecision _ _
    | exact RaisesOnly_makeFakeQuantize _ _ _
    | exact RaisesOnly_makeDequantization _ _
    | exact RaisesOnly_check
    | exact RaisesOnly_broadcast_weights _ _ _
    | exact RaisesOnly_fakeQuantize_or_null _ _ _
    | exact RaisesOnly_subtract_or_null _ _ _
    | exact RaisesOnly_multiply_or_null _ _ _ _
    | exact RaisesOnly_replace_range_constant _ _ _ _
    | exact RaisesOnly_replace_multiply_constant _ _ _ _
    | exact RaisesOnly_replace_weights _ _ _ _ _ _
    | refine RaisesOnly_ite (fun _ => ?_) (fun _ => ?_)
    | refine RaisesOnly_bind ?_ (fun _ => ?_)

theorem check_invalid {s a b : Nat} (h : unexpected_size s a b = true) :
    ConvolutionFunction.check_weights_size s a b = raise unexpected_size_error := by
  unfold ConvolutionFunction.check_weights_size
  rw [if_pos h]

/-- No Convolution and no Result among the nodes. -/
theorem no_convolution_no_result_of_all {g : Graph}
    (h : g.all (fun node => node.op != NodeOp.Convolution && node.op != NodeOp.Result) = true) :
    ∀ node ∈ g, node.op ≠ NodeOp.Convolution ∧ node.op ≠ NodeOp.Result := by
  intro node hmem
  have hn := List.all_eq_true.1 h node hmem
  simpa using hn

set_option maxHeartbeats 4000000 in
theorem getOriginal_invalid (p : Type_t) (n C : Nat) (rest : Shape)
    (d : DequantizationOperations) (et : Type_t) (shape : Shape) (values : List float)
    (fqw : FakeQuantizeOnWeights)
    (hinv : unexpected_size values.length C (size_mul 2 C) = true) :
    Call.run (Call.getOriginal p (n :: C :: rest) d et shape values fqw)
      = (.error unexpected_size_error,
         (Call.data_path (Call.getOriginal p (n :: C :: rest) d et shape values fqw)
           (Call.initial (Call.getOriginal p (n :: C :: rest) d et shape values fqw))).2) ∧
    op_at (Call.run (Call.getOriginal p (n :: C :: rest) d et shape values fqw)).2
        (Call.initial (Call.getOriginal p (n :: C :: rest) d et shape values fqw)).length
      = some (.Parameter p (n :: C :: rest)) ∧
    (Call.run (Call.getOriginal p (n :: C :: rest) d et shape values fqw)).2.all
        (fun node => node.op != NodeOp.Convolution && node.op != NodeOp.Result) = true := by
  obtain ⟨⟨ce, cp⟩, ⟨sv, sp, ss⟩, ⟨mv, mp, ms⟩⟩ := d
  unfold Call.run Call.data_path Call.initial ConvolutionFunction.getOriginal
  simp only [List.getElem?_cons_succ, List.getElem?_cons_zero, check_invalid hinv]
  cases ce <;> cases sv <;> cases mv <;> refine ⟨?_, ?_, ?_⟩ <;> rfl

set_option maxHeartbeats 4000000 in
theorem getReference_invalid (p : Type_t) (n C : Nat) (rest : Shape)
    (d : DequantizationOperations) (et : Type_t) (shape : Shape) (values : List float)
    (fqw : FakeQuantizeOnWeights) (pao : Type_t) (da : DequantizationOperations)
    (pad : Type_t) (hinv : unexpected_size values.length C (size_mul 2 C) = true) :
    Call.run (Call.getReference p (n :: C :: rest) d et shape values fqw pao da pad)
      = (.error unexpected_size_error,
         (Call.data_path (Call.getReference p (n :: C :: rest) d et shape values fqw pao da pad)
           (Call.initial (Call.getReference p (n :: C :: rest) d et shape values fqw pao da pad))).2) ∧
    op_at (Call.run (Call.getReference p (n :: C :: rest) d et shape values fqw pao da pad)).2
        (Call.initial (Call.getReference p (n :: C :: rest) d et shape values fqw pao da pad)).length
      = some (.Parameter p (n :: C :: rest)) ∧
    (Call.run (Call.getReference p (n :: C :: rest) d et shape values fqw pao da pad)).2.all
        (fun node => node.op != NodeOp.Convolution && node.op != NodeOp.Result) = true := by
  obtain ⟨⟨ce, cp⟩, ⟨sv, sp, ss⟩, ⟨mv, mp, ms⟩⟩ := d
  unfold Call.run Call.data_path Call.initial ConvolutionFunction.getReference
  simp only [List.getElem?_cons_succ, List.getElem?_cons_zero, check_invalid hinv]
  cases ce <;> cases sv <;> cases mv <;> refine ⟨?_, ?_, ?_⟩ <;> rfl

set_option maxHeartbeats 4000000 in
theorem getReferenceWithIncorrectWeights_invalid (n C : Nat) (rest : Shape) (p dp : Type_t)
    (fqd : FakeQuantizeOnData) (d : DequantizationOperations) (wp : Type_t)
    (values : List float) (fqw : FakeQuantizeOnWeights) (da : DequantizationOperations)
    (isCorrect : Bool) (hinv : unexpected_size values.length C (size_mul 2 C) = true) :
    Call.run (Call.getReferenceWithIncorrectWeights (n :: C :: rest) p dp fqd d wp values fqw da isCorrect)
      = (.error unexpected_size_error,
         (Call.data_path (Call.getReferenceWithIncorrectWeights (n :: C :: rest) p dp fqd d wp values fqw da isCorrect)
           (Call.initial (Call.getReferenceWithIncorrectWeights (n :: C :: rest) p dp fqd d wp values fqw da isCorrect))).2) ∧
    op_at (Call.run (Call.getReferenceWithIncorrectWeights (n :: C :: rest) p dp fqd d wp values fqw da isCorrect)).2
        (Call.initial (Call.getReferenceWithIncorrectWeights (n :: C :: rest) p dp fqd d wp values fqw da isCorrect)).length
      = some (.Parameter p (n :: C :: rest)) ∧
    (Call.run (Call.getReferenceWithIncorrectWeights (n :: C :: rest) p dp fqd d wp values fqw da isCorrect)).2.all
        (fun node => node.op != NodeOp.Convolution && node.op != NodeOp.Result) = true := by
  obtain ⟨⟨ce, cp⟩, ⟨sv, sp, ss⟩, ⟨mv, mp, ms⟩⟩ := d
  unfold Call.run Call.data_path Call.initial
    ConvolutionFunction.getReferenceWithIncorrectWeights
  simp only [List.getElem?_cons_succ, List.getElem?_cons_zero, check_invalid hinv]
  cases ce <;> cases sv <;> cases mv <;> refine ⟨?_, ?_, ?_⟩ <;> rfl

theorem get_invalid (n C : Nat) (rest : Shape) (p : Type_t) (fqd : FakeQuantizeOnData)
    (values : List float) (fqw : FakeQuantizeOnWeights)
    (hinv : unexpected_size values.length C (size_mul 2 C) = true) :
    Call.run (Call.get (n :: C :: rest) p fqd values fqw)
      = (.error unexpected_size_error,
         (Call.data_path (Call.get (n :: C :: rest) p fqd values fqw)
           (Call.initial (Call.get (n :: C :: rest) p fqd values fqw))).2) ∧
    op_at (Call.run (Call.get (n :: C :: rest) p fqd values fqw)).2
        (Call.initial (Call.get (n :: C :: rest) p fqd values fqw)).length
      = some (.Parameter p (n :: C :: rest)) ∧
    (Call.run (Call.get (n :: C :: rest) p fqd values fqw)).2.all
        (fun node => node.op != NodeOp.Convolution && node.op != NodeOp.Result) = true := by
  unfold Call.run Call.data_path Call.initial ConvolutionFunction.get
  simp only [List.getElem?_cons_succ, List.getElem?_cons_zero, check_invalid hinv]
  exact ⟨rfl, rfl, rfl⟩

theorem size_mul_comm (a b : Nat) : size_mul a b = size_mul b a := by
  unfold size_mul
  rw [Nat.mul_comm]

theorem size_mul_exact (C : Nat) (h : 2 * C * C < 2 ^ 64) :
    size_mul (size_mul 2 C) C = 2 * C * C := by
  unfold size_mul SIZE_MOD
  rcases Nat.eq_zero_or_pos C with h0 | hpos
  · subst h0; simp
  · have h2 : 2 * C < 2 ^ 64 := by
      have : 2 * C ≤ 2 * C * C := Nat.le_mul_of_pos_right _ hpos
      omega
    rw [Nat.mod_eq_of_lt h2, Nat.mod_eq_of_lt h]

theorem unexpected_size_iff (count C : Nat) :
    unexpected_size count C (size_mul 2 C) = true ↔
      (count ≠ 1 ∧ count ≠ size_mul (size_mul 2 C) C) := by
  unfold unexpected_size
  rw [size_mul_comm C (size_mul 2 C)]
  simp

end builder.subgraph

/-! ## Theorems: ConvertFP8 -/

namespace op.ConvertFP8

/-- C1: `has_evaluate` returns true exactly when the input element type and the output element
type are both among bf16, f16, f32, and false for every other pair; in particular a pair with
u1, u4 or i4 on either side gives false. -/
theorem has_evaluate_true_iff_fp_types :
    (∀ (i o : Type_t) (si so : PartialShape),
      has_evaluate (with_types i si o so) = .ok (decide (i ∈ fp_types ∧ o ∈ fp_types))) ∧
    (∀ (i o : Type_t) (si so : PartialShape), (i ∈ packed_types ∨ o ∈ packed_types) →
      has_evaluate (with_types i si o so) = .ok false) := by
  refine ⟨?_, ?_⟩
  · intro i o si so
    cases i <;> cases o <;> rfl
  · intro i o si so h
    cases i <;> cases o <;> first | rfl | (exfalso; revert h; decide)

/-- C1 witness: the pair (u4, f32) has a packed input type, and `has_evaluate` gives false. -/
theorem has_evaluate_true_iff_fp_types_witness :
    has_evaluate (with_types Type_t.u4 PartialShape.dynamic Type_t.f32 PartialShape.dynamic)
      = .ok false :=
  has_evaluate_true_iff_fp_types.2 Type_t.u4 Type_t.f32 PartialShape.dynamic PartialShape.dynamic
    (Or.inl (by decide))

/-- C2: a call of `evaluate` with one input tensor and one output tensor does not raise; the
boolean it returns is true exactly when both element types are among bf16, f16, f32, and it is
the boolean `has_evaluate` gives on the same pair of types, so both are false on the same
pairs. -/
theorem evaluate_result_iff_fp_types (arg out : HostTensor) (si so : PartialShape) :
    ∃ (out1 : HostTensor),
      evaluate [some out] [some arg] =
        .ok (decide (arg.element_type ∈ fp_types ∧ out.element_type ∈ fp_types), [some out1]) ∧
      has_evaluate (with_types arg.element_type si out.element_type so) =
        .ok (decide (arg.element_type ∈ fp_types ∧ out.element_type ∈ fp_types)) := by
  obtain ⟨ai, ash, ad⟩ := arg
  obtain ⟨oi, osh, od⟩ := out
  cases ai <;> cases oi <;> exact ⟨_, rfl, rfl⟩

/-- C8: at the failing input (an f32 tensor holding 1.0 converted into an f32 tensor holding
0.0) `evaluate` returns true and the output storage still holds 0.0: no element is written. -/
theorem evaluate_writes_no_element :
    evaluate [some ⟨Type_t.f32, [1], Buffer.contents [0]⟩]
        [some ⟨Type_t.f32, [1], Buffer.contents [0x3F800000]⟩]
      = .ok (true, [some ⟨Type_t.f32, [1], Buffer.contents [0]⟩]) := by
  rfl

theorem mk_node_eq_Op (arg : descriptor.Tensor) : mk_node arg = Op arg := rfl

/-- C9: at the failing input, a node constructed over an f32 input of static shape {1,3}, the
constructor leaves the output descriptor as the base constructor made it: the output shape is
dynamic, not {1,3}; the output element type is dynamic and `m_destination_type` is
undefined. -/
theorem constructor_infers_nothing :
    (mk_node ⟨Type_t.f32, PartialShape.static [1, 3]⟩).get_output_partial_shape 0
      = .ok PartialShape.dynamic ∧
    (mk_node ⟨Type_t.f32, PartialShape.static [1, 3]⟩).get_output_element_type 0
      = .ok Type_t.dynamic ∧
    (mk_node ⟨Type_t.f32, PartialShape.static [1, 3]⟩).m_destination_type
      = Type_t.undefined := by
  exact ⟨rfl, rfl, rfl⟩

/-- C10 as stated fails: with an i32 input of shape {2} and an f32 output of shape {5} the
call returns false and the output shape is still {5}. -/
theorem evaluate_false_keeps_shape :
    evaluate [some ⟨Type_t.f32, [5], Buffer.contents []⟩]
        [some ⟨Type_t.i32, [2], Buffer.contents []⟩]
      = .ok (false, [some ⟨Type_t.f32, [5], Buffer.contents []⟩]) := by
  rfl

/-- C10 amended: the output tensor gets the input tensor's shape exactly when the call returns
true, that is when both element types are among bf16, f16, f32; when the call returns false
the output tensor is left as it was. -/
theorem evaluate_sets_shape_iff_true (arg out : HostTensor) :
    evaluate [some out] [some arg] =
      .ok (if arg.element_type ∈ fp_types ∧ out.element_type ∈ fp_types
           then (true, [some (out.set_shape arg.get_shape)])
           else (false, [some out])) := by
  obtain ⟨ai, ash, ad⟩ := arg
  obtain ⟨oi, osh, od⟩ := out
  cases ai <;> cases oi <;> rfl

end op.ConvertFP8

/-! ## Theorems: the convolution builders -/

namespace builder.subgraph

/-- C3: for a call of getOriginal, getReference, getReferenceWithIncorrectWeights or get on an
input shape of rank at least 2, with C = inputShape[1], the construction raises the error
"unexpected actual weights values size" if and only if the number of weight values is neither
1 nor outputChannels × inputChannels, where outputChannels = 2 × C and the products are the
`size_t` products of the code; whenever 2·C·C is below 2^64 that product is the number
2·C·C itself. -/
theorem weights_size_error_iff (c : Call) (count n C : Nat) (rest : Shape)
    (hcount : c.weightsCount = some count) (hshape : c.inputShape = n :: C :: rest) :
    ((c.run).1 = .error unexpected_size_error ↔
      (count ≠ 1 ∧ count ≠ size_mul (size_mul 2 C) C)) ∧
    (2 * C * C < 2 ^ 64 → size_mul (size_mul 2 C) C = 2 * C * C) := by
  refine ⟨?_, size_mul_exact C⟩
  rw [← unexpected_size_iff]
  cases c with
  | getOriginal p s d et shape values fqw =>
    simp only [Call.inputShape] at hshape
    simp only [Call.weightsCount, Option.some.injEq] at hcount
    subst hshape hcount
    constructor
    · intro h
      exact getOriginal_raises_only p n C rest d ⟨0, et, shape, values⟩ fqw _ _ h
    · intro h
      rw [(getOriginal_invalid p n C rest d et shape values fqw h).1]
  | getOriginalWithIncorrectWeights s p fqw fqd isCorrect =>
    simp [Call.weightsCount] at hcount
  | getReferenceWithIncorrectWeights s p dp fqd d wp values fqw da isCorrect =>
    simp only [Call.inputShape] at hshape
    simp only [Call.weightsCount, Option.some.injEq] at hcount
    subst hshape hcount
    constructor
    · intro h
      exact getReferenceWithIncorrectWeights_raises_only n C rest p dp fqd d wp values fqw da
        isCorrect _ _ h
    · intro h
      rw [(getReferenceWithIncorrectWeights_invalid n C rest p dp fqd d wp values fqw da
        isCorrect h).1]
  | getReference p s d et shape values fqw pao da pad =>
    simp only [Call.inputShape] at hshape
    simp only [Call.weightsCount, Option.some.injEq] at hcount
    subst hshape hcount
    constructor
    · intro h
      exact getReference_raises_only p n C rest d ⟨0, et, shape, values⟩ fqw pao da pad _ _ h
    · intro h
      rw [(getReference_invalid p n C rest d et shape values fqw pao da pad h).1]
  | get s p fqd values fqw =>
    simp only [Call.inputShape] at hshape
    simp only [Call.weightsCount, Option.some.injEq] at hcount
    subst hshape hcount
    constructor
    · intro h
      exact get_raises_only n C rest p fqd values fqw _ _ h
    · intro h
      rw [(get_invalid n C rest p fqd values fqw h).1]

/-- C3 witness: `get` on the input shape {1,2,4,4} with 3 weight values (neither 1 nor
4 × 2 = 8) raises "unexpected actual weights values size". -/
theorem weights_size_error_iff_witness :
    (Call.run (Call.get [1, 2, 4, 4] Type_t.f32 ⟨0, [], [], [], [], []⟩
      [float_1, float_1, float_1] ⟨0, [], [], [], [], []⟩)).1 = .error unexpected_size_error :=
  ((weights_size_error_iff (Call.get [1, 2, 4, 4] Type_t.f32 ⟨0, [], [], [], [], []⟩
      [float_1, float_1, float_1] ⟨0, [], [], [], [], []⟩) 3 1 2 [4, 4] rfl rfl).1).2
    ⟨by decide, by decide⟩

/-- C4 as stated fails: `get` on the input shape {1,2,4,4} with 3 weight values raises the
size error after six nodes have been constructed: the input Parameter, the four range
constants and the FakeQuantize on the data. -/
theorem invalid_size_after_parameter_and_quantize :
    (Call.run (Call.get [1, 2, 4, 4] Type_t.f32
        ⟨256, [], [⟨0⟩], [⟨0x437F0000⟩], [⟨0⟩], [⟨0x437F0000⟩]⟩
        [float_1, float_1, float_1] ⟨0, [], [], [], [], []⟩)).1
      = .error unexpected_size_error ∧
    (Call.run (Call.get [1, 2, 4, 4] Type_t.f32
        ⟨256, [], [⟨0⟩], [⟨0x437F0000⟩], [⟨0⟩], [⟨0x437F0000⟩]⟩
        [float_1, float_1, float_1] ⟨0, [], [], [], [], []⟩)).2.map Node.op
      = [NodeOp.Parameter Type_t.f32 [1, 2, 4, 4],
         NodeOp.Constant Type_t.f32 [] [⟨0⟩],
         NodeOp.Constant Type_t.f32 [] [⟨0x437F0000⟩],
         NodeOp.Constant Type_t.f32 [] [⟨0⟩],
         NodeOp.Constant Type_t.f32 [] [⟨0x437F0000⟩],
         NodeOp.FakeQuantize 256] := by
  exact ⟨rfl, rfl⟩

/-- C4 amended: in getOriginal, getReference, getReferenceWithIncorrectWeights and get, on an
input shape of rank at least 2 with an invalid number of weight values, the construction fails
with the size error and returns no graph; the nodes constructed by then are exactly those of
the statements before the test (the input Parameter first, then the data path built on it),
and no Convolution and no Result node exists. -/
theorem invalid_size_fails_after_data_path (c : Call) (count n C : Nat) (rest : Shape)
    (hcount : c.weightsCount = some count) (hshape : c.inputShape = n :: C :: rest)
    (h1 : count ≠ 1) (h2 : count ≠ size_mul (size_mul 2 C) C) :
    c.run = (.error unexpected_size_error, (c.data_path c.initial).2) ∧
    op_at c.run.2 c.initial.length = some (NodeOp.Parameter c.precision c.inputShape) ∧
    (∀ node ∈ c.run.2, node.op ≠ NodeOp.Convolution ∧ node.op ≠ NodeOp.Result) := by
  have hinv := (unexpected_size_iff count C).2 ⟨h1, h2⟩
  cases c with
  | getOriginal p s d et shape values fqw =>
    simp only [Call.inputShape] at hshape
    simp only [Call.weightsCount, Option.some.injEq] at hcount
    subst hshape hcount
    have h := getOriginal_invalid p n C rest d et shape values fqw hinv
    exact ⟨h.1, h.2.1, no_convolution_no_result_of_all h.2.2⟩
  | getOriginalWithIncorrectWeights s p fqw fqd isCorrect =>
    simp [Call.weightsCount] at hcount
  | getReferenceWithIncorrectWeights s p dp fqd d wp values fqw da isCorrect =>
    simp only [Call.inputShape] at hshape
    simp only [Call.weightsCount, Option.some.injEq] at hcount
    subst hshape hcount
    have h := getReferenceWithIncorrectWeights_invalid n C rest p dp fqd d wp values fqw da
      isCorrect hinv
    exact ⟨h.1, h.2.1, no_convolution_no_result_of_all h.2.2⟩
  | getReference p s d et shape values fqw pao da pad =>
    simp only [Call.inputShape] at hshape
    simp only [Call.weightsCount, Option.some.injEq] at hcount
    subst hshape hcount
    have h := getReference_invalid p n C rest d et shape values fqw pao da pad hinv
    exact ⟨h.1, h.2.1, no_convolution_no_result_of_all h.2.2⟩
  | get s p fqd values fqw =>
    simp only [Call.inputShape] at hshape
    simp only [Call.weightsCount, Option.some.injEq] at hcount
    subst hshape hcount
    have h := get_invalid n C rest p fqd values fqw hinv
    exact ⟨h.1, h.2.1, no_convolution_no_result_of_all h.2.2⟩

/-- C4 amended, witness: getOriginal on the shape {1,2,4,4} with a convert stage in
`dequantizationBefore` and 3 weight values. -/
theorem invalid_size_fails_after_data_path_witness :
    (Call.run (Call.getOriginal Type_t.u8 [1, 2, 4, 4]
        ⟨⟨false, Type_t.f32⟩, ⟨[], Type_t.f32, []⟩, ⟨[], Type_t.f32, []⟩⟩
        Type_t.f32 [3] [float_1, float_1, float_1] ⟨0, [], [], [], [], []⟩)).2.map Node.op
      = [NodeOp.Constant Type_t.f32 [3] [float_1, float_1, float_1],
         NodeOp.Parameter Type_t.u8 [1, 2, 4, 4],
         NodeOp.Convert Type_t.f32] := by
  have h := invalid_size_fails_after_data_path
    (Call.getOriginal Type_t.u8 [1, 2, 4, 4]
        ⟨⟨false, Type_t.f32⟩, ⟨[], Type_t.f32, []⟩, ⟨[], Type_t.f32, []⟩⟩
        Type_t.f32 [3] [float_1, float_1, float_1] ⟨0, [], [], [], [], []⟩)
    3 1 2 [4, 4] rfl rfl (by decide) (by decide)
  rw [h.1]
  rfl

/-- C5: for each of the five builders, whenever the construction succeeds the returned
function has exactly one parameter, which is the first node the builder constructed, a
Parameter of the given precision and input shape, and exactly one result, which is a Result
node. -/
theorem single_input_single_result (c : Call) (F : Function) (h : (c.run).1 = .ok F) :
    F.parameters = [c.initial.length] ∧
    op_at (c.run).2 c.initial.length = some (NodeOp.Parameter c.precision c.inputShape) ∧
    ∃ r, F.results = [r] ∧ op_at (c.run).2 r = some NodeOp.Result := by
  have hrun : c.run = (.ok F, (c.run).2) := by
    rw [← h]
  cases c with
  | getOriginal p s d et shape values fqw =>
    exact getOriginal_single p s d _ fqw _ F _ hrun
  | getOriginalWithIncorrectWeights s p fqw fqd isCorrect =>
    exact getOriginalWithIncorrectWeights_single s p fqw fqd isCorrect _ F _ hrun
  | getReferenceWithIncorrectWeights s p dp fqd d wp values fqw da isCorrect =>
    exact getReferenceWithIncorrectWeights_single s p dp fqd d wp values fqw da isCorrect
      _ F _ hrun
  | getReference p s d et shape values fqw pao da pad =>
    exact getReference_single p s d _ fqw pao da pad _ F _ hrun
  | get s p fqd values fqw =>
    exact get_single s p fqd values fqw _ F _ hrun

/-- C5 witness: `getOriginalWithIncorrectWeights` on the shape {1,3,4,4} with a weights
quantizer and `isCorrect = true` succeeds; its function has the parameter 0 and the
result 8. -/
theorem single_input_single_result_witness :
    (Call.run (Call.getOriginalWithIncorrectWeights [1, 3, 4, 4] Type_t.f32
        ⟨255, [], [⟨0⟩], [⟨0x437F0000⟩], [⟨0⟩], [⟨0x437F0000⟩]⟩ ⟨0, [], [], [], [], []⟩
        true)).1
      = .ok { results := [8], parameters := [0],
              name := "IncorrectWeightsAndConvolutionFunction" } ∧
    op_at (Call.run (Call.getOriginalWithIncorrectWeights [1, 3, 4, 4] Type_t.f32
        ⟨255, [], [⟨0⟩], [⟨0x437F0000⟩], [⟨0⟩], [⟨0x437F0000⟩]⟩ ⟨0, [], [], [], [], []⟩
        true)).2 0 = some (NodeOp.Parameter Type_t.f32 [1, 3, 4, 4]) :=
  ⟨rfl, (single_input_single_result
    (Call.getOriginalWithIncorrectWeights [1, 3, 4, 4] Type_t.f32
        ⟨255, [], [⟨0⟩], [⟨0x437F0000⟩], [⟨0⟩], [⟨0x437F0000⟩]⟩ ⟨0, [], [], [], [], []⟩
        true)
    { results := [8], parameters := [0], name := "IncorrectWeightsAndConvolutionFunction" }
    rfl).2.1⟩

/-! ### The weights constant -/

theorem Creates_here {α : Type} {o : NodeOp} {ins : List (Option NodeId)}
    {f : NodeId → Build α} (hf : ∀ a, OpsStable (f a)) :
    Creates o (make_shared o ins >>= f) := by
  intro g a g1 h
  rw [bind_apply] at h
  unfold make_shared at h
  cases hn : non_null ins with
  | none => rw [hn] at h; simp at h
  | some is =>
    rw [hn] at h
    refine ⟨g.length, ?_⟩
    have hst := hf g.length _ g.length o
      (op_at_length g { op := o, inputs := is, friendly_name := "", rt_info := [],
                        overridden_output_type := none })
    simp only at h
    rw [h] at hst
    exact hst

theorem Creates_later {α β : Type} {o : NodeOp} {x : Build α} {f : α → Build β}
    (hf : ∀ a, Creates o (f a)) : Creates o (x >>= f) := by
  intro g b g1 h
  rw [bind_apply] at h
  rcases hxg : x g with ⟨r, g2⟩
  rw [hxg] at h
  cases r with
  | ok a => exact hf a g2 b g1 h
  | error e => simp at h

theorem getReferenceWithIncorrectWeights_creates_weights (n C : Nat) (rest : Shape)
    (p dp : Type_t) (fqd : FakeQuantizeOnData) (d : DequantizationOperations) (wp : Type_t)
    (values : List float) (fqw : FakeQuantizeOnWeights) (da : DequantizationOperations)
    (isCorrect : Bool) :
    Creates
      (NodeOp.Constant p [size_mul 2 C, C, 1, 1]
        (weights_vector (size_mul (size_mul 2 C) C) values))
      (ConvolutionFunction.getReferenceWithIncorrectWeights (n :: C :: rest) p dp fqd d wp
        values fqw da isCorrect) := by
  unfold ConvolutionFunction.getReferenceWithIncorrectWeights
  simp only [List.getElem?_cons_succ, List.getElem?_cons_zero]
  repeat' with_reducible first
    | refine Creates_here (fun _ => ?_)
    | refine Creates_later (fun _ => ?_)
    | exact OpsStable_pure _
    | exact OpsStable_make_shared _ _
    | exact OpsStable_set_friendly_name _ _
    | exact OpsStable_set_rt_info _ _ _
    | exact OpsStable_setOutDataPrecision _ _
    | exact OpsStable_makeFakeQuantize _ _ _
    | exact OpsStable_makeDequantization _ _
    | exact OpsStable_check _ _ _
    | exact OpsStable_broadcast_weights _ _ _
    | exact OpsStable_fakeQuantize_or_null _ _ _
    | exact OpsStable_subtract_or_null _ _ _
    | exact OpsStable_multiply_or_null _ _ _ _
    | exact OpsStable_replace_range_constant _ _ _ _
    | exact OpsStable_replace_multiply_constant _ _ _ _
    | exact OpsStable_replace_weights _ _ _ _ _ _
    | refine OpsStable_ite ?_ ?_
    | refine OpsStable_bind ?_ (fun _ => ?_)

theorem check_valid {s a b : Nat} (h : unexpected_size s a b = false) :
    ConvolutionFunction.check_weights_size s a b = pure ⟨⟩ := by
  unfold ConvolutionFunction.check_weights_size
  rw [h]
  rfl

theorem weights_vector_full {n : Nat} {vs : List float} (h : vs.length = n) :
    weights_vector n vs = vs := by
  match vs, h with
  | [], _ => rfl
  | [x], h =>
    simp only [List.length_singleton] at h
    subst h
    rfl
  | _ :: _ :: _, _ => rfl

theorem expected_size_of_full {count C : Nat} (h : count = size_mul (size_mul 2 C) C) :
    unexpected_size count C (size_mul 2 C) = false := by
  cases hu : unexpected_size count C (size_mul 2 C) with
  | false => rfl
  | true => exact absurd h ((unexpected_size_iff count C).1 hu).2

theorem get_weights (n C : Nat) (rest : Shape) (p : Type_t) (fqd : FakeQuantizeOnData)
    (vs : List float) (fqw : FakeQuantizeOnWeights)
    (hv : unexpected_size vs.length C (size_mul 2 C) = false) :
    (∃ F, (Call.run (Call.get (n :: C :: rest) p fqd vs fqw)).1 = .ok F) ∧
    op_at (Call.run (Call.get (n :: C :: rest) p fqd vs fqw)).2 6
      = some (NodeOp.Constant p [size_mul 2 C, C, 1, 1]
          (weights_vector (size_mul (size_mul 2 C) C) vs)) ∧
    (fqw.empty = true →
      weights_path (Call.run (Call.get (n :: C :: rest) p fqd vs fqw))
        = some (NodeOp.Constant p [size_mul 2 C, C, 1, 1]
            (weights_vector (size_mul (size_mul 2 C) C) vs), [])) ∧
    (fqw.empty = true → fqd.empty = true →
      convolution_input_ops (Call.run (Call.get (n :: C :: rest) p fqd vs fqw))
        = some [NodeOp.Parameter p (n :: C :: rest),
                NodeOp.Constant p [size_mul 2 C, C, 1, 1]
                  (weights_vector (size_mul (size_mul 2 C) C) vs)]) := by
  unfold Call.run ConvolutionFunction.get
  simp only [List.getElem?_cons_succ, List.getElem?_cons_zero, check_valid hv]
  cases hq : fqw.empty <;> cases hd : fqd.empty
  all_goals simp only [bind_apply, pure_apply, make_shared, non_null, set_friendly_name,
    update_node, makeFakeQuantize, List.nil_append, List.length_nil, List.length_cons,
    List.cons_append, List.getElem?_cons_zero, List.set_cons_zero, List.length_singleton,
    List.length_append, Nat.reduceAdd, ↓reduceIte, Bool.false_eq_true]
  all_goals refine ⟨⟨_, rfl⟩, rfl, ?_, ?_⟩
  all_goals first
    | (intro h; exact absurd h (by decide))
    | (intro _ h; exact absurd h (by decide))
    | (intro _; rfl)
    | (intro _ _; rfl)

theorem weights_constant_built (n C : Nat) (rest : Shape) (p : Type_t)
    (fqd : FakeQuantizeOnData) (fqw : FakeQuantizeOnWeights) (vs : List float)
    (hv : unexpected_size vs.length C (size_mul 2 C) = false) :
    WeightsConstantBuilt (n :: C :: rest) C p fqd fqw vs
      (weights_vector (size_mul (size_mul 2 C) C) vs) := by
  obtain ⟨h1, h2, h3, h4⟩ := get_weights n C rest p fqd vs fqw hv
  refine ⟨h1, h2, h3, h4, ?_⟩
  intro dp d wp da isCorrect F hF
  exact getReferenceWithIncorrectWeights_creates_weights n C rest p dp fqd d wp vs fqw da
    isCorrect [] F _ (by rw [← hF]; rfl)

theorem size_mul_two_exact (C : Nat) (h : 2 * C * C < 2 ^ 64) : size_mul 2 C = 2 * C := by
  unfold size_mul SIZE_MOD
  rcases Nat.eq_zero_or_pos C with h0 | hpos
  · subst h0; simp
  · have : 2 * C ≤ 2 * C * C := Nat.le_mul_of_pos_right _ hpos
    exact Nat.mod_eq_of_lt (by omega)

/-- C6: for an input shape of rank at least 2 with C = inputShape[1], `get` (and likewise
`getReferenceWithIncorrectWeights`) builds a weights constant of shape {2C, C, 1, 1}: for a
single weight value v it holds 2C·C copies of v, and for 2C·C supplied values it holds those
values in the given order; with no quantization on either path the Convolution of `get`
consumes the input Parameter and that constant.  The sizes 2C and 2C·C are the `size_t`
products of the code, which are the numbers 2·C and 2·C·C whenever 2·C·C is below 2^64. -/
theorem weights_constant_shape_and_values (n C : Nat) (rest : Shape) (p : Type_t)
    (fqd : FakeQuantizeOnData) (fqw : FakeQuantizeOnWeights) :
    (∀ v : float, WeightsConstantBuilt (n :: C :: rest) C p fqd fqw [v]
      (List.replicate (size_mul (size_mul 2 C) C) v)) ∧
    (∀ vs : List float, vs.length = size_mul (size_mul 2 C) C →
      WeightsConstantBuilt (n :: C :: rest) C p fqd fqw vs vs) ∧
    (2 * C * C < 2 ^ 64 → size_mul 2 C = 2 * C ∧ size_mul (size_mul 2 C) C = 2 * C * C) := by
  refine ⟨?_, ?_, fun h => ⟨size_mul_two_exact C h, size_mul_exact C h⟩⟩
  · intro v
    exact weights_constant_built n C rest p fqd fqw [v] rfl
  · intro vs hvs
    have h := weights_constant_built n C rest p fqd fqw vs (expected_size_of_full hvs)
    rw [weights_vector_full hvs] at h
    exact h

/-- C6 witness: input shape {1,3,4,4}, weights [2.0], no quantization on either path: the
Convolution of `get` consumes the Parameter and a constant of shape {6,3,1,1} holding 18
values 2.0. -/
theorem weights_constant_shape_and_values_witness :
    convolution_input_ops (Call.run (Call.get [1, 3, 4, 4] Type_t.f32
        ⟨0, [], [], [], [], []⟩ [⟨0x40000000⟩] ⟨0, [], [], [], [], []⟩))
      = some [NodeOp.Parameter Type_t.f32 [1, 3, 4, 4],
              NodeOp.Constant Type_t.f32 [6, 3, 1, 1] (List.replicate 18 ⟨0x40000000⟩)] :=
  ((weights_constant_shape_and_values 1 3 [4, 4] Type_t.f32 ⟨0, [], [], [], [], []⟩
      ⟨0, [], [], [], [], []⟩).1 ⟨0x40000000⟩).2.2.2.1 rfl rfl

/-! ### The weights input of the Convolution in the incorrect-weights builders -/

theorem getOriginalWithIncorrectWeights_weights_path (n C : Nat) (rest : Shape) (p : Type_t)
    (fqw : FakeQuantizeOnWeights) (fqd : FakeQuantizeOnData) (hfqw : fqw.empty = false) :
    weights_path (Call.run (Call.getOriginalWithIncorrectWeights (n :: C :: rest) p fqw fqd
        false))
      = some (NodeOp.Subtract,
          [NodeOp.FakeQuantize fqw.quantizationLevel,
           NodeOp.Constant Type_t.f32 [1, 1, 1, 1] [float_3]]) ∧
    weights_path (Call.run (Call.getOriginalWithIncorrectWeights (n :: C :: rest) p fqw fqd
        true))
      = some (NodeOp.FakeQuantize fqw.quantizationLevel,
          [NodeOp.Constant p [size_mul 2 C, C, 1, 1]
             (List.replicate (size_mul (size_mul 2 C) C) float_1),
           NodeOp.Constant p fqw.constantShape fqw.inputLowValues,
           NodeOp.Constant p fqw.constantShape fqw.inputHighValues,
           NodeOp.Constant p fqw.constantShape fqw.outputLowValues,
           NodeOp.Constant p fqw.constantShape fqw.outputHighValues]) ∧
    (Call.run (Call.getOriginalWithIncorrectWeights (n :: C :: rest) p fqw fqd true)).2.all
        (fun node => node.op != NodeOp.Subtract) = true := by
  unfold Call.run ConvolutionFunction.getOriginalWithIncorrectWeights
  simp only [List.getElem?_cons_succ, List.getElem?_cons_zero]
  cases hd : fqd.empty
  all_goals simp only [bind_apply, pure_apply, raise_apply, make_shared, non_null,
    set_friendly_name, set_rt_info, setOutDataPrecision, update_node,
    get_input_node_shared_ptr, front, replace_node, makeFakeQuantize, makeDequantization,
    makeDequantization_convert, makeDequantization_subtract, makeDequantization_multiply,
    fold_Convert, ConvolutionFunction.fakeQuantize_or_null,
    ConvolutionFunction.subtract_or_null, ConvolutionFunction.multiply_or_null,
    ConvolutionFunction.replace_range_constant, ConvolutionFunction.deref,
    ConvolutionFunction.replace_multiply_constant, ConvolutionFunction.replace_weights,
    DequantizationOperations.empty, DequantizationOperations.Convert.empty,
    DequantizationOperations.Subtract.empty, DequantizationOperations.Multiply.empty,
    List.isEmpty_nil, List.isEmpty_cons, Bool.and_true, Bool.and_false, Bool.true_and,
    Bool.false_and, Bool.not_true, Bool.not_false, Bool.and_self,
    List.nil_append, List.cons_append, List.length_nil, List.length_cons,
    List.length_singleton, List.length_append, List.getElem?_cons_zero,
    List.getElem?_cons_succ, List.set_cons_zero, List.set_cons_succ, List.map_cons,
    List.map_nil, Nat.reduceAdd, Nat.reduceEqDiff, ↓reduceIte, Bool.false_eq_true, hfqw, hd]
  all_goals exact ⟨rfl, rfl, rfl⟩

set_option maxHeartbeats 4000000 in
theorem getReferenceWithIncorrectWeights_weights_path (n C : Nat) (rest : Shape)
    (p dp : Type_t) (fqd : FakeQuantizeOnData) (d : DequantizationOperations) (wp : Type_t)
    (vs : List float) (fqw : FakeQuantizeOnWeights) (da : DequantizationOperations)
    (l h m : float) (ls hs ms : List float)
    (hv : unexpected_size vs.length C (size_mul 2 C) = false)
    (hfqw : fqw.empty = false)
    (hlow : fqd.outputLowValues = l :: ls) (hhigh : fqd.outputHighValues = h :: hs)
    (hda : (da.multiply.values = m :: ms ∧ da.empty = false) ∨
           (da.multiply.values = [] ∧ da.empty = true)) :
    weights_path (Call.run (Call.getReferenceWithIncorrectWeights (n :: C :: rest) p dp fqd d
        wp vs fqw da false))
      = some (NodeOp.Subtract,
          [NodeOp.FakeQuantize fqw.quantizationLevel,
           NodeOp.Constant p [1, 1, 1, 1] [float_3]]) ∧
    weights_path (Call.run (Call.getReferenceWithIncorrectWeights (n :: C :: rest) p dp fqd d
        wp vs fqw da true))
      = some (NodeOp.FoldedConvert wp p [size_mul 2 C, C, 1, 1]
          (weights_vector (size_mul (size_mul 2 C) C) vs), []) := by
  obtain ⟨⟨ce, cp⟩, ⟨sv, sp, ss⟩, ⟨mv, mp, ms1⟩⟩ := d
  unfold Call.run ConvolutionFunction.getReferenceWithIncorrectWeights
  simp only [List.getElem?_cons_succ, List.getElem?_cons_zero, check_valid hv]
  rcases hda with ⟨hm, he⟩ | ⟨hm, he⟩
  all_goals simp only [ConvolutionFunction.multiply_or_null,
    DequantizationOperations.Multiply.empty, hm, he, hlow, hhigh, hfqw]
  all_goals cases ce <;> cases sv <;> cases mv
  all_goals simp only [bind_apply, pure_apply, raise_apply, make_shared, non_null,
    set_friendly_name, set_rt_info, setOutDataPrecision, update_node,
    get_input_node_shared_ptr, front, replace_node, makeFakeQuantize, makeDequantization,
    makeDequantization_convert, makeDequantization_subtract, makeDequantization_multiply,
    fold_Convert, ConvolutionFunction.fakeQuantize_or_null,
    ConvolutionFunction.subtract_or_null, ConvolutionFunction.multiply_or_null,
    ConvolutionFunction.replace_range_constant, ConvolutionFunction.deref,
    ConvolutionFunction.replace_multiply_constant, ConvolutionFunction.replace_weights,
    DequantizationOperations.empty, DequantizationOperations.Convert.empty,
    DequantizationOperations.Subtract.empty, DequantizationOperations.Multiply.empty,
    List.isEmpty_nil, List.isEmpty_cons, Bool.and_true, Bool.and_false, Bool.true_and,
    Bool.false_and, Bool.not_true, Bool.not_false, Bool.and_self,
    List.nil_append, List.cons_append, List.length_nil, List.length_cons,
    List.length_singleton, List.length_append, List.getElem?_cons_zero,
    List.getElem?_cons_succ, List.set_cons_zero, List.set_cons_succ, List.map_cons,
    List.map_nil, Nat.reduceAdd, Nat.reduceEqDiff, ↓reduceIte, Bool.false_eq_true, hfqw, hlow,
    hhigh]
  all_goals exact ⟨rfl, rfl⟩

theorem multiply_present_not_empty {da : DequantizationOperations}
    (h : da.multiply.empty = false) : da.empty = false := by
  unfold DequantizationOperations.empty
  rw [h]
  simp

theorem empty_multiply_absent {da : DequantizationOperations}
    (h : da.empty = true) : da.multiply.values = [] := by
  unfold DequantizationOperations.empty at h
  simp only [Bool.and_eq_true] at h
  have hm := h.2
  unfold DequantizationOperations.Multiply.empty at hm
  exact List.isEmpty_iff.1 hm

theorem expected_size_of_valid {count C : Nat}
    (h : count = 1 ∨ count = size_mul (size_mul 2 C) C) :
    unexpected_size count C (size_mul 2 C) = false := by
  cases hu : unexpected_size count C (size_mul 2 C) with
  | false => rfl
  | true =>
    have hne := (unexpected_size_iff count C).1 hu
    rcases h with h | h
    · exact absurd h hne.1
    · exact absurd h hne.2

/-- C7 as stated fails for the reference form: with a weights quantizer and `isCorrect = true`
the weights input of the Convolution of `getReferenceWithIncorrectWeights` is the weights
constant converted to the weights precision, not the weights quantizer. -/
theorem reference_correct_weights_bypass_quantizer :
    weights_path (Call.run (Call.getReferenceWithIncorrectWeights [1, 2, 4, 4] Type_t.f32
        Type_t.u8 ⟨256, [], [⟨0⟩], [⟨0x437F0000⟩], [⟨0⟩], [⟨0x437F0000⟩]⟩
        ⟨⟨true, Type_t.f32⟩, ⟨[], Type_t.f32, []⟩, ⟨[], Type_t.f32, []⟩⟩
        Type_t.i8 [float_1]
        ⟨255, [], [⟨0⟩], [⟨0x437F0000⟩], [⟨0⟩], [⟨0x437F0000⟩]⟩
        ⟨⟨true, Type_t.f32⟩, ⟨[], Type_t.f32, []⟩, ⟨[], Type_t.f32, []⟩⟩ true))
      = some (NodeOp.FoldedConvert Type_t.i8 Type_t.f32 [4, 2, 1, 1]
          (List.replicate 8 float_1), []) := by
  rfl

/-- C7 amended: with a non-empty weights quantization descriptor and an input shape of rank
at least 2.  Original form: with `isCorrect = false` the weights input of the Convolution is
a Subtract whose inputs are the weights quantizer and the f32 constant 3.0; with
`isCorrect = true` it is the weights quantizer itself and no Subtract node is constructed.
Reference form (valid number of weight values, non-empty output ranges of the data
descriptor, `dequantizationAfter` empty or with a multiply): with `isCorrect = false` the
weights input is a Subtract whose inputs are the weights quantizer and the constant 3.0 of the
given precision; with `isCorrect = true` it is the weights constant folded to the weights
precision, which has no inputs: neither a Subtract nor the quantizer. -/
theorem incorrect_weights_subtract (n C : Nat) (rest : Shape) (p : Type_t)
    (fqw : FakeQuantizeOnWeights) (hfqw : fqw.empty = false) :
    (∀ fqd : FakeQuantizeOnData,
      weights_path (Call.run (Call.getOriginalWithIncorrectWeights (n :: C :: rest) p fqw fqd
          false))
        = some (NodeOp.Subtract,
            [NodeOp.FakeQuantize fqw.quantizationLevel,
             NodeOp.Constant Type_t.f32 [1, 1, 1, 1] [float_3]]) ∧
      weights_path (Call.run (Call.getOriginalWithIncorrectWeights (n :: C :: rest) p fqw fqd
          true))
        = some (NodeOp.FakeQuantize fqw.quantizationLevel,
            [NodeOp.Constant p [size_mul 2 C, C, 1, 1]
               (List.replicate (size_mul (size_mul 2 C) C) float_1),
             NodeOp.Constant p fqw.constantShape fqw.inputLowValues,
             NodeOp.Constant p fqw.constantShape fqw.inputHighValues,
             NodeOp.Constant p fqw.constantShape fqw.outputLowValues,
             NodeOp.Constant p fqw.constantShape fqw.outputHighValues]) ∧
      (∀ node ∈ (Call.run (Call.getOriginalWithIncorrectWeights (n :: C :: rest) p fqw fqd
          true)).2, node.op ≠ NodeOp.Subtract)) ∧
    (∀ (dp : Type_t) (fqd : FakeQuantizeOnData) (d : DequantizationOperations) (wp : Type_t)
        (vs : List float) (da : DequantizationOperations),
      (vs.length = 1 ∨ vs.length = size_mul (size_mul 2 C) C) →
      fqd.outputLowValues ≠ [] → fqd.outputHighValues ≠ [] →
      (da.multiply.empty = false ∨ da.empty = true) →
      weights_path (Call.run (Call.getReferenceWithIncorrectWeights (n :: C :: rest) p dp fqd
          d wp vs fqw da false))
        = some (NodeOp.Subtract,
            [NodeOp.FakeQuantize fqw.quantizationLevel,
             NodeOp.Constant p [1, 1, 1, 1] [float_3]]) ∧
      weights_path (Call.run (Call.getReferenceWithIncorrectWeights (n :: C :: rest) p dp fqd
          d wp vs fqw da true))
        = some (NodeOp.FoldedConvert wp p [size_mul 2 C, C, 1, 1]
            (weights_vector (size_mul (size_mul 2 C) C) vs), [])) := by
  constructor
  · intro fqd
    obtain ⟨h1, h2, h3⟩ :=
      getOriginalWithIncorrectWeights_weights_path n C rest p fqw fqd hfqw
    refine ⟨h1, h2, ?_⟩
    intro node hmem
    have hn := List.all_eq_true.1 h3 node hmem
    simpa using hn
  · intro dp fqd d wp vs da hvs hlow hhigh hda
    obtain ⟨l, ls, hl⟩ := List.exists_cons_of_ne_nil hlow
    obtain ⟨h, hs, hh⟩ := List.exists_cons_of_ne_nil hhigh
    have hv := expected_size_of_valid hvs
    rcases hda with hmul | hemp
    · have hne : da.multiply.values ≠ [] := by
        intro hnil
        unfold DequantizationOperations.Multiply.empty at hmul
        rw [hnil] at hmul
        simp at hmul
      obtain ⟨m, ms, hm⟩ := List.exists_cons_of_ne_nil hne
      exact getReferenceWithIncorrectWeights_weights_path n C rest p dp fqd d wp vs fqw da
        l h m ls hs ms hv hfqw hl hh (Or.inl ⟨hm, multiply_present_not_empty hmul⟩)
    · exact getReferenceWithIncorrectWeights_weights_path n C rest p dp fqd d wp vs fqw da
        l h float_1 ls hs [] hv hfqw hl hh (Or.inr ⟨empty_multiply_absent hemp, hemp⟩)

/-- C7 amended, witness: the original form on the shape {1,2,4,4} with a weights quantizer of
255 levels and `isCorrect = false`. -/
theorem incorrect_weights_subtract_witness :
    weights_path (Call.run (Call.getOriginalWithIncorrectWeights [1, 2, 4, 4] Type_t.f32
        ⟨255, [], [⟨0⟩], [⟨0x437F0000⟩], [⟨0⟩], [⟨0x437F0000⟩]⟩ ⟨0, [], [], [], [], []⟩
        false))
      = some (NodeOp.Subtract,
          [NodeOp.FakeQuantize 255, NodeOp.Constant Type_t.f32 [1, 1, 1, 1] [float_3]]) :=
  ((incorrect_weights_subtract 1 2 [4, 4] Type_t.f32
      ⟨255, [], [⟨0⟩], [⟨0x437F0000⟩], [⟨0⟩], [⟨0x437F0000⟩]⟩ rfl).1
    ⟨0, [], [], [], [], []⟩).1

end builder.subgraph

/-! ## Theorems: the packed element types in ConvertFP8 -/

namespace op.ConvertFP8

/-- C11 as stated fails: with a u4 input tensor of shape {2} and an f32 output tensor the call
returns false and the output tensor is untouched: its storage is the buffer it had, not the
result of a call of `lp_convert`. -/
theorem evaluate_packed_input_skips_lp_convert :
    evaluate [some ⟨Type_t.f32, [1], Buffer.contents [0]⟩]
        [some ⟨Type_t.u4, [2], Buffer.contents [0x21]⟩]
      = .ok (false, [some ⟨Type_t.f32, [1], Buffer.contents [0]⟩]) := by
  rfl

/-- C11 amended: when the input or the output element type is u1, u4 or i4, `evaluate`
returns false and leaves the output tensor as it was, without calling `lp_convert` or any
kernel.  No call of `evaluate` writes the output storage.  The `lp_convert` call over the
element count of the input's shape sits in the kernel template, which takes it whenever one of
its two types is packed, but the dispatch only instantiates the kernel at bf16, f16, f32. -/
theorem evaluate_packed_returns_false (arg out : HostTensor)
    (h : arg.element_type ∈ packed_types ∨ out.element_type ∈ packed_types) :
    evaluate [some out] [some arg] = .ok (false, [some out]) ∧
    (∀ a b : HostTensor, ∃ (rc : Bool) (b1 : HostTensor),
      evaluate [some b] [some a] = .ok (rc, [some b1]) ∧ b1.data = b.data) ∧
    (∀ (I O : Type_t) (a b : HostTensor), (I ∈ packed_types ∨ O ∈ packed_types) →
      convertfp8.evaluate_INPUT_ET_OUTPUT_ET I O a b =
        (true, { element_type := b.element_type, shape := a.shape,
                 data := Buffer.lp_convert a.data b.data (shape_size a.shape) I O })) := by
  refine ⟨?_, ?_, ?_⟩
  · obtain ⟨ai, ash, ad⟩ := arg
    obtain ⟨oi, osh, od⟩ := out
    change ai ∈ packed_types ∨ oi ∈ packed_types at h
    cases ai <;> cases oi <;> first | rfl | (exfalso; revert h; decide)
  · intro a b
    obtain ⟨ai, ash, ad⟩ := a
    obtain ⟨oi, osh, od⟩ := b
    cases ai <;> cases oi <;> exact ⟨_, _, rfl, rfl⟩
  · intro I O a b hIO
    cases I <;> cases O <;> first | rfl | (exfalso; revert hIO; decide)

/-- C11 amended, witness: an i4 output tensor with a bf16 input tensor. -/
theorem evaluate_packed_returns_false_witness :
    evaluate [some ⟨Type_t.i4, [4], Buffer.contents [0, 0]⟩]
        [some ⟨Type_t.bf16, [4], Buffer.contents [1, 2, 3, 4]⟩]
      = .ok (false, [some ⟨Type_t.i4, [4], Buffer.contents [0, 0]⟩]) :=
  (evaluate_packed_returns_false ⟨Type_t.bf16, [4], Buffer.contents [1, 2, 3, 4]⟩
    ⟨Type_t.i4, [4], Buffer.contents [0, 0]⟩ (Or.inr (by decide))).1

end op.ConvertFP8

/-! ## Theorems: the friendly name of the output node -/

namespace builder.subgraph

theorem bind_ok_inv {α β : Type} {x : Build α} {f : α → Build β} {g g2 : Graph} {b : β}
    (h : (x >>= f) g = (.ok b, g2)) : ∃ a g1, x g = (.ok a, g1) ∧ f a g1 = (.ok b, g2) := by
  rw [bind_apply] at h
  rcases hxg : x g with ⟨r, g1⟩
  rw [hxg] at h
  cases r with
  | ok a => exact ⟨a, g1, rfl, h⟩
  | error e => simp at h

theorem NamesOutput_later {α : Type} {x : Build α} {f : α → Build Function}
    (hf : ∀ a, NamesOutput (f a)) : NamesOutput (x >>= f) := by
  intro g F g2 h
  obtain ⟨a, g1, _, h2⟩ := bind_ok_inv h
  exact hf a g1 F g2 h2

theorem update_node_ok {id : NodeId} {f : Node → Node} {g g1 : Graph} {u : PUnit}
    (h : update_node id f g = (.ok u, g1)) :
    ∃ n, g[id]? = some n ∧ g1 = g.set id (f n) := by
  unfold update_node at h
  cases hn : g[id]? with
  | none => rw [hn] at h; simp at h
  | some n =>
    rw [hn] at h
    simp only [Prod.mk.injEq, Except.ok.injEq] at h
    exact ⟨n, rfl, h.2.symm⟩

theorem make_shared_ok {o : NodeOp} {ins : List (Option NodeId)} {g g1 : Graph} {a : NodeId}
    (h : make_shared o ins g = (.ok a, g1)) :
    ∃ is, non_null ins = some is ∧ a = g.length ∧
      g1 = g ++ [{ op := o, inputs := is, friendly_name := "", rt_info := [],
                   overridden_output_type := none }] := by
  unfold make_shared at h
  cases hn : non_null ins with
  | none => rw [hn] at h; simp at h
  | some is =>
    rw [hn] at h
    simp only [Prod.mk.injEq, Except.ok.injEq] at h
    exact ⟨is, rfl, h.1.symm, h.2.symm⟩

/-- Reading the output name after a Result on `out` has been appended. -/
theorem output_name_after_result (g : Graph) (out : NodeId) (name : String) (input : NodeId)
    (fname : String) (hname : friendly_name_at g out = some fname) :
    output_name
      (.ok { results := [g.length], parameters := [input], name := name },
       g ++ [{ op := NodeOp.Result, inputs := [out], friendly_name := "", rt_info := [],
               overridden_output_type := none }]) = some fname := by
  unfold friendly_name_at at hname
  cases hn : g[out]? with
  | none => rw [hn] at hname; simp at hname
  | some n =>
    obtain ⟨hlt, _⟩ := List.getElem?_eq_some.1 hn
    rw [hn] at hname
    simp only [Option.map_some', Option.some.injEq] at hname
    simp [output_name, output_node, input_node, friendly_name_at,
      List.getElem?_append_left hlt, hn, hname]

theorem NamesOutput_tail_original (conv input : NodeId) (k v name : String) :
    NamesOutput (do
      set_friendly_name conv "output"
      set_rt_info conv k v
      let result ← make_shared .Result [some conv]
      pure { results := [result], parameters := [input], name := name }) := by
  intro g F g3 h
  obtain ⟨u1, g1, h1, h⟩ := bind_ok_inv h
  obtain ⟨u2, g2, h2, h⟩ := bind_ok_inv h
  obtain ⟨r, g2', h3, h⟩ := bind_ok_inv h
  obtain ⟨n1, hn1, rfl⟩ := update_node_ok h1
  obtain ⟨n2, hn2, rfl⟩ := update_node_ok h2
  obtain ⟨is, his, rfl, rfl⟩ := make_shared_ok h3
  simp only [non_null, Option.some.injEq] at his
  subst his
  simp only [pure_apply, Prod.mk.injEq, Except.ok.injEq] at h
  obtain ⟨rfl, rfl⟩ := h
  apply output_name_after_result
  obtain ⟨hlt, _⟩ := List.getElem?_eq_some.1 hn1
  have hlt2 : conv < (g.set conv { n1 with friendly_name := "output" }).length := by
    simpa using hlt
  simp only [List.getElem?_set, hlt, ↓reduceIte, Option.some.injEq] at hn2
  subst hn2
  simp [friendly_name_at, List.getElem?_set, hlt]

theorem NamesOutput_tail_reference (deq input : NodeId) (name : String) :
    NamesOutput (do
      set_friendly_name deq "output"
      let result ← make_shared .Result [some deq]
      pure { results := [result], parameters := [input], name := name }) := by
  intro g F g3 h
  obtain ⟨u1, g1, h1, h⟩ := bind_ok_inv h
  obtain ⟨r, g2', h3, h⟩ := bind_ok_inv h
  obtain ⟨n1, hn1, rfl⟩ := update_node_ok h1
  obtain ⟨is, his, rfl, rfl⟩ := make_shared_ok h3
  simp only [non_null, Option.some.injEq] at his
  subst his
  simp only [pure_apply, Prod.mk.injEq, Except.ok.injEq] at h
  obtain ⟨rfl, rfl⟩ := h
  apply output_name_after_result
  obtain ⟨hlt, _⟩ := List.getElem?_eq_some.1 hn1
  simp [friendly_name_at, List.getElem?_set, hlt]

theorem getOriginal_names_output (p : Type_t) (s : Shape) (d : DequantizationOperations)
    (w : ConstantPtr) (fqw : FakeQuantizeOnWeights) :
    NamesOutput (ConvolutionFunction.getOriginal p s d w fqw) := by
  unfold ConvolutionFunction.getOriginal
  cases hs : s[1]? with
  | none =>
    intro g F g1 h
    simp [raise_apply] at h
  | some C =>
    simp only
    repeat' with_reducible first
      | exact NamesOutput_tail_original _ _ _ _ _
      | refine NamesOutput_later (fun _ => ?_)

theorem getReference_names_output (p : Type_t) (s : Shape) (d : DequantizationOperations)
    (w : ConstantPtr) (fqw : FakeQuantizeOnWeights) (pao : Type_t)
    (da : DequantizationOperations) (pad : Type_t) :
    NamesOutput (ConvolutionFunction.getReference p s d w fqw pao da pad) := by
  unfold ConvolutionFunction.getReference
  cases hs : s[1]? with
  | none =>
    intro g F g1 h
    simp [raise_apply] at h
  | some C =>
    simp only
    repeat' with_reducible first
      | exact NamesOutput_tail_reference _ _ _
      | refine NamesOutput_later (fun _ => ?_)

theorem NeverNamesOutput_pure {α : Type} (a : α) : NeverNamesOutput (pure a : Build α) :=
  fun _ h => h

theorem NeverNamesOutput_raise {α : Type} (e : BuildError) :
    NeverNamesOutput (raise e : Build α) := fun _ h => h

theorem NeverNamesOutput_bind {α β : Type} {x : Build α} {f : α → Build β}
    (hx : NeverNamesOutput x) (hf : ∀ a, NeverNamesOutput (f a)) :
    NeverNamesOutput (x >>= f) := by
  intro g h
  have h1 := hx g h
  rw [bind_apply]
  rcases hxg : x g with ⟨r, g1⟩
  rw [hxg] at h1
  cases r with
  | ok a => exact hf a g1 h1
  | error e => exact h1

theorem NeverNamesOutput_ite {α : Type} {c : Prop} [Decidable c] {x y : Build α}
    (hx : NeverNamesOutput x) (hy : NeverNamesOutput y) :
    NeverNamesOutput (if c then x else y) := by
  by_cases hc : c
  · rw [if_pos hc]; exact hx
  · rw [if_neg hc]; exact hy

theorem NeverNamesOutput_make_shared (o : NodeOp) (ins : List (Option NodeId)) :
    NeverNamesOutput (make_shared o ins) := by
  intro g h
  unfold make_shared
  split
  · intro n hn
    rcases List.mem_append.1 hn with hn | hn
    · exact h n hn
    · simp only [List.mem_singleton] at hn
      subst hn
      show "" ≠ "output"
      decide
  · exact h

theorem NeverNamesOutput_update_node (id : NodeId) (f : Node → Node)
    (hf : ∀ n, n.friendly_name ≠ "output" → (f n).friendly_name ≠ "output") :
    NeverNamesOutput (update_node id f) := by
  intro g h
  unfold update_node
  split
  · rename_i n0 hn0
    intro n hn
    rcases List.mem_or_eq_of_mem_set hn with hn | hn
    · exact h n hn
    · subst hn
      exact hf n0 (h n0 (List.getElem?_mem hn0))
  · exact h

theorem NeverNamesOutput_set_friendly_name (id : NodeId) (name : String)
    (hname : name ≠ "output") : NeverNamesOutput (set_friendly_name id name) :=
  NeverNamesOutput_update_node _ _ (fun _ _ => hname)

theorem NeverNamesOutput_set_rt_info (id : NodeId) (k v : String) :
    NeverNamesOutput (set_rt_info id k v) :=
  NeverNamesOutput_update_node _ _ (fun _ h => h)

theorem NeverNamesOutput_setOutDataPrecision (id : NodeId) (t : Type_t) :
    NeverNamesOutput (setOutDataPrecision id t) :=
  NeverNamesOutput_update_node _ _ (fun _ h => h)

theorem NeverNamesOutput_get_input (id : NodeId) (k : Nat) :
    NeverNamesOutput (get_input_node_shared_ptr id k) := by
  intro g h
  unfold get_input_node_shared_ptr
  split
  · split <;> exact h
  · exact h

theorem NeverNamesOutput_front (v : List float) : NeverNamesOutput (front v) := by
  cases v with
  | nil => exact NeverNamesOutput_raise _
  | cons x xs => exact NeverNamesOutput_pure _

theorem NeverNamesOutput_deref (p : Option NodeId) :
    NeverNamesOutput (ConvolutionFunction.deref p) := by
  cases p with
  | none => exact NeverNamesOutput_raise _
  | some n => exact NeverNamesOutput_pure _

theorem NeverNamesOutput_replace_node (t r : NodeId) :
    NeverNamesOutput (replace_node t r) := by
  intro g h n hn
  simp only [replace_node, List.mem_map] at hn
  obtain ⟨m, hm, rfl⟩ := hn
  exact h m hm

theorem NeverNamesOutput_makeFakeQuantize (i : Option NodeId) (t : Type_t) (fq : FakeQuantizeOnData) :
    NeverNamesOutput (makeFakeQuantize i t fq) := by
  unfold makeFakeQuantize
  repeat' with_reducible first
    | exact NeverNamesOutput_pure _
    | exact NeverNamesOutput_make_shared _ _
    | exact NeverNamesOutput_front _
    | exact NeverNamesOutput_deref _
    | exact NeverNamesOutput_get_input _ _
    | exact NeverNamesOutput_replace_node _ _
    | exact NeverNamesOutput_set_friendly_name _ _ (by decide)
    | exact NeverNamesOutput_setOutDataPrecision _ _
    | exact NeverNamesOutput_raise _
    | refine NeverNamesOutput_ite ?_ ?_
    | refine NeverNamesOutput_bind ?_ (fun _ => ?_)

theorem NeverNamesOutput_makeDequantization (data : NodeId) (d : DequantizationOperations) :
    NeverNamesOutput (makeDequantization data d) := by
  unfold makeDequantization makeDequantization_convert makeDequantization_subtract
    makeDequantization_multiply
  repeat' with_reducible first
    | exact NeverNamesOutput_pure _
    | exact NeverNamesOutput_make_shared _ _
    | exact NeverNamesOutput_front _
    | exact NeverNamesOutput_deref _
    | exact NeverNamesOutput_get_input _ _
    | exact NeverNamesOutput_replace_node _ _
    | exact NeverNamesOutput_set_friendly_name _ _ (by decide)
    | exact NeverNamesOutput_setOutDataPrecision _ _
    | exact NeverNamesOutput_raise _
    | refine NeverNamesOutput_ite ?_ ?_
    | refine NeverNamesOutput_bind ?_ (fun _ => ?_)

theorem NeverNamesOutput_check (s a b : Nat) :
    NeverNamesOutput (ConvolutionFunction.check_weights_size s a b) := by
  unfold ConvolutionFunction.check_weights_size
  repeat' with_reducible first
    | exact NeverNamesOutput_pure _
    | exact NeverNamesOutput_make_shared _ _
    | exact NeverNamesOutput_front _
    | exact NeverNamesOutput_deref _
    | exact NeverNamesOutput_get_input _ _
    | exact NeverNamesOutput_replace_node _ _
    | exact NeverNamesOutput_set_friendly_name _ _ (by decide)
    | exact NeverNamesOutput_setOutDataPrecision _ _
    | exact NeverNamesOutput_raise _
    | refine NeverNamesOutput_ite ?_ ?_
    | refine NeverNamesOutput_bind ?_ (fun _ => ?_)

theorem NeverNamesOutput_fakeQuantize_or_null (i : NodeId) (t : Type_t) (fq : FakeQuantizeOnData) :
    NeverNamesOutput (ConvolutionFunction.fakeQuantize_or_null i t fq) := by
  unfold ConvolutionFunction.fakeQuantize_or_null
  repeat' with_reducible first
    | exact NeverNamesOutput_pure _
    | exact NeverNamesOutput_make_shared _ _
    | exact NeverNamesOutput_front _
    | exact NeverNamesOutput_deref _
    | exact NeverNamesOutput_get_input _ _
    | exact NeverNamesOutput_replace_node _ _
    | exact NeverNamesOutput_set_friendly_name _ _ (by decide)
    | exact NeverNamesOutput_setOutDataPrecision _ _
    | exact NeverNamesOutput_raise _
    | exact NeverNamesOutput_makeFakeQuantize _ _ _
    | refine NeverNamesOutput_ite ?_ ?_
    | refine NeverNamesOutput_bind ?_ (fun _ => ?_)

theorem NeverNamesOutput_subtract_or_null (c : Bool) (fq : Option NodeId) (t : Type_t) :
    NeverNamesOutput (ConvolutionFunction.subtract_or_null c fq t) := by
  unfold ConvolutionFunction.subtract_or_null
  repeat' with_reducible first
    | exact NeverNamesOutput_pure _
    | exact NeverNamesOutput_make_shared _ _
    | exact NeverNamesOutput_front _
    | exact NeverNamesOutput_deref _
    | exact NeverNamesOutput_get_input _ _
    | exact NeverNamesOutput_replace_node _ _
    | exact NeverNamesOutput_set_friendly_name _ _ (by decide)
    | exact NeverNamesOutput_setOutDataPrecision _ _
    | exact NeverNamesOutput_raise _
    | refine NeverNamesOutput_ite ?_ ?_
    | refine NeverNamesOutput_bind ?_ (fun _ => ?_)

theorem NeverNamesOutput_multiply_or_null (d : DequantizationOperations) (c : Bool) (t : Type_t)
    (conv : NodeId) :
    NeverNamesOutput (ConvolutionFunction.multiply_or_null d c t conv) := by
  unfold ConvolutionFunction.multiply_or_null
  repeat' with_reducible first
    | exact NeverNamesOutput_pure _
    | exact NeverNamesOutput_make_shared _ _
    | exact NeverNamesOutput_front _
    | exact NeverNamesOutput_deref _
    | exact NeverNamesOutput_get_input _ _
    | exact NeverNamesOutput_replace_node _ _
    | exact NeverNamesOutput_set_friendly_name _ _ (by decide)
    | exact NeverNamesOutput_setOutDataPrecision _ _
    | exact NeverNamesOutput_raise _
    | refine NeverNamesOutput_ite ?_ ?_
    | refine NeverNamesOutput_bind ?_ (fun _ => ?_)

theorem NeverNamesOutput_replace_range_constant (fq : NodeId) (k : Nat) (t : Type_t)
    (v : List float) :
    NeverNamesOutput (ConvolutionFunction.replace_range_constant fq k t v) := by
  unfold ConvolutionFunction.replace_range_constant
  repeat' with_reducible first
    | exact NeverNamesOutput_pure _
    | exact NeverNamesOutput_make_shared _ _
    | exact NeverNamesOutput_front _
    | exact NeverNamesOutput_deref _
    | exact NeverNamesOutput_get_input _ _
    | exact NeverNamesOutput_replace_node _ _
    | exact NeverNamesOutput_set_friendly_name _ _ (by decide)
    | exact NeverNamesOutput_setOutDataPrecision _ _
    | exact NeverNamesOutput_raise _
    | refine NeverNamesOutput_ite ?_ ?_
    | refine NeverNamesOutput_bind ?_ (fun _ => ?_)

theorem NeverNamesOutput_replace_multiply_constant (d : DequantizationOperations) (c : Bool)
    (t : Type_t) (deq : Option NodeId) :
    NeverNamesOutput (ConvolutionFunction.replace_multiply_constant d c t deq) := by
  unfold ConvolutionFunction.replace_multiply_constant
  repeat' with_reducible first
    | exact NeverNamesOutput_pure _
    | exact NeverNamesOutput_make_shared _ _
    | exact NeverNamesOutput_front _
    | exact NeverNamesOutput_deref _
    | exact NeverNamesOutput_get_input _ _
    | exact NeverNamesOutput_replace_node _ _
    | exact NeverNamesOutput_set_friendly_name _ _ (by decide)
    | exact NeverNamesOutput_setOutDataPrecision _ _
    | exact NeverNamesOutput_raise _
    | refine NeverNamesOutput_ite ?_ ?_
    | refine NeverNamesOutput_bind ?_ (fun _ => ?_)

theorem NeverNamesOutput_replace_weights (c : Bool) (w : NodeId) (t : Type_t) (sh : Shape)
    (v : List float) (wp : Type_t) :
    NeverNamesOutput (ConvolutionFunction.replace_weights c w t sh v wp) := by
  unfold ConvolutionFunction.replace_weights fold_Convert
  repeat' with_reducible first
    | exact NeverNamesOutput_pure _
    | exact NeverNamesOutput_make_shared _ _
    | exact NeverNamesOutput_front _
    | exact NeverNamesOutput_deref _
    | exact NeverNamesOutput_get_input _ _
    | exact NeverNamesOutput_replace_node _ _
    | exact NeverNamesOutput_set_friendly_name _ _ (by decide)
    | exact NeverNamesOutput_setOutDataPrecision _ _
    | exact NeverNamesOutput_raise _
    | refine NeverNamesOutput_ite ?_ ?_
    | refine NeverNamesOutput_bind ?_ (fun _ => ?_)

theorem getOriginalWithIncorrectWeights_never_names_output (s : Shape) (p : Type_t)
    (fqw : FakeQuantizeOnWeights) (fqd : FakeQuantizeOnData) (isCorrect : Bool) :
    NeverNamesOutput (ConvolutionFunction.getOriginalWithIncorrectWeights s p fqw fqd isCorrect) := by
  unfold ConvolutionFunction.getOriginalWithIncorrectWeights
  cases hs : s[1]? with
  | none => exact NeverNamesOutput_raise _
  | some C =>
    simp only
    repeat' with_reducible first
      | exact NeverNamesOutput_pure _
      | exact NeverNamesOutput_make_shared _ _
      | exact NeverNamesOutput_front _
      | exact NeverNamesOutput_deref _
      | exact NeverNamesOutput_get_input _ _
      | exact NeverNamesOutput_replace_node _ _
      | exact NeverNamesOutput_set_friendly_name _ _ (by decide)
      | exact NeverNamesOutput_setOutDataPrecision _ _
      | exact NeverNamesOutput_raise _
      | exact NeverNamesOutput_makeFakeQuantize _ _ _
      | exact NeverNamesOutput_makeDequantization _ _
      | exact NeverNamesOutput_check _ _ _
      | exact NeverNamesOutput_fakeQuantize_or_null _ _ _
      | exact NeverNamesOutput_subtract_or_null _ _ _
      | exact NeverNamesOutput_multiply_or_null _ _ _ _
      | exact NeverNamesOutput_replace_range_constant _ _ _ _
      | exact NeverNamesOutput_replace_multiply_constant _ _ _ _
      | exact NeverNamesOutput_replace_weights _ _ _ _ _ _
      | refine NeverNamesOutput_ite ?_ ?_
      | refine NeverNamesOutput_bind ?_ (fun _ => ?_)

theorem getReferenceWithIncorrectWeights_never_names_output (s : Shape) (p dp : Type_t)
    (fqd : FakeQuantizeOnData) (d : DequantizationOperations) (wp : Type_t)
    (values : List float) (fqw : FakeQuantizeOnWeights) (da : DequantizationOperations)
    (isCorrect : Bool) :
    NeverNamesOutput (ConvolutionFunction.getReferenceWithIncorrectWeights s p dp fqd d wp values fqw da
      isCorrect) := by
  unfold ConvolutionFunction.getReferenceWithIncorrectWeights
  cases hs : s[1]? with
  | none => exact NeverNamesOutput_raise _
  | some C =>
    simp only
    repeat' with_reducible first
      | exact NeverNamesOutput_pure _
      | exact NeverNamesOutput_make_shared _ _
      | exact NeverNamesOutput_front _
      | exact NeverNamesOutput_deref _
      | exact NeverNamesOutput_get_input _ _
      | exact NeverNamesOutput_replace_node _ _
      | exact NeverNamesOutput_set_friendly_name _ _ (by decide)
      | exact NeverNamesOutput_setOutDataPrecision _ _
      | exact NeverNamesOutput_raise _
      | exact NeverNamesOutput_makeFakeQuantize _ _ _
      | exact NeverNamesOutput_makeDequantization _ _
      | exact NeverNamesOutput_check _ _ _
      | exact NeverNamesOutput_fakeQuantize_or_null _ _ _
      | exact NeverNamesOutput_subtract_or_null _ _ _
      | exact NeverNamesOutput_multiply_or_null _ _ _ _
      | exact NeverNamesOutput_replace_range_constant _ _ _ _
      | exact NeverNamesOutput_replace_multiply_constant _ _ _ _
      | exact NeverNamesOutput_replace_weights _ _ _ _ _ _
      | refine NeverNamesOutput_ite ?_ ?_
      | refine NeverNamesOutput_bind ?_ (fun _ => ?_)

theorem get_never_names_output (s : Shape) (p : Type_t) (fqd : FakeQuantizeOnData)
    (values : List float) (fqw : FakeQuantizeOnWeights) :
    NeverNamesOutput (ConvolutionFunction.get s p fqd values fqw) := by
  unfold ConvolutionFunction.get
  cases hs : s[1]? with
  | none => exact NeverNamesOutput_raise _
  | some C =>
    simp only
    repeat' with_reducible first
      | exact NeverNamesOutput_pure _
      | exact NeverNamesOutput_make_shared _ _
      | exact NeverNamesOutput_front _
      | exact NeverNamesOutput_deref _
      | exact NeverNamesOutput_get_input _ _
      | exact NeverNamesOutput_replace_node _ _
      | exact NeverNamesOutput_set_friendly_name _ _ (by decide)
      | exact NeverNamesOutput_setOutDataPrecision _ _
      | exact NeverNamesOutput_raise _
      | exact NeverNamesOutput_makeFakeQuantize _ _ _
      | exact NeverNamesOutput_makeDequantization _ _
      | exact NeverNamesOutput_check _ _ _
      | exact NeverNamesOutput_fakeQuantize_or_null _ _ _
      | exact NeverNamesOutput_subtract_or_null _ _ _
      | exact NeverNamesOutput_multiply_or_null _ _ _ _
      | exact NeverNamesOutput_replace_range_constant _ _ _ _
      | exact NeverNamesOutput_replace_multiply_constant _ _ _ _
      | exact NeverNamesOutput_replace_weights _ _ _ _ _ _
      | refine NeverNamesOutput_ite ?_ ?_
      | refine NeverNamesOutput_bind ?_ (fun _ => ?_)

theorem output_name_mem {r : Except BuildError Function × Graph} {name : String}
    (h : output_name r = some name) : ∃ n ∈ r.2, n.friendly_name = name := by
  unfold output_name at h
  cases ho : output_node r with
  | none => rw [ho] at h; simp at h
  | some out =>
    rw [ho] at h
    simp only [friendly_name_at] at h
    cases hn : r.2[out]? with
    | none => rw [hn] at h; simp at h
    | some n =>
      rw [hn] at h
      simp only [Option.map_some', Option.some.injEq] at h
      exact ⟨n, List.getElem?_mem hn, h⟩

/-- C13 as stated fails: `get` on the shape {1,3,4,4} with both quantizers of 256 levels
builds its graph, the node feeding the single result is the convolution, and its friendly
name is the empty default, not "output". -/
theorem get_output_node_unnamed :
    (output_node (Call.run (Call.get [1, 3, 4, 4] Type_t.f32
        ⟨256, [], [⟨0⟩], [⟨0x437F0000⟩], [⟨0⟩], [⟨0x437F0000⟩]⟩ [float_1]
        ⟨256, [], [⟨0⟩], [⟨0x437F0000⟩], [⟨0⟩], [⟨0x437F0000⟩]⟩))).bind
        (fun out => op_at (Call.run (Call.get [1, 3, 4, 4] Type_t.f32
          ⟨256, [], [⟨0⟩], [⟨0x437F0000⟩], [⟨0⟩], [⟨0x437F0000⟩]⟩ [float_1]
          ⟨256, [], [⟨0⟩], [⟨0x437F0000⟩], [⟨0⟩], [⟨0x437F0000⟩]⟩)).2 out)
      = some NodeOp.Convolution ∧
    output_name (Call.run (Call.get [1, 3, 4, 4] Type_t.f32
        ⟨256, [], [⟨0⟩], [⟨0x437F0000⟩], [⟨0⟩], [⟨0x437F0000⟩]⟩ [float_1]
        ⟨256, [], [⟨0⟩], [⟨0x437F0000⟩], [⟨0⟩], [⟨0x437F0000⟩]⟩))
      = some "" := by
  exact ⟨rfl, rfl⟩

/-- C13 amended: on successful construction `getOriginal` and `getReference` give the node
that feeds the single result the friendly name "output"; `getOriginalWithIncorrectWeights`,
`getReferenceWithIncorrectWeights` and `get` never set that name, so the node feeding their
result is not named "output" and neither is any other node they build. -/
theorem output_name_by_builder :
    (∀ (p : Type_t) (s : Shape) (d : DequantizationOperations) (et : Type_t) (shape : Shape)
        (values : List float) (fqw : FakeQuantizeOnWeights) (F : Function),
      (Call.run (Call.getOriginal p s d et shape values fqw)).1 = .ok F →
      output_name (Call.run (Call.getOriginal p s d et shape values fqw)) = some "output") ∧
    (∀ (p : Type_t) (s : Shape) (d : DequantizationOperations) (et : Type_t) (shape : Shape)
        (values : List float) (fqw : FakeQuantizeOnWeights) (pao : Type_t)
        (da : DequantizationOperations) (pad : Type_t) (F : Function),
      (Call.run (Call.getReference p s d et shape values fqw pao da pad)).1 = .ok F →
      output_name (Call.run (Call.getReference p s d et shape values fqw pao da pad))
        = some "output") ∧
    (∀ (s : Shape) (p : Type_t) (fqw : FakeQuantizeOnWeights) (fqd : FakeQuantizeOnData)
        (isCorrect : Bool),
      output_name (Call.run (Call.getOriginalWithIncorrectWeights s p fqw fqd isCorrect))
        ≠ some "output" ∧
      ∀ n ∈ (Call.run (Call.getOriginalWithIncorrectWeights s p fqw fqd isCorrect)).2,
        n.friendly_name ≠ "output") ∧
    (∀ (s : Shape) (p dp : Type_t) (fqd : FakeQuantizeOnData) (db : DequantizationOperations)
        (wp : Type_t) (values : List float) (fqw : FakeQuantizeOnWeights)
        (da : DequantizationOperations) (isCorrect : Bool),
      output_name (Call.run
          (Call.getReferenceWithIncorrectWeights s p dp fqd db wp values fqw da isCorrect))
        ≠ some "output" ∧
      ∀ n ∈ (Call.run
          (Call.getReferenceWithIncorrectWeights s p dp fqd db wp values fqw da isCorrect)).2,
        n.friendly_name ≠ "output") ∧
    (∀ (s : Shape) (p : Type_t) (fqd : FakeQuantizeOnData) (values : List float)
        (fqw : FakeQuantizeOnWeights),
      output_name (Call.run (Call.get s p fqd values fqw)) ≠ some "output" ∧
      ∀ n ∈ (Call.run (Call.get s p fqd values fqw)).2, n.friendly_name ≠ "output") := by
  have never : ∀ {x : Build Function}, NeverNamesOutput x →
      output_name (x []) ≠ some "output" ∧ ∀ n ∈ (x []).2, n.friendly_name ≠ "output" := by
    intro x hx
    have hall := hx [] (fun n hn => absurd hn (List.not_mem_nil n))
    refine ⟨fun ho => ?_, hall⟩
    obtain ⟨n, hn, hname⟩ := output_name_mem ho
    exact hall n hn hname
  refine ⟨?_, ?_, ?_, ?_, ?_⟩
  · intro p s d et shape values fqw F h
    have e : Call.run (Call.getOriginal p s d et shape values fqw)
        = (.ok F, (Call.run (Call.getOriginal p s d et shape values fqw)).2) := Prod.ext h rfl
    have hn := getOriginal_names_output p s d _ fqw _ F _ e
    rw [← e] at hn
    exact hn
  · intro p s d et shape values fqw pao da pad F h
    have e : Call.run (Call.getReference p s d et shape values fqw pao da pad)
        = (.ok F, (Call.run (Call.getReference p s d et shape values fqw pao da pad)).2) :=
      Prod.ext h rfl
    have hn := getReference_names_output p s d _ fqw pao da pad _ F _ e
    rw [← e] at hn
    exact hn
  · intro s p fqw fqd isCorrect
    exact never (getOriginalWithIncorrectWeights_never_names_output s p fqw fqd isCorrect)
  · intro s p dp fqd db wp values fqw da isCorrect
    exact never
      (getReferenceWithIncorrectWeights_never_names_output s p dp fqd db wp values fqw da
        isCorrect)
  · intro s p fqd values fqw
    exact never (get_never_names_output s p fqd values fqw)

/-- C13 amended, witness: `getOriginal` on the shape {1,3,4,4} with a one-element weights
constant and no dequantization names the node feeding its result "output". -/
theorem output_name_by_builder_witness :
    output_name (Call.run (Call.getOriginal Type_t.f32 [1, 3, 4, 4]
        ⟨⟨true, Type_t.f32⟩, ⟨[], Type_t.f32, []⟩, ⟨[], Type_t.f32, []⟩⟩ Type_t.f32 [1]
        [float_1] ⟨0, [], [], [], [], []⟩))
      = some "output" :=
  output_name_by_builder.1 Type_t.f32 [1, 3, 4, 4]
      ⟨⟨true, Type_t.f32⟩, ⟨[], Type_t.f32, []⟩, ⟨[], Type_t.f32, []⟩⟩ Type_t.f32 [1]
      [float_1] ⟨0, [], [], [], [], []⟩ _ rfl

end builder.subgraph

/-! ## Theorems: quantization descriptors and the paths into the Convolution -/

namespace builder.subgraph

theorem chain_ops_succ (g : Graph) (fuel : Nat) (id : NodeId) :
    chain_ops g (fuel + 1) id
      = (g[id]?).elim [] (fun n => n.op :: (n.inputs[0]?).elim [] (chain_ops g fuel)) := by
  rw [chain_ops]
  cases g[id]? with
  | none => rfl
  | some n =>
    cases h : n.inputs[0]? with
    | none => simp only [Option.elim_some, Option.elim_none, h]
    | some next => simp only [Option.elim_some, h]

theorem find_convolution_succ (g : Graph) (fuel : Nat) (id : NodeId) :
    find_convolution g (fuel + 1) id
      = if op_at g id = some NodeOp.Convolution then some id
        else (input_node g id 0).elim none (find_convolution g fuel) := by
  rw [find_convolution]
  cases input_node g id 0 with
  | none => rfl
  | some next => rfl

theorem getElem?_append_offset {α : Type} (E T : List α) (k : Nat) :
    (E ++ T)[E.length + k]? = T[k]? := by
  rw [List.getElem?_append_right (Nat.le_add_right _ _), Nat.add_sub_cancel_left]

theorem getElem?_append_length {α : Type} (E T : List α) :
    (E ++ T)[E.length]? = T[0]? := by
  rw [List.getElem?_append_right (Nat.le_refl _), Nat.sub_self]

theorem set_append_offset {α : Type} (E T : List α) (k : Nat) (a : α) :
    (E ++ T).set (E.length + k) a = E ++ T.set k a := by
  rw [List.set_append_right _ _ (Nat.le_add_right _ _), Nat.add_sub_cancel_left]

theorem set_append_length {α : Type} (E T : List α) (a : α) :
    (E ++ T).set E.length a = E ++ T.set 0 a := by
  rw [List.set_append_right _ _ (Nat.le_refl _), Nat.sub_self]

theorem makeDequantization_appends (data : NodeId) (d : DequantizationOperations)
    (g : Graph) : ∃ deq E, makeDequantization data d g = (.ok deq, g ++ E) := by
  obtain ⟨⟨ce, cp⟩, ⟨sv, sp, ss⟩, ⟨mv, mp, ms1⟩⟩ := d
  cases ce <;> cases sv <;> cases mv
  all_goals simp only [bind_apply, pure_apply, raise_apply, make_shared, non_null,
    set_friendly_name, set_rt_info, setOutDataPrecision, update_node,
    get_input_node_shared_ptr, front, replace_node, makeFakeQuantize, makeDequantization,
    makeDequantization_convert, makeDequantization_subtract, makeDequantization_multiply,
    fold_Convert, fold_Broadcast, ConvolutionFunction.broadcast_weights,
    ConvolutionFunction.fakeQuantize_or_null,
    ConvolutionFunction.subtract_or_null, ConvolutionFunction.multiply_or_null,
    ConvolutionFunction.replace_range_constant, ConvolutionFunction.deref,
    ConvolutionFunction.replace_multiply_constant, ConvolutionFunction.replace_weights,
    DequantizationOperations.empty, DequantizationOperations.Convert.empty,
    DequantizationOperations.Subtract.empty, DequantizationOperations.Multiply.empty,
    dequantization_ops,
    List.isEmpty_nil, List.isEmpty_cons, Bool.and_true, Bool.and_false, Bool.true_and,
    Bool.false_and, Bool.not_true, Bool.not_false, Bool.and_self,
    List.nil_append, List.cons_append, List.append_nil, List.length_nil, List.length_cons,
    List.length_singleton, List.length_append, List.getElem?_cons_zero,
    List.getElem?_cons_succ, List.set_cons_zero, List.set_cons_succ, List.map_cons,
    List.map_nil, Nat.reduceAdd, Nat.reduceEqDiff, Nat.reduceBEq, ↓reduceIte,
    Bool.false_eq_true, List.append_assoc]
  all_goals first
    | exact ⟨_, [], (congrArg _ (List.append_nil g).symm)⟩
    | exact ⟨_, _, rfl⟩

theorem get_chains (n C : Nat) (rest : Shape) (p : Type_t) (fqd : FakeQuantizeOnData)
    (vs : List float) (fqw : FakeQuantizeOnWeights)
    (hv : unexpected_size vs.length C (size_mul 2 C) = false) :
    data_chain (Call.run (Call.get (n :: C :: rest) p fqd vs fqw))
      = some ((if fqd.empty then [] else [NodeOp.FakeQuantize fqd.quantizationLevel]) ++
          [NodeOp.Parameter p (n :: C :: rest)]) ∧
    weights_chain (Call.run (Call.get (n :: C :: rest) p fqd vs fqw))
      = some ((if fqw.empty then [] else [NodeOp.FakeQuantize fqw.quantizationLevel]) ++
          [NodeOp.Constant p [size_mul 2 C, C, 1, 1]
            (weights_vector (size_mul (size_mul 2 C) C) vs)]) := by
  unfold Call.run ConvolutionFunction.get
  simp only [List.getElem?_cons_succ, List.getElem?_cons_zero, check_valid hv]
  cases hd : fqd.empty <;> cases hw : fqw.empty
  all_goals simp only [bind_apply, pure_apply, raise_apply, make_shared, non_null,
    set_friendly_name, set_rt_info, setOutDataPrecision, update_node,
    get_input_node_shared_ptr, front, replace_node, makeFakeQuantize, makeDequantization,
    makeDequantization_convert, makeDequantization_subtract, makeDequantization_multiply,
    fold_Convert, fold_Broadcast, ConvolutionFunction.broadcast_weights,
    ConvolutionFunction.fakeQuantize_or_null,
    ConvolutionFunction.subtract_or_null, ConvolutionFunction.multiply_or_null,
    ConvolutionFunction.replace_range_constant, ConvolutionFunction.deref,
    ConvolutionFunction.replace_multiply_constant, ConvolutionFunction.replace_weights,
    DequantizationOperations.empty, DequantizationOperations.Convert.empty,
    DequantizationOperations.Subtract.empty, DequantizationOperations.Multiply.empty,
    dequantization_ops,
    List.isEmpty_nil, List.isEmpty_cons, Bool.and_true, Bool.and_false, Bool.true_and,
    Bool.false_and, Bool.not_true, Bool.not_false, Bool.and_self,
    List.nil_append, List.cons_append, List.append_nil, List.length_nil, List.length_cons,
    List.length_singleton, List.length_append, List.getElem?_cons_zero,
    List.getElem?_cons_succ, List.set_cons_zero, List.set_cons_succ, List.map_cons,
    List.map_nil, Nat.reduceAdd, Nat.reduceEqDiff, Nat.reduceBEq, ↓reduceIte,
    Bool.false_eq_true, hd, hw]
  all_goals simp only [data_chain, weights_chain, convolution_input_chain, convolution_node,
    input_node, op_at, chain_ops_succ, find_convolution_succ, Option.elim_some,
    Option.elim_none, Option.map_some', Option.map_none', List.length_cons, List.length_nil,
    List.getElem?_cons_zero, List.getElem?_cons_succ, List.getElem?_nil, Nat.reduceAdd,
    Option.some.injEq, reduceCtorEq, ↓reduceIte, and_self]

theorem getOriginalWithIncorrectWeights_chains (n C : Nat) (rest : Shape) (p : Type_t)
    (fqw : FakeQuantizeOnWeights) (fqd : FakeQuantizeOnData) (isCorrect : Bool)
    (hfqw : fqw.empty = false) :
    data_chain (Call.run (Call.getOriginalWithIncorrectWeights (n :: C :: rest) p fqw fqd
        isCorrect))
      = some ((if fqd.empty then [] else [NodeOp.FakeQuantize fqd.quantizationLevel]) ++
          [NodeOp.Parameter p (n :: C :: rest)]) ∧
    weights_chain (Call.run (Call.getOriginalWithIncorrectWeights (n :: C :: rest) p fqw fqd
        isCorrect))
      = some ((if isCorrect then [] else [NodeOp.Subtract]) ++
          [NodeOp.FakeQuantize fqw.quantizationLevel,
           NodeOp.Constant p [size_mul 2 C, C, 1, 1]
             (List.replicate (size_mul (size_mul 2 C) C) float_1)]) := by
  unfold Call.run ConvolutionFunction.getOriginalWithIncorrectWeights
  simp only [List.getElem?_cons_succ, List.getElem?_cons_zero]
  cases hd : fqd.empty <;> cases isCorrect
  all_goals simp only [bind_apply, pure_apply, raise_apply, make_shared, non_null,
    set_friendly_name, set_rt_info, setOutDataPrecision, update_node,
    get_input_node_shared_ptr, front, replace_node, makeFakeQuantize, makeDequantization,
    makeDequantization_convert, makeDequantization_subtract, makeDequantization_multiply,
    fold_Convert, fold_Broadcast, ConvolutionFunction.broadcast_weights,
    ConvolutionFunction.fakeQuantize_or_null,
    ConvolutionFunction.subtract_or_null, ConvolutionFunction.multiply_or_null,
    ConvolutionFunction.replace_range_constant, ConvolutionFunction.deref,
    ConvolutionFunction.replace_multiply_constant, ConvolutionFunction.replace_weights,
    DequantizationOperations.empty, DequantizationOperations.Convert.empty,
    DequantizationOperations.Subtract.empty, DequantizationOperations.Multiply.empty,
    dequantization_ops,
    List.isEmpty_nil, List.isEmpty_cons, Bool.and_true, Bool.and_false, Bool.true_and,
    Bool.false_and, Bool.not_true, Bool.not_false, Bool.and_self,
    List.nil_append, List.cons_append, List.append_nil, List.length_nil, List.length_cons,
    List.length_singleton, List.length_append, List.getElem?_cons_zero,
    List.getElem?_cons_succ, List.set_cons_zero, List.set_cons_succ, List.map_cons,
    List.map_nil, Nat.reduceAdd, Nat.reduceEqDiff, Nat.reduceBEq, ↓reduceIte,
    Bool.false_eq_true, hd, hfqw]
  all_goals simp only [data_chain, weights_chain, convolution_input_chain, convolution_node,
    input_node, op_at, chain_ops_succ, find_convolution_succ, Option.elim_some,
    Option.elim_none, Option.map_some', Option.map_none', List.length_cons, List.length_nil,
    List.getElem?_cons_zero, List.getElem?_cons_succ, List.getElem?_nil, Nat.reduceAdd,
    Option.some.injEq, reduceCtorEq, ↓reduceIte, and_self]

set_option maxHeartbeats 4000000 in
theorem getReferenceWithIncorrectWeights_chains (n C : Nat) (rest : Shape)
    (p dp : Type_t) (fqd : FakeQuantizeOnData) (d : DequantizationOperations) (wp : Type_t)
    (vs : List float) (fqw : FakeQuantizeOnWeights) (da : DequantizationOperations)
    (isCorrect : Bool) (l h m : float) (ls hs ms : List float)
    (hv : unexpected_size vs.length C (size_mul 2 C) = false)
    (hfqw : isCorrect = true ∨ fqw.empty = false)
    (hlow : fqd.outputLowValues = l :: ls) (hhigh : fqd.outputHighValues = h :: hs)
    (hda : (da.multiply.values = m :: ms ∧ da.empty = false) ∨
           (da.multiply.values = [] ∧ da.empty = true)) :
    data_chain (Call.run (Call.getReferenceWithIncorrectWeights (n :: C :: rest) p dp fqd d
        wp vs fqw da isCorrect))
      = some (dequantization_ops d ++
          [NodeOp.FakeQuantize fqd.quantizationLevel, NodeOp.Parameter p (n :: C :: rest)]) ∧
    weights_chain (Call.run (Call.getReferenceWithIncorrectWeights (n :: C :: rest) p dp fqd d
        wp vs fqw da isCorrect))
      = some (if isCorrect then
                [NodeOp.FoldedConvert wp p [size_mul 2 C, C, 1, 1]
                  (weights_vector (size_mul (size_mul 2 C) C) vs)]
              else [NodeOp.Subtract, NodeOp.FakeQuantize fqw.quantizationLevel,
                    NodeOp.Constant p [size_mul 2 C, C, 1, 1]
                      (weights_vector (size_mul (size_mul 2 C) C) vs)]) := by
  obtain ⟨⟨ce, cp⟩, ⟨sv, sp, ss⟩, ⟨mv, mp, ms1⟩⟩ := d
  unfold Call.run ConvolutionFunction.getReferenceWithIncorrectWeights
  simp only [List.getElem?_cons_succ, List.getElem?_cons_zero, check_valid hv]
  have hq : (isCorrect = true ∧ fqw.empty = true) ∨ (isCorrect = true ∧ fqw.empty = false) ∨
      (isCorrect = false ∧ fqw.empty = false) := by
    cases isCorrect <;> cases hw : fqw.empty <;> simp_all
  rcases hda with ⟨hm, he⟩ | ⟨hm, he⟩ <;> rcases hq with ⟨hc, hw⟩ | ⟨hc, hw⟩ | ⟨hc, hw⟩
  all_goals subst hc
  all_goals simp only [ConvolutionFunction.multiply_or_null,
    DequantizationOperations.Multiply.empty, hm, he, hlow, hhigh, hw]
  all_goals cases ce <;> cases sv <;> cases mv
  all_goals simp only [bind_apply, pure_apply, raise_apply, make_shared, non_null,
    set_friendly_name, set_rt_info, setOutDataPrecision, update_node,
    get_input_node_shared_ptr, front, replace_node, makeFakeQuantize, makeDequantization,
    makeDequantization_convert, makeDequantization_subtract, makeDequantization_multiply,
    fold_Convert, fold_Broadcast, ConvolutionFunction.broadcast_weights,
    ConvolutionFunction.fakeQuantize_or_null,
    ConvolutionFunction.subtract_or_null, ConvolutionFunction.multiply_or_null,
    ConvolutionFunction.replace_range_constant, ConvolutionFunction.deref,
    ConvolutionFunction.replace_multiply_constant, ConvolutionFunction.replace_weights,
    DequantizationOperations.empty, DequantizationOperations.Convert.empty,
    DequantizationOperations.Subtract.empty, DequantizationOperations.Multiply.empty,
    dequantization_ops,
    List.isEmpty_nil, List.isEmpty_cons, Bool.and_true, Bool.and_false, Bool.true_and,
    Bool.false_and, Bool.not_true, Bool.not_false, Bool.and_self,
    List.nil_append, List.cons_append, List.append_nil, List.length_nil, List.length_cons,
    List.length_singleton, List.length_append, List.getElem?_cons_zero,
    List.getElem?_cons_succ, List.set_cons_zero, List.set_cons_succ, List.map_cons,
    List.map_nil, Nat.reduceAdd, Nat.reduceEqDiff, Nat.reduceBEq, ↓reduceIte,
    Bool.false_eq_true, hw, hlow, hhigh]
  all_goals simp only [data_chain, weights_chain, convolution_input_chain, convolution_node,
    input_node, op_at, chain_ops_succ, find_convolution_succ, Option.elim_some,
    Option.elim_none, Option.map_some', Option.map_none', List.length_cons, List.length_nil,
    List.getElem?_cons_zero, List.getElem?_cons_succ, List.getElem?_nil, Nat.reduceAdd,
    Option.some.injEq, reduceCtorEq, ↓reduceIte, and_self]

set_option maxHeartbeats 4000000 in
theorem getOriginal_weights_chain (n C : Nat) (rest : Shape) (p : Type_t)
    (d : DequantizationOperations) (et : Type_t) (shape : Shape) (values : List float)
    (fqw : FakeQuantizeOnWeights) :
    (∀ v : float, values = [v] →
      weights_chain (Call.run (Call.getOriginal p (n :: C :: rest) d et shape values fqw))
        = some ((if fqw.empty then [] else [NodeOp.FakeQuantize fqw.quantizationLevel]) ++
            [NodeOp.Constant et [size_mul 2 C, C, 1, 1]
              (List.replicate (shape_size [size_mul 2 C, C, 1, 1]) v)])) ∧
    (values.length ≠ 1 → values.length = size_mul (size_mul 2 C) C →
      weights_chain (Call.run (Call.getOriginal p (n :: C :: rest) d et shape values fqw))
        = some ((if fqw.empty then [] else [NodeOp.FakeQuantize fqw.quantizationLevel]) ++
            [NodeOp.Constant et shape values])) := by
  obtain ⟨deq, E, hE⟩ := makeDequantization_appends 1 d
    [Call.weights_node et shape values,
     { op := NodeOp.Parameter p (n :: C :: rest), inputs := [], friendly_name := "",
       rt_info := [], overridden_output_type := none }]
  constructor
  · intro v hv
    subst hv
    unfold Call.run ConvolutionFunction.getOriginal
    simp only [List.getElem?_cons_succ, List.getElem?_cons_zero, List.length_singleton,
      check_valid (expected_size_of_valid (Or.inl rfl))]
    simp only [bind_apply, make_shared, non_null, List.length_singleton, List.nil_append,
      List.cons_append, hE]
    cases hw : fqw.empty
    all_goals simp only [bind_apply, pure_apply, raise_apply, make_shared, non_null,
    set_friendly_name, set_rt_info, setOutDataPrecision, update_node,
    get_input_node_shared_ptr, front, replace_node, makeFakeQuantize, makeDequantization,
    makeDequantization_convert, makeDequantization_subtract, makeDequantization_multiply,
    fold_Convert, fold_Broadcast, ConvolutionFunction.broadcast_weights,
    ConvolutionFunction.fakeQuantize_or_null,
    ConvolutionFunction.subtract_or_null, ConvolutionFunction.multiply_or_null,
    ConvolutionFunction.replace_range_constant, ConvolutionFunction.deref,
    ConvolutionFunction.replace_multiply_constant, ConvolutionFunction.replace_weights,
    DequantizationOperations.empty, DequantizationOperations.Convert.empty,
    DequantizationOperations.Subtract.empty, DequantizationOperations.Multiply.empty,
    dequantization_ops,
    List.isEmpty_nil, List.isEmpty_cons, Bool.and_true, Bool.and_false, Bool.true_and,
    Bool.false_and, Bool.not_true, Bool.not_false, Bool.and_self,
    List.nil_append, List.cons_append, List.append_nil, List.length_nil, List.length_cons,
    List.length_singleton, List.length_append, List.getElem?_cons_zero,
    List.getElem?_cons_succ, List.set_cons_zero, List.set_cons_succ, List.map_cons,
    List.map_nil, Nat.reduceAdd, Nat.reduceEqDiff, Nat.reduceBEq, ↓reduceIte,
    Bool.false_eq_true, List.append_assoc, getElem?_append_offset, getElem?_append_length,
      set_append_offset, set_append_length, Nat.add_assoc, List.singleton_append, Call.weights_node, hw]
    all_goals simp only [data_chain, weights_chain, convolution_input_chain, convolution_node,
    input_node, op_at, chain_ops_succ, find_convolution_succ, Option.elim_some,
    Option.elim_none, Option.map_some', Option.map_none', List.length_cons, List.length_nil,
    List.getElem?_cons_zero, List.getElem?_cons_succ, List.getElem?_nil, Nat.reduceAdd,
    Option.some.injEq, reduceCtorEq, ↓reduceIte, and_self, List.append_assoc, getElem?_append_offset, getElem?_append_length,
      set_append_offset, set_append_length, Nat.add_assoc, List.singleton_append, List.length_append]
  · intro hne hlen
    have hb : (values.length == 1) = false := by simpa using hne
    unfold Call.run ConvolutionFunction.getOriginal
    simp only [List.getElem?_cons_succ, List.getElem?_cons_zero,
      check_valid (expected_size_of_full hlen)]
    simp only [bind_apply, make_shared, non_null, List.length_singleton, List.nil_append,
      List.cons_append, hE]
    cases hw : fqw.empty
    all_goals simp only [bind_apply, pure_apply, raise_apply, make_shared, non_null,
    set_friendly_name, set_rt_info, setOutDataPrecision, update_node,
    get_input_node_shared_ptr, front, replace_node, makeFakeQuantize, makeDequantization,
    makeDequantization_convert, makeDequantization_subtract, makeDequantization_multiply,
    fold_Convert, fold_Broadcast, ConvolutionFunction.broadcast_weights,
    ConvolutionFunction.fakeQuantize_or_null,
    ConvolutionFunction.subtract_or_null, ConvolutionFunction.multiply_or_null,
    ConvolutionFunction.replace_range_constant, ConvolutionFunction.deref,
    ConvolutionFunction.replace_multiply_constant, ConvolutionFunction.replace_weights,
    DequantizationOperations.empty, DequantizationOperations.Convert.empty,
    DequantizationOperations.Subtract.empty, DequantizationOperations.Multiply.empty,
    dequantization_ops,
    List.isEmpty_nil, List.isEmpty_cons, Bool.and_true, Bool.and_false, Bool.true_and,
    Bool.false_and, Bool.not_true, Bool.not_false, Bool.and_self,
    List.nil_append, List.cons_append, List.append_nil, List.length_nil, List.length_cons,
    List.length_singleton, List.length_append, List.getElem?_cons_zero,
    List.getElem?_cons_succ, List.set_cons_zero, List.set_cons_succ, List.map_cons,
    List.map_nil, Nat.reduceAdd, Nat.reduceEqDiff, Nat.reduceBEq, ↓reduceIte,
    Bool.false_eq_true, List.append_assoc, getElem?_append_offset, getElem?_append_length,
      set_append_offset, set_append_length, Nat.add_assoc, List.singleton_append, Call.weights_node, hw, hb]
    all_goals simp only [data_chain, weights_chain, convolution_input_chain, convolution_node,
    input_node, op_at, chain_ops_succ, find_convolution_succ, Option.elim_some,
    Option.elim_none, Option.map_some', Option.map_none', List.length_cons, List.length_nil,
    List.getElem?_cons_zero, List.getElem?_cons_succ, List.getElem?_nil, Nat.reduceAdd,
    Option.some.injEq, reduceCtorEq, ↓reduceIte, and_self, List.append_assoc, getElem?_append_offset, getElem?_append_length,
      set_append_offset, set_append_length, Nat.add_assoc, List.singleton_append, List.length_append]

set_option maxHeartbeats 4000000 in
theorem getReference_weights_chain (n C : Nat) (rest : Shape) (p : Type_t)
    (d : DequantizationOperations) (et : Type_t) (shape : Shape) (values : List float)
    (fqw : FakeQuantizeOnWeights) (pao : Type_t) (da : DequantizationOperations)
    (pad : Type_t) :
    (∀ v : float, values = [v] →
      weights_chain
          (Call.run (Call.getReference p (n :: C :: rest) d et shape values fqw pao da pad))
        = some ((if fqw.empty then [] else [NodeOp.FakeQuantize fqw.quantizationLevel]) ++
            [NodeOp.Constant et [size_mul 2 C, C, 1, 1]
              (List.replicate (shape_size [size_mul 2 C, C, 1, 1]) v)])) ∧
    (values.length ≠ 1 → values.length = size_mul (size_mul 2 C) C →
      weights_chain
          (Call.run (Call.getReference p (n :: C :: rest) d et shape values fqw pao da pad))
        = some ((if fqw.empty then [] else [NodeOp.FakeQuantize fqw.quantizationLevel]) ++
            [NodeOp.Constant et shape values])) := by
  obtain ⟨deq, E, hE⟩ := makeDequantization_appends 1 d
    [Call.weights_node et shape values,
     { op := NodeOp.Parameter p (n :: C :: rest), inputs := [], friendly_name := "",
       rt_info := [], overridden_output_type := none }]
  obtain ⟨⟨ace, acp⟩, ⟨asv, asp, ass⟩, ⟨amv, amp, ams⟩⟩ := da
  constructor
  · intro v hv
    subst hv
    unfold Call.run ConvolutionFunction.getReference
    simp only [List.getElem?_cons_succ, List.getElem?_cons_zero, List.length_singleton,
      check_valid (expected_size_of_valid (Or.inl rfl))]
    simp only [bind_apply, make_shared, non_null, List.length_singleton, List.nil_append,
      List.cons_append, hE]
    cases hw : fqw.empty <;> cases ace <;> cases asv <;> cases amv
    all_goals simp only [bind_apply, pure_apply, raise_apply, make_shared, non_null,
    set_friendly_name, set_rt_info, setOutDataPrecision, update_node,
    get_input_node_shared_ptr, front, replace_node, makeFakeQuantize, makeDequantization,
    makeDequantization_convert, makeDequantization_subtract, makeDequantization_multiply,
    fold_Convert, fold_Broadcast, ConvolutionFunction.broadcast_weights,
    ConvolutionFunction.fakeQuantize_or_null,
    ConvolutionFunction.subtract_or_null, ConvolutionFunction.multiply_or_null,
    ConvolutionFunction.replace_range_constant, ConvolutionFunction.deref,
    ConvolutionFunction.replace_multiply_constant, ConvolutionFunction.replace_weights,
    DequantizationOperations.empty, DequantizationOperations.Convert.empty,
    DequantizationOperations.Subtract.empty, DequantizationOperations.Multiply.empty,
    dequantization_ops,
    List.isEmpty_nil, List.isEmpty_cons, Bool.and_true, Bool.and_false, Bool.true_and,
    Bool.false_and, Bool.not_true, Bool.not_false, Bool.and_self,
    List.nil_append, List.cons_append, List.append_nil, List.length_nil, List.length_cons,
    List.length_singleton, List.length_append, List.getElem?_cons_zero,
    List.getElem?_cons_succ, List.set_cons_zero, List.set_cons_succ, List.map_cons,
    List.map_nil, Nat.reduceAdd, Nat.reduceEqDiff, Nat.reduceBEq, ↓reduceIte,
    Bool.false_eq_true, List.append_assoc, getElem?_append_offset, getElem?_append_length,
      set_append_offset, set_append_length, Nat.add_assoc, List.singleton_append, Call.weights_node, hw]
    all_goals simp only [data_chain, weights_chain, convolution_input_chain, convolution_node,
    input_node, op_at, chain_ops_succ, find_convolution_succ, Option.elim_some,
    Option.elim_none, Option.map_some', Option.map_none', List.length_cons, List.length_nil,
    List.getElem?_cons_zero, List.getElem?_cons_succ, List.getElem?_nil, Nat.reduceAdd,
    Option.some.injEq, reduceCtorEq, ↓reduceIte, and_self, List.append_assoc, getElem?_append_offset, getElem?_append_length,
      set_append_offset, set_append_length, Nat.add_assoc, List.singleton_append, List.length_append]
  · intro hne hlen
    have hb : (values.length == 1) = false := by simpa using hne
    unfold Call.run ConvolutionFunction.getReference
    simp only [List.getElem?_cons_succ, List.getElem?_cons_zero,
      check_valid (expected_size_of_full hlen)]
    simp only [bind_apply, make_shared, non_null, List.length_singleton, List.nil_append,
      List.cons_append, hE]
    cases hw : fqw.empty <;> cases ace <;> cases asv <;> cases amv
    all_goals simp only [bind_apply, pure_apply, raise_apply, make_shared, non_null,
    set_friendly_name, set_rt_info, setOutDataPrecision, update_node,
    get_input_node_shared_ptr, front, replace_node, makeFakeQuantize, makeDequantization,
    makeDequantization_convert, makeDequantization_subtract, makeDequantization_multiply,
    fold_Convert, fold_Broadcast, ConvolutionFunction.broadcast_weights,
    ConvolutionFunction.fakeQuantize_or_null,
    ConvolutionFunction.subtract_or_null, ConvolutionFunction.multiply_or_null,
    ConvolutionFunction.replace_range_constant, ConvolutionFunction.deref,
    ConvolutionFunction.replace_multiply_constant, ConvolutionFunction.replace_weights,
    DequantizationOperations.empty, DequantizationOperations.Convert.empty,
    DequantizationOperations.Subtract.empty, DequantizationOperations.Multiply.empty,
    dequantization_ops,
    List.isEmpty_nil, List.isEmpty_cons, Bool.and_true, Bool.and_false, Bool.true_and,
    Bool.false_and, Bool.not_true, Bool.not_false, Bool.and_self,
    List.nil_append, List.cons_append, List.append_nil, List.length_nil, List.length_cons,
    List.length_singleton, List.length_append, List.getElem?_cons_zero,
    List.getElem?_cons_succ, List.set_cons_zero, List.set_cons_succ, List.map_cons,
    List.map_nil, Nat.reduceAdd, Nat.reduceEqDiff, Nat.reduceBEq, ↓reduceIte,
    Bool.false_eq_true, List.append_assoc, getElem?_append_offset, getElem?_append_length,
      set_append_offset, set_append_length, Nat.add_assoc, List.singleton_append, Call.weights_node, hw, hb]
    all_goals simp only [data_chain, weights_chain, convolution_input_chain, convolution_node,
    input_node, op_at, chain_ops_succ, find_convolution_succ, Option.elim_some,
    Option.elim_none, Option.map_some', Option.map_none', List.length_cons, List.length_nil,
    List.getElem?_cons_zero, List.getElem?_cons_succ, List.getElem?_nil, Nat.reduceAdd,
    Option.some.injEq, reduceCtorEq, ↓reduceIte, and_self, List.append_assoc, getElem?_append_offset, getElem?_append_length,
      set_append_offset, set_append_length, Nat.add_assoc, List.singleton_append, List.length_append]

/-- With an empty weights descriptor `getOriginalWithIncorrectWeights` passes the null
`fqOnWeights` pointer on, to the Subtract or to the Convolution: no graph is built. -/
theorem getOriginalWithIncorrectWeights_null_weights (n C : Nat) (rest : Shape) (p : Type_t)
    (fqw : FakeQuantizeOnWeights) (fqd : FakeQuantizeOnData) (isCorrect : Bool)
    (hfqw : fqw.empty = true) :
    (Call.run (Call.getOriginalWithIncorrectWeights (n :: C :: rest) p fqw fqd isCorrect)).1
      = .error (.undefined_behaviour "null input node") := by
  unfold Call.run ConvolutionFunction.getOriginalWithIncorrectWeights
  simp only [List.getElem?_cons_succ, List.getElem?_cons_zero]
  cases hd : fqd.empty <;> cases isCorrect
  all_goals simp only [bind_apply, pure_apply, raise_apply, make_shared, non_null,
    set_friendly_name, set_rt_info, setOutDataPrecision, update_node,
    get_input_node_shared_ptr, front, replace_node, makeFakeQuantize, makeDequantization,
    makeDequantization_convert, makeDequantization_subtract, makeDequantization_multiply,
    fold_Convert, fold_Broadcast, ConvolutionFunction.broadcast_weights,
    ConvolutionFunction.fakeQuantize_or_null,
    ConvolutionFunction.subtract_or_null, ConvolutionFunction.multiply_or_null,
    ConvolutionFunction.replace_range_constant, ConvolutionFunction.deref,
    ConvolutionFunction.replace_multiply_constant, ConvolutionFunction.replace_weights,
    DequantizationOperations.empty, DequantizationOperations.Convert.empty,
    DequantizationOperations.Subtract.empty, DequantizationOperations.Multiply.empty,
    dequantization_ops,
    List.isEmpty_nil, List.isEmpty_cons, Bool.and_true, Bool.and_false, Bool.true_and,
    Bool.false_and, Bool.not_true, Bool.not_false, Bool.and_self,
    List.nil_append, List.cons_append, List.append_nil, List.length_nil, List.length_cons,
    List.length_singleton, List.length_append, List.getElem?_cons_zero,
    List.getElem?_cons_succ, List.set_cons_zero, List.set_cons_succ, List.map_cons,
    List.map_nil, Nat.reduceAdd, Nat.reduceEqDiff, Nat.reduceBEq, ↓reduceIte,
    Bool.false_eq_true, hd, hfqw]

/-- C12 as stated fails: `getReferenceWithIncorrectWeights` on the shape {1,3,8,8} with a
non-empty weights descriptor of 255 levels and `isCorrect = true` builds the weights quantizer,
but the weights path of the Convolution is the converted weights constant alone: the consumer's
input is not the quantize node. -/
theorem reference_weights_quantizer_not_consumed :
    (Call.run (Call.getReferenceWithIncorrectWeights [1, 3, 8, 8] Type_t.f32 Type_t.u8
        ⟨256, [], [⟨0⟩], [⟨0x437F0000⟩], [⟨0⟩], [⟨0x437F0000⟩]⟩
        ⟨⟨true, Type_t.f32⟩, ⟨[], Type_t.f32, []⟩, ⟨[], Type_t.f32, []⟩⟩
        Type_t.i8 [float_1]
        ⟨255, [], [⟨0⟩], [⟨0x437F0000⟩], [⟨0⟩], [⟨0x437F0000⟩]⟩
        ⟨⟨true, Type_t.f32⟩, ⟨[], Type_t.f32, []⟩, ⟨[], Type_t.f32, []⟩⟩ true)).2.any
      (fun node => node.op == NodeOp.FakeQuantize 255) = true ∧
    weights_chain (Call.run (Call.getReferenceWithIncorrectWeights [1, 3, 8, 8] Type_t.f32
        Type_t.u8 ⟨256, [], [⟨0⟩], [⟨0x437F0000⟩], [⟨0⟩], [⟨0x437F0000⟩]⟩
        ⟨⟨true, Type_t.f32⟩, ⟨[], Type_t.f32, []⟩, ⟨[], Type_t.f32, []⟩⟩
        Type_t.i8 [float_1]
        ⟨255, [], [⟨0⟩], [⟨0x437F0000⟩], [⟨0⟩], [⟨0x437F0000⟩]⟩
        ⟨⟨true, Type_t.f32⟩, ⟨[], Type_t.f32, []⟩, ⟨[], Type_t.f32, []⟩⟩ true))
      = some [NodeOp.FoldedConvert Type_t.i8 Type_t.f32 [6, 3, 1, 1]
          (List.replicate 18 float_1)] := by
  exact ⟨rfl, rfl⟩

/-- C12 amended: on an input shape of rank at least 2, with the paths read from the
Convolution back along input 0.  `get` (valid number of weight values): the data path is the
Parameter, preceded by the data quantizer exactly when the data descriptor is non-empty, and
the weights path is the weights constant, preceded by the weights quantizer exactly when the
weights descriptor is non-empty.  `getOriginalWithIncorrectWeights` with a non-empty weights
descriptor: the data path is as in `get`; the weights path is the weights quantizer on the
weights constant, preceded by the Subtract when `isCorrect` is false.
`getReferenceWithIncorrectWeights` (valid number of weight values, non-empty output ranges
of the data descriptor, `dequantizationAfter` empty or with a multiply, `isCorrect` or a
non-empty weights descriptor): the data path always holds the data quantizer on the Parameter,
preceded by the stages of `dequantizationBefore`; the weights path is the converted weights
constant alone when `isCorrect`, whatever the weights descriptor, and else the Subtract on the
weights quantizer on the weights constant.  `getOriginal` and `getReference` (one weight
value, or the full number): the weights path is the broadcast, respectively the given, weights
constant, preceded by the weights quantizer exactly when the weights descriptor is
non-empty. -/
theorem quantizer_wiring_by_builder (n C : Nat) (rest : Shape) (p : Type_t) :
    (∀ (fqd : FakeQuantizeOnData) (vs : List float) (fqw : FakeQuantizeOnWeights),
      (vs.length = 1 ∨ vs.length = size_mul (size_mul 2 C) C) →
      data_chain (Call.run (Call.get (n :: C :: rest) p fqd vs fqw))
        = some ((if fqd.empty then [] else [NodeOp.FakeQuantize fqd.quantizationLevel]) ++
            [NodeOp.Parameter p (n :: C :: rest)]) ∧
      weights_chain (Call.run (Call.get (n :: C :: rest) p fqd vs fqw))
        = some ((if fqw.empty then [] else [NodeOp.FakeQuantize fqw.quantizationLevel]) ++
            [NodeOp.Constant p [size_mul 2 C, C, 1, 1]
              (weights_vector (size_mul (size_mul 2 C) C) vs)])) ∧
    (∀ (fqw : FakeQuantizeOnWeights) (fqd : FakeQuantizeOnData) (isCorrect : Bool),
      fqw.empty = false →
      data_chain (Call.run (Call.getOriginalWithIncorrectWeights (n :: C :: rest) p fqw fqd
          isCorrect))
        = some ((if fqd.empty then [] else [NodeOp.FakeQuantize fqd.quantizationLevel]) ++
            [NodeOp.Parameter p (n :: C :: rest)]) ∧
      weights_chain (Call.run (Call.getOriginalWithIncorrectWeights (n :: C :: rest) p fqw fqd
          isCorrect))
        = some ((if isCorrect then [] else [NodeOp.Subtract]) ++
            [NodeOp.FakeQuantize fqw.quantizationLevel,
             NodeOp.Constant p [size_mul 2 C, C, 1, 1]
               (List.replicate (size_mul (size_mul 2 C) C) float_1)])) ∧
    (∀ (dp : Type_t) (fqd : FakeQuantizeOnData) (d : DequantizationOperations) (wp : Type_t)
        (vs : List float) (fqw : FakeQuantizeOnWeights) (da : DequantizationOperations)
        (isCorrect : Bool),
      (vs.length = 1 ∨ vs.length = size_mul (size_mul 2 C) C) →
      fqd.outputLowValues ≠ [] → fqd.outputHighValues ≠ [] →
      (da.multiply.empty = false ∨ da.empty = true) →
      (isCorrect = true ∨ fqw.empty = false) →
      data_chain (Call.run (Call.getReferenceWithIncorrectWeights (n :: C :: rest) p dp fqd d
          wp vs fqw da isCorrect))
        = some (dequantization_ops d ++
            [NodeOp.FakeQuantize fqd.quantizationLevel,
             NodeOp.Parameter p (n :: C :: rest)]) ∧
      weights_chain (Call.run (Call.getReferenceWithIncorrectWeights (n :: C :: rest) p dp fqd
          d wp vs fqw da isCorrect))
        = some (if isCorrect then
                  [NodeOp.FoldedConvert wp p [size_mul 2 C, C, 1, 1]
                    (weights_vector (size_mul (size_mul 2 C) C) vs)]
                else [NodeOp.Subtract, NodeOp.FakeQuantize fqw.quantizationLevel,
                      NodeOp.Constant p [size_mul 2 C, C, 1, 1]
                        (weights_vector (size_mul (size_mul 2 C) C) vs)])) ∧
    (∀ (d : DequantizationOperations) (et : Type_t) (shape : Shape) (values : List float)
        (fqw : FakeQuantizeOnWeights),
      (∀ v : float, values = [v] →
        weights_chain (Call.run (Call.getOriginal p (n :: C :: rest) d et shape values fqw))
          = some ((if fqw.empty then [] else [NodeOp.FakeQuantize fqw.quantizationLevel]) ++
              [NodeOp.Constant et [size_mul 2 C, C, 1, 1]
                (List.replicate (shape_size [size_mul 2 C, C, 1, 1]) v)])) ∧
      (values.length ≠ 1 → values.length = size_mul (size_mul 2 C) C →
        weights_chain (Call.run (Call.getOriginal p (n :: C :: rest) d et shape values fqw))
          = some ((if fqw.empty then [] else [NodeOp.FakeQuantize fqw.quantizationLevel]) ++
              [NodeOp.Constant et shape values]))) ∧
    (∀ (d : DequantizationOperations) (et : Type_t) (shape : Shape) (values : List float)
        (fqw : FakeQuantizeOnWeights) (pao : Type_t) (da : DequantizationOperations)
        (pad : Type_t),
      (∀ v : float, values = [v] →
        weights_chain
            (Call.run (Call.getReference p (n :: C :: rest) d et shape values fqw pao da pad))
          = some ((if fqw.empty then [] else [NodeOp.FakeQuantize fqw.quantizationLevel]) ++
              [NodeOp.Constant et [size_mul 2 C, C, 1, 1]
                (List.replicate (shape_size [size_mul 2 C, C, 1, 1]) v)])) ∧
      (values.length ≠ 1 → values.length = size_mul (size_mul 2 C) C →
        weights_chain
            (Call.run (Call.getReference p (n :: C :: rest) d et shape values fqw pao da pad))
          = some ((if fqw.empty then [] else [NodeOp.FakeQuantize fqw.quantizationLevel]) ++
              [NodeOp.Constant et shape values]))) := by
  refine ⟨?_, ?_, ?_, ?_, ?_⟩
  · intro fqd vs fqw hvs
    exact get_chains n C rest p fqd vs fqw (expected_size_of_valid hvs)
  · intro fqw fqd isCorrect hfqw
    exact getOriginalWithIncorrectWeights_chains n C rest p fqw fqd isCorrect hfqw
  · intro dp fqd d wp vs fqw da isCorrect hvs hlow hhigh hda hfqw
    obtain ⟨l, ls, hl⟩ := List.exists_cons_of_ne_nil hlow
    obtain ⟨h, hs, hh⟩ := List.exists_cons_of_ne_nil hhigh
    have hv := expected_size_of_valid hvs
    rcases hda with hmul | hemp
    · have hne : da.multiply.values ≠ [] := by
        intro hnil
        unfold DequantizationOperations.Multiply.empty at hmul
        rw [hnil] at hmul
        simp at hmul
      obtain ⟨m, ms, hm⟩ := List.exists_cons_of_ne_nil hne
      exact getReferenceWithIncorrectWeights_chains n C rest p dp fqd d wp vs fqw da
        isCorrect l h m ls hs ms hv hfqw hl hh (Or.inl ⟨hm, multiply_present_not_empty hmul⟩)
    · exact getReferenceWithIncorrectWeights_chains n C rest p dp fqd d wp vs fqw da
        isCorrect l h float_1 ls hs [] hv hfqw hl hh
        (Or.inr ⟨empty_multiply_absent hemp, hemp⟩)
  · intro d et shape values fqw
    exact getOriginal_weights_chain n C rest p d et shape values fqw
  · intro d et shape values fqw pao da pad
    exact getReference_weights_chain n C rest p d et shape values fqw pao da pad

/-- C12 amended, witness: `get` on the shape {1,3,4,4} with one weight value, an empty data
descriptor and a weights descriptor of 255 levels. -/
theorem quantizer_wiring_by_builder_witness :
    data_chain (Call.run (Call.get [1, 3, 4, 4] Type_t.f32 ⟨0, [], [], [], [], []⟩ [float_1]
        ⟨255, [], [⟨0⟩], [⟨0x437F0000⟩], [⟨0⟩], [⟨0x437F0000⟩]⟩))
      = some [NodeOp.Parameter Type_t.f32 [1, 3, 4, 4]] ∧
    weights_chain (Call.run (Call.get [1, 3, 4, 4] Type_t.f32 ⟨0, [], [], [], [], []⟩
        [float_1] ⟨255, [], [⟨0⟩], [⟨0x437F0000⟩], [⟨0⟩], [⟨0x437F0000⟩]⟩))
      = some [NodeOp.FakeQuantize 255,
          NodeOp.Constant Type_t.f32 [6, 3, 1, 1] (List.replicate 18 float_1)] :=
  (quantizer_wiring_by_builder 1 3 [4, 4] Type_t.f32).1 ⟨0, [], [], [], [], []⟩ [float_1]
    ⟨255, [], [⟨0⟩], [⟨0x437F0000⟩], [⟨0⟩], [⟨0x437F0000⟩]⟩ (Or.inl rfl)

end builder.subgraph

/-! ## Theorems: the replacements of the reference builder -/

namespace builder.subgraph

theorem Build_bind_assoc {α β γ : Type} (x : Build α) (f : α → Build β) (h : β → Build γ) :
    (x >>= f) >>= h = x >>= fun a => f a >>= h := by
  funext g
  simp only [bind_apply]
  cases hx : x g with
  | mk r g1 =>
    cases r with
    | ok a => rfl
    | error e => rfl

theorem Build_pure_bind {α β : Type} (a : α) (f : α → Build β) : pure a >>= f = f a := by
  funext g
  rfl

theorem Build_raise_bind {α β : Type} (e : BuildError) (f : α → Build β) :
    (raise e : Build α) >>= f = raise e := by
  funext g
  rfl

/-- The reference builder is its construction, then its replacements, then its result. -/
theorem getReferenceWithIncorrectWeights_steps (s : Shape) (p dp : Type_t)
    (fqd : FakeQuantizeOnData) (d : DequantizationOperations) (wp : Type_t)
    (vs : List float) (fqw : FakeQuantizeOnWeights) (da : DequantizationOperations)
    (isCorrect : Bool) :
    ConvolutionFunction.getReferenceWithIncorrectWeights s p dp fqd d wp vs fqw da isCorrect
      = (ConvolutionFunction.getReferenceWithIncorrectWeights_construction s p dp fqd d vs
          fqw da isCorrect >>= fun l =>
        ConvolutionFunction.getReferenceWithIncorrectWeights_surgery p dp fqd d wp isCorrect l
          >>= fun _ =>
        ConvolutionFunction.getReferenceWithIncorrectWeights_result da l) := by
  unfold ConvolutionFunction.getReferenceWithIncorrectWeights
    ConvolutionFunction.getReferenceWithIncorrectWeights_construction
    ConvolutionFunction.getReferenceWithIncorrectWeights_surgery
    ConvolutionFunction.getReferenceWithIncorrectWeights_result
  cases s[1]? with
  | none => simp only [Build_raise_bind]
  | some C => simp only [Build_bind_assoc, Build_pure_bind]


theorem inputs_related_spec {ok : NodeId → NodeId → Bool} :
    ∀ (xs ys : List NodeId) (k : Nat) (t : NodeId), inputs_related ok xs ys = true →
      xs[k]? = some t → ∃ t1, ys[k]? = some t1 ∧ ok t t1 = true
  | [], _, _, _, _, h => by simp at h
  | _ :: _, [], _, _, h0, _ => by simp [inputs_related] at h0
  | x :: xs, y :: ys, 0, t, h0, h => by
    simp only [inputs_related, Bool.and_eq_true] at h0
    simp only [List.getElem?_cons_zero, Option.some.injEq] at h
    subst h
    exact ⟨y, List.getElem?_cons_zero, h0.1⟩
  | x :: xs, y :: ys, k + 1, t, h0, h => by
    simp only [inputs_related, Bool.and_eq_true] at h0
    simp only [List.getElem?_cons_succ] at h
    simpa only [List.getElem?_cons_succ] using inputs_related_spec xs ys k t h0.2 h

theorem edges_related_spec {ok : NodeId → NodeId → Bool} :
    ∀ (before after : Graph) (i : NodeId) (k : Nat) (t : NodeId),
      edges_related ok before after = true → input_node before i k = some t →
      ∃ t1, input_node after i k = some t1 ∧ ok t t1 = true
  | [], _, _, _, _, _, h => by simp [input_node] at h
  | _ :: _, [], _, _, _, h0, _ => by simp [edges_related] at h0
  | b :: bs, a :: as, 0, k, t, h0, h => by
    simp only [edges_related, Bool.and_eq_true] at h0
    simp only [input_node, List.getElem?_cons_zero] at h ⊢
    exact inputs_related_spec b.inputs a.inputs k t h0.1 h
  | b :: bs, a :: as, i + 1, k, t, h0, h => by
    simp only [edges_related, Bool.and_eq_true] at h0
    have h1 : input_node bs i k = some t := by
      simpa only [input_node, List.getElem?_cons_succ] using h
    obtain ⟨t1, ht1, hok⟩ := edges_related_spec bs as i k t h0.2 h1
    refine ⟨t1, ?_, hok⟩
    simpa only [input_node, List.getElem?_cons_succ] using ht1

set_option maxHeartbeats 4000000 in
theorem getReferenceWithIncorrectWeights_surgery_frame (n C : Nat) (rest : Shape)
    (p dp : Type_t) (fqd : FakeQuantizeOnData) (d : DequantizationOperations) (wp : Type_t)
    (vs : List float) (fqw : FakeQuantizeOnWeights) (da : DequantizationOperations)
    (isCorrect : Bool) (l h m : float) (ls hs ms : List float)
    (hv : unexpected_size vs.length C (size_mul 2 C) = false)
    (hfqw : isCorrect = true ∨ fqw.empty = false)
    (hlow : fqd.outputLowValues = l :: ls) (hhigh : fqd.outputHighValues = h :: hs)
    (hda : (da.multiply.values = m :: ms ∧ da.empty = false) ∨
           (da.multiply.values = [] ∧ da.empty = true)) :
    ∃ (loc : ReferenceLocals) (before : Graph),
      ConvolutionFunction.getReferenceWithIncorrectWeights_construction (n :: C :: rest) p dp
        fqd d vs fqw da isCorrect [] = (.ok loc, before) ∧
      ∃ after : Graph,
      ConvolutionFunction.getReferenceWithIncorrectWeights_surgery p dp fqd d wp isCorrect loc
        before = (.ok ⟨⟩, after) ∧
      ∃ (F : Function) (final : Graph),
      ConvolutionFunction.getReferenceWithIncorrectWeights_result da loc after
        = (.ok F, final) ∧
      edges_related
        (fun x y => (replaced_nodes d isCorrect loc before).contains x || x == y)
        before after = true ∧
      (!isCorrect ||
        edges_related
          (fun x y => x != loc.weights || some y == input_node after loc.convolution 1)
          before after) = true ∧
      op_at before loc.fqOnData = some (NodeOp.FakeQuantize fqd.quantizationLevel) ∧
      op_at before loc.convolution = some NodeOp.Convolution ∧
      (∃ c, consumers before loc.fqOnData = [(c, 0)]) ∧
      input_op final loc.fqOnData 3 = some (Constant_fill p [] l) ∧
      input_op final loc.fqOnData 4 = some (Constant_fill p [] h) ∧
      (∀ m1 : float, d.multiply.values.head? = some m1 →
        ∃ deq, loc.deqBefore = some deq ∧ op_at final deq = some NodeOp.Multiply ∧
          input_op final deq 1
            = some (Constant_fill p (if isCorrect then [1, 1, 1] else [1, 1, 1, 1]) m1)) ∧
      input_node after loc.fqOnData 0 = input_node before loc.fqOnData 0 ∧
      input_node after loc.fqOnData 1 = input_node before loc.fqOnData 1 ∧
      input_node after loc.fqOnData 2 = input_node before loc.fqOnData 2 ∧
      consumers after loc.fqOnData = consumers before loc.fqOnData ∧
      (∀ deq, loc.deqBefore = some deq → consumers after deq = consumers before deq) ∧
      consumers after loc.convolution = consumers before loc.convolution ∧
      (∀ t, input_node before loc.fqOnData 3 = some t →
        consumers before t = [(loc.fqOnData, 3)]) ∧
      (∀ t, input_node before loc.fqOnData 4 = some t →
        consumers before t = [(loc.fqOnData, 4)]) ∧
      (∀ deq, loc.deqBefore = some deq → ∀ t, input_node before deq 1 = some t →
        d.multiply.empty = false → consumers before t = [(deq, 1)]) ∧
      (isCorrect = true →
        input_node before loc.convolution 1 = some loc.weights ∧
        input_op after loc.convolution 1
          = some (NodeOp.FoldedConvert wp p loc.weightsShape loc.weightsData)) := by
  obtain ⟨⟨ce, cp⟩, ⟨sv, sp, ss⟩, ⟨mv, mp, ms1⟩⟩ := d
  unfold ConvolutionFunction.getReferenceWithIncorrectWeights_construction
  simp only [List.getElem?_cons_succ, List.getElem?_cons_zero, check_valid hv]
  have hq : (isCorrect = true ∧ fqw.empty = true) ∨ (isCorrect = true ∧ fqw.empty = false) ∨
      (isCorrect = false ∧ fqw.empty = false) := by
    cases isCorrect <;> cases hw : fqw.empty <;> simp_all
  rcases hda with ⟨hm, he⟩ | ⟨hm, he⟩ <;> rcases hq with ⟨hc, hw⟩ | ⟨hc, hw⟩ | ⟨hc, hw⟩
  all_goals subst hc
  all_goals simp only [ConvolutionFunction.multiply_or_null,
    DequantizationOperations.Multiply.empty, hm, he, hlow, hhigh, hw]
  all_goals cases ce <;> cases sv <;> cases mv
  all_goals simp only [bind_apply, pure_apply, raise_apply, make_shared, non_null,
    set_friendly_name, set_rt_info, setOutDataPrecision, update_node,
    get_input_node_shared_ptr, front, replace_node, makeFakeQuantize, makeDequantization,
    makeDequantization_convert, makeDequantization_subtract, makeDequantization_multiply,
    fold_Convert, fold_Broadcast, ConvolutionFunction.broadcast_weights,
    ConvolutionFunction.fakeQuantize_or_null,
    ConvolutionFunction.subtract_or_null, ConvolutionFunction.multiply_or_null,
    ConvolutionFunction.replace_range_constant, ConvolutionFunction.deref,
    ConvolutionFunction.replace_multiply_constant, ConvolutionFunction.replace_weights,
    DequantizationOperations.empty, DequantizationOperations.Convert.empty,
    DequantizationOperations.Subtract.empty, DequantizationOperations.Multiply.empty,
    dequantization_ops,
    List.isEmpty_nil, List.isEmpty_cons, Bool.and_true, Bool.and_false, Bool.true_and,
    Bool.false_and, Bool.not_true, Bool.not_false, Bool.and_self,
    List.nil_append, List.cons_append, List.append_nil, List.length_nil, List.length_cons,
    List.length_singleton, List.length_append, List.getElem?_cons_zero,
    List.getElem?_cons_succ, List.set_cons_zero, List.set_cons_succ, List.map_cons,
    List.map_nil, Nat.reduceAdd, Nat.reduceEqDiff, Nat.reduceBEq, ↓reduceIte,
    Bool.false_eq_true, hw, hlow, hhigh]
  all_goals refine ⟨_, _, rfl, ?_⟩
  all_goals simp only [ConvolutionFunction.getReferenceWithIncorrectWeights_surgery, bind_apply, pure_apply, raise_apply, make_shared, non_null,
    set_friendly_name, set_rt_info, setOutDataPrecision, update_node,
    get_input_node_shared_ptr, front, replace_node, makeFakeQuantize, makeDequantization,
    makeDequantization_convert, makeDequantization_subtract, makeDequantization_multiply,
    fold_Convert, fold_Broadcast, ConvolutionFunction.broadcast_weights,
    ConvolutionFunction.fakeQuantize_or_null,
    ConvolutionFunction.subtract_or_null, ConvolutionFunction.multiply_or_null,
    ConvolutionFunction.replace_range_constant, ConvolutionFunction.deref,
    ConvolutionFunction.replace_multiply_constant, ConvolutionFunction.replace_weights,
    DequantizationOperations.empty, DequantizationOperations.Convert.empty,
    DequantizationOperations.Subtract.empty, DequantizationOperations.Multiply.empty,
    dequantization_ops,
    List.isEmpty_nil, List.isEmpty_cons, Bool.and_true, Bool.and_false, Bool.true_and,
    Bool.false_and, Bool.not_true, Bool.not_false, Bool.and_self,
    List.nil_append, List.cons_append, List.append_nil, List.length_nil, List.length_cons,
    List.length_singleton, List.length_append, List.getElem?_cons_zero,
    List.getElem?_cons_succ, List.set_cons_zero, List.set_cons_succ, List.map_cons,
    List.map_nil, Nat.reduceAdd, Nat.reduceEqDiff, Nat.reduceBEq, ↓reduceIte,
    Bool.false_eq_true,
    hw, hlow, hhigh]
  all_goals refine ⟨_, rfl, ?_⟩
  all_goals simp only [ConvolutionFunction.getReferenceWithIncorrectWeights_result, he]
  all_goals simp only [bind_apply, pure_apply, raise_apply, make_shared, non_null,
    set_friendly_name, set_rt_info, setOutDataPrecision, update_node,
    get_input_node_shared_ptr, front, replace_node, makeFakeQuantize, makeDequantization,
    makeDequantization_convert, makeDequantization_subtract, makeDequantization_multiply,
    fold_Convert, fold_Broadcast, ConvolutionFunction.broadcast_weights,
    ConvolutionFunction.fakeQuantize_or_null,
    ConvolutionFunction.subtract_or_null, ConvolutionFunction.multiply_or_null,
    ConvolutionFunction.replace_range_constant, ConvolutionFunction.deref,
    ConvolutionFunction.replace_multiply_constant, ConvolutionFunction.replace_weights,
    DequantizationOperations.empty, DequantizationOperations.Convert.empty,
    DequantizationOperations.Subtract.empty, DequantizationOperations.Multiply.empty,
    dequantization_ops,
    List.isEmpty_nil, List.isEmpty_cons, Bool.and_true, Bool.and_false, Bool.true_and,
    Bool.false_and, Bool.not_true, Bool.not_false, Bool.and_self,
    List.nil_append, List.cons_append, List.append_nil, List.length_nil, List.length_cons,
    List.length_singleton, List.length_append, List.getElem?_cons_zero,
    List.getElem?_cons_succ, List.set_cons_zero, List.set_cons_succ, List.map_cons,
    List.map_nil, Nat.reduceAdd, Nat.reduceEqDiff, Nat.reduceBEq, ↓reduceIte,
    Bool.false_eq_true]
  all_goals refine ⟨_, _, rfl, ?_⟩
  all_goals simp only [List.head?_cons, List.head?_nil, Option.some.injEq, forall_eq',
    exists_eq_left', reduceCtorEq, false_implies, implies_true, and_true, true_and,
    Bool.false_eq_true, true_implies]
  all_goals simp only [input_node, List.getElem?_cons_zero, List.getElem?_cons_succ,
    List.getElem?_nil, Option.some.injEq, forall_eq', reduceCtorEq, false_implies,
    implies_true, and_true, true_and, replaced_nodes, Option.toList,
    DequantizationOperations.Multiply.empty, List.isEmpty_cons, List.isEmpty_nil,
    List.nil_append, List.cons_append, List.append_nil, ↓reduceIte, Bool.false_eq_true,
    Bool.not_true, Bool.not_false, Bool.false_or, Bool.true_or]
  all_goals simp only [consumers, consumers_from, input_positions, input_op, input_node, op_at,
    Option.map_some', List.getElem?_cons_zero, List.getElem?_cons_succ, List.map_cons,
    List.map_nil, List.nil_append, List.cons_append, List.append_nil, Nat.reduceAdd,
    Nat.reduceEqDiff, OfNat.ofNat_ne_zero, ↓reduceIte, and_self, and_true, true_and,
    Option.some.injEq, List.cons.injEq, reduceCtorEq, forall_const, imp_self,
    exists_eq_left', false_implies, implies_true, Prod.mk.injEq, exists_eq',
    DequantizationOperations.Multiply.empty, List.isEmpty_cons, List.isEmpty_nil,
    Bool.true_eq_false, true_implies]
  all_goals first
    | exact ⟨rfl, rfl⟩
    | rfl

/-- C14 as stated fails: in the call on the shape {1,3,8,8} with a multiply by 2.0 in
`dequantizationBefore`, one weight value, an empty weights descriptor and `isCorrect`, the
replacements change an edge that is none of the replaced operands of the quantizer and of the
dequantization: input 1 of the Convolution, wired to the weights constant (node 8) before,
is wired to the folded conversion of the weights (node 13) after. -/
theorem surgery_rewires_convolution_weights :
    (surgery_graphs [1, 3, 8, 8] Type_t.f32 Type_t.u8
      ⟨256, [], [⟨0⟩], [⟨0x437F0000⟩], [⟨0⟩], [⟨0x437F0000⟩]⟩
      ⟨⟨true, Type_t.f32⟩, ⟨[], Type_t.f32, []⟩, ⟨[⟨0x40000000⟩], Type_t.f32, []⟩⟩
      Type_t.i8 [float_1] ⟨0, [], [], [], [], []⟩
      ⟨⟨true, Type_t.f32⟩, ⟨[], Type_t.f32, []⟩, ⟨[], Type_t.f32, []⟩⟩ true).map
      (fun s => (s.1.convolution, op_at s.2.1 s.1.convolution,
        input_node s.2.1 s.1.convolution 1, input_op s.2.1 s.1.convolution 1,
        input_node s.2.2 s.1.convolution 1, input_op s.2.2 s.1.convolution 1))
      = some (9, some NodeOp.Convolution,
          some 8, some (NodeOp.Constant Type_t.f32 [6, 3, 1, 1] (List.replicate 18 float_1)),
          some 13, some (NodeOp.FoldedConvert Type_t.i8 Type_t.f32 [6, 3, 1, 1]
            (List.replicate 18 float_1))) := by
  rfl

/-- C14 amended: in a call of `getReferenceWithIncorrectWeights` that constructs its graph
(input shape of rank at least 2, valid number of weight values, non-empty output ranges of the
data descriptor, `dequantizationAfter` empty or with a multiply, `isCorrect` or a non-empty
weights descriptor) the replacements leave inputs 3 and 4 of the data quantizer as constants
holding `outputLowValues[0]` and `outputHighValues[0]` and, with a multiply in
`dequantizationBefore`, input 1 of that multiply as a constant holding `multiply.values[0]`.
Every edge whose source is not a replaced node is preserved, among them inputs 0, 1 and 2 of
the quantizer and the consumers of the quantizer, of the dequantization and of the
Convolution; the replaced constants had no other consumer.  When `isCorrect`, the weights
constant is replaced as well: each of its consumers, input 1 of the Convolution among them,
is rewired to the weights constant folded to the weights precision. -/
theorem surgery_replaces_operands_keeps_edges (n C : Nat) (rest : Shape) (p dp : Type_t)
    (fqd : FakeQuantizeOnData) (d : DequantizationOperations) (wp : Type_t)
    (vs : List float) (fqw : FakeQuantizeOnWeights) (da : DequantizationOperations)
    (isCorrect : Bool)
    (hvs : vs.length = 1 ∨ vs.length = size_mul (size_mul 2 C) C)
    (hlow : fqd.outputLowValues ≠ []) (hhigh : fqd.outputHighValues ≠ [])
    (hda : da.multiply.empty = false ∨ da.empty = true)
    (hfqw : isCorrect = true ∨ fqw.empty = false) :
    SurgeryFrame (n :: C :: rest) p dp fqd d wp vs fqw da isCorrect := by
  obtain ⟨l, ls, hl⟩ := List.exists_cons_of_ne_nil hlow
  obtain ⟨h, hs, hh⟩ := List.exists_cons_of_ne_nil hhigh
  have hv := expected_size_of_valid hvs
  have hda1 : ∃ (m : float) (ms : List float),
      (da.multiply.values = m :: ms ∧ da.empty = false) ∨
      (da.multiply.values = [] ∧ da.empty = true) := by
    rcases hda with hmul | hemp
    · have hne : da.multiply.values ≠ [] := by
        intro hnil
        unfold DequantizationOperations.Multiply.empty at hmul
        rw [hnil] at hmul
        simp at hmul
      obtain ⟨m, ms, hm⟩ := List.exists_cons_of_ne_nil hne
      exact ⟨m, ms, Or.inl ⟨hm, multiply_present_not_empty hmul⟩⟩
    · exact ⟨float_1, [], Or.inr ⟨empty_multiply_absent hemp, hemp⟩⟩
  obtain ⟨m, ms, hda2⟩ := hda1
  obtain ⟨loc, before, hc, after, hsur, F, final, hr, hk1, hk2, h1, h2, hone, h3, h4, h5,
      hi0, hi1, hi2, hcq, hcd, hcc, hr3, hr4, hrm, hw⟩ :=
    getReferenceWithIncorrectWeights_surgery_frame n C rest p dp fqd d wp vs fqw da isCorrect
      l h m ls hs ms hv hfqw hl hh hda2
  refine ⟨loc, before, hc, after, hsur, F, final, hr, ?_, h1, h2, hone, ?_, ?_, h5,
    hi0, hi1, hi2, hcq, hcd, hcc, ?_, hr3, hr4, hrm, ?_⟩
  · show ConvolutionFunction.getReferenceWithIncorrectWeights (n :: C :: rest) p dp fqd d wp
      vs fqw da isCorrect [] = (.ok F, final)
    rw [getReferenceWithIncorrectWeights_steps]
    simp only [bind_apply, hc, hsur, hr]
  · rw [hl]
    exact h3
  · rw [hh]
    exact h4
  · intro i k t hi hnot
    obtain ⟨t1, ht1, hok⟩ := edges_related_spec before after i k t hk1 hi
    have hcontains : (replaced_nodes d isCorrect loc before).contains t = false := by
      simpa using hnot
    rw [hcontains, Bool.false_or, beq_iff_eq] at hok
    rw [ht1, hok]
  · intro hcorrect
    refine ⟨(hw hcorrect).1, (hw hcorrect).2, ?_⟩
    intro i k hi
    rw [hcorrect] at hk2
    simp only [Bool.not_true, Bool.false_or] at hk2
    obtain ⟨t1, ht1, hok⟩ := edges_related_spec before after i k loc.weights hk2 hi
    simp only [bne_self_eq_false, Bool.false_or, beq_iff_eq] at hok
    rw [ht1, hok]

/-- C14 amended, witness: the shape {1,3,8,8}, a data descriptor of 256 levels with the output
range 0 to 255, a multiply by 2.0 in `dequantizationBefore`, one weight value and
`isCorrect`. -/
theorem surgery_replaces_operands_keeps_edges_witness :
    SurgeryFrame [1, 3, 8, 8] Type_t.f32 Type_t.u8
      ⟨256, [], [⟨0⟩], [⟨0x437F0000⟩], [⟨0⟩], [⟨0x437F0000⟩]⟩
      ⟨⟨true, Type_t.f32⟩, ⟨[], Type_t.f32, []⟩, ⟨[⟨0x40000000⟩], Type_t.f32, []⟩⟩
      Type_t.i8 [float_1] ⟨0, [], [], [], [], []⟩
      ⟨⟨true, Type_t.f32⟩, ⟨[], Type_t.f32, []⟩, ⟨[], Type_t.f32, []⟩⟩ true :=
  surgery_replaces_operands_keeps_edges 1 3 [8, 8] Type_t.f32 Type_t.u8
    ⟨256, [], [⟨0⟩], [⟨0x437F0000⟩], [⟨0⟩], [⟨0x437F0000⟩]⟩
    ⟨⟨true, Type_t.f32⟩, ⟨[], Type_t.f32, []⟩, ⟨[⟨0x40000000⟩], Type_t.f32, []⟩⟩
    Type_t.i8 [float_1] ⟨0, [], [], [], [], []⟩
    ⟨⟨true, Type_t.f32⟩, ⟨[], Type_t.f32, []⟩, ⟨[], Type_t.f32, []⟩⟩ true
    (Or.inl rfl) (by decide) (by decide) (Or.inr rfl) (Or.inl rfl)

end builder.subgraph

end ngraph
